import Mathlib

/-!
# API keys and the response cache of the search server

A shallow embedding of `AuthManager` and `api_key_t` (`src/src/auth_manager.cpp`) and of
the handlers `get_search` and `post_multi_search` (`src/src/core_api.cpp`).

* A `std::string` is a Lean `String`; one `Char` stands for one byte, and every
  position-based operation (`substr`, `size`, `back`) works on `String.data`.
* A `std::map<std::string, T>` is an association list kept in ascending key order,
  iterated front to back.
* `uint64_t` values are natural numbers; conversions that can wrap are written with
  an explicit `% 2 ^ 64`.
* `std::time(0)` is the argument `now`; one call of `authenticate` sees one clock value.
* Library code that the file calls but does not define (base64, HMAC, the JSON reader,
  `std::regex`, `StringUtils::split`) and the constants of `auth_manager.h` are the
  fields of `Env`; a theorem that quantifies over `Env` holds for every implementation.
  The functions behind the handlers (the search, the hash, the readers of numbers) are
  the fields of `Core` in the same way.
-/

set_option autoImplicit false

/-! ## Strings -/

namespace StdString

/-- The `s.substr(pos, n)` of C++ for `pos ≤ s.size()`. -/
def substr (s : String) (pos n : Nat) : String := ⟨(s.data.drop pos).take n⟩

/-- The `s.substr(pos)` of C++ for `pos ≤ s.size()`. -/
def substr_from (s : String) (pos : Nat) : String := ⟨s.data.drop pos⟩

/-- The byte `s[i]`, when `i` is in range. -/
def at? (s : String) (i : Nat) : Option Char := s.data.get? i

/-- Ordering of `std::string` keys in a `std::map` (lexicographic on the bytes). -/
def lt (a b : String) : Prop := a.data < b.data

instance (a b : String) : Decidable (lt a b) := by
  unfold lt; exact inferInstance

end StdString

/-! ## `std::map<std::string, T>` -/

namespace StdMap

variable {β : Type}

/-- The `m.find(k)` of C++: the mapped value, when the key is present. -/
def find (m : List (String × β)) (k : String) : Option β :=
  match m with
  | [] => none
  | (k', v) :: rest => if k' = k then some v else find rest k

/-- The `m.count(k)` of C++. -/
def count (m : List (String × β)) (k : String) : Nat :=
  match find m k with
  | some _ => 1
  | none => 0

/-- The `m[k] = v` of C++: replaces the value of a present key, inserts an absent one at
its place in key order. -/
def set (m : List (String × β)) (k : String) (v : β) : List (String × β) :=
  match m with
  | [] => [(k, v)]
  | (k', v') :: rest =>
    if k' = k then (k, v) :: rest
    else if StdString.lt k k' then (k, v) :: (k', v') :: rest
    else (k', v') :: set rest k v

/-- The `m.emplace(k, v)` of C++: inserts only when the key is absent. -/
def emplace (m : List (String × β)) (k : String) (v : β) : List (String × β) :=
  match find m k with
  | some _ => m
  | none => set m k v

/-- The `m.erase(k)` of C++. -/
def erase (m : List (String × β)) (k : String) : List (String × β) :=
  m.filter fun kv => decide (kv.1 ≠ k)

end StdMap

/-- The request parameters, a `std::map<std::string, std::string>`. -/
abbrev Params := List (String × String)

/-! ## JSON values (`nlohmann::json`) -/

/-- A value of `nlohmann::json`. Integers are stored signed (`number_integer`, an
`int64_t`) or unsigned (`number_unsigned`, a `uint64_t`), as in the library. A float is
represented by the text that `std::to_string(get<float>())` gives for it; its numeric
value plays no role in this code. An object lists its members in key order. -/
inductive json where
  | null
  | boolean (b : Bool)
  | number_integer (i : Int)
  | number_unsigned (n : Nat)
  | number_float (text : String)
  | string (s : String)
  | array (elems : List json)
  | object (members : List (String × json))

namespace json

def is_object : json → Bool
  | object _ => true
  | _ => false

def is_string : json → Bool
  | string _ => true
  | _ => false

def is_boolean : json → Bool
  | boolean _ => true
  | _ => false

def is_number_float : json → Bool
  | number_float _ => true
  | _ => false

/-- True for a signed and for an unsigned integer, as in the library. -/
def is_number_integer : json → Bool
  | number_integer _ => true
  | number_unsigned _ => true
  | _ => false

def is_array : json → Bool
  | array _ => true
  | _ => false

/-- The elements that a range-for over an array visits. -/
def elems : json → List json
  | array elements => elements
  | _ => []

/-- The `j.empty()` of the library: true for `null` and for an array or object without
elements. -/
def empty : json → Bool
  | null => true
  | array elements => elements.isEmpty
  | object members => members.isEmpty
  | _ => false

/-- The number of elements, `j.size()`, of an array. -/
def size (j : json) : Nat := j.elems.length

/-- The members that `items()` iterates over. -/
def items : json → List (String × json)
  | object members => members
  | _ => []

/-- The `j.count(key)` of an object. -/
def count (j : json) (key : String) : Nat := StdMap.count j.items key

/-- The `j[key]` of an object that has the key (`null` stands for an absent member). -/
def get (j : json) (key : String) : json := (StdMap.find j.items key).getD null

/-- A 64-bit pattern read as a signed number (two's complement). -/
def to_int64 (i : Int) : Int :=
  let r := i % 2 ^ 64
  if r < 2 ^ 63 then r else r - 2 ^ 64

/-- The `get<int64_t>()` of a number: an unsigned value of `2^63` or more wraps to a
negative one. -/
def get_int64 : json → Int
  | number_integer i => to_int64 i
  | number_unsigned n => to_int64 n
  | _ => 0

/-- The `get<uint64_t>()` of a number: a negative value wraps modulo `2^64`. -/
def get_uint64 : json → Nat
  | number_integer i => (i % 2 ^ 64).toNat
  | number_unsigned n => n % 2 ^ 64
  | _ => 0

/-- A bit pattern cut down to 32 bits and read as a signed number. -/
def to_int32 (i : Int) : Int :=
  let r := i % 2 ^ 32
  if r < 2 ^ 31 then r else r - 2 ^ 32

/-- The `get<int>()` of a number, the conversion of the stored 64-bit value to an `int`
of 32 bits. -/
def get_int32 : json → Int
  | number_integer i => to_int32 i
  | number_unsigned n => to_int32 n
  | _ => 0

/-- The `get<std::string>()` of a value; `none` stands for the `type_error` that the
library throws for a value that is not a string. -/
def get_string : json → Option String
  | string s => some s
  | _ => none

end json

/-! ## Results with an error code (`Option<T>` of the code base) -/

/-- The `Option<T>` of the code base: a value, or an error code with a message. -/
inductive Result (α : Type) where
  | value (a : α)
  | error (code : Nat) (msg : String)
  deriving DecidableEq

namespace Result

variable {α : Type}

def ok : Result α → Bool
  | value _ => true
  | error _ _ => false

def code : Result α → Nat
  | value _ => 200
  | error c _ => c

/-- The `error()` text of a failed result. -/
def message : Result α → String
  | value _ => ""
  | error _ m => m

end Result

/-! ## API keys -/

/-- The record `api_key_t`; `id` is a `uint32_t`, `expires_at` a `uint64_t`. -/
structure api_key_t where
  id : Nat
  value : String
  description : String
  actions : List String
  collections : List String
  expires_at : Nat
  deriving DecidableEq

namespace api_key_t

/-- The first failing check of `api_key_t::validate` on the elements of `actions` or of
`collections` (lines 346-356): some element is no string. -/
def some_not_string (items : List json) : Bool :=
  items.any fun item => !item.is_string

/-- `api_key_t::validate` (lines 319-365): the value 200, or the error 400 with its
message. -/
def validate (key_obj : json) : Result Nat :=
  if key_obj.count "description" = 0 then
    Result.error 400 "Could not find a `description` key."
  else if key_obj.count "actions" = 0 then
    Result.error 400 "Could not find a `actions` key."
  else if key_obj.count "collections" = 0 then
    Result.error 400 "Could not find a `collections` key."
  else if key_obj.count "value" ≠ 0 ∧ (key_obj.get "value").is_string = false then
    Result.error 400 "Key value must be a string."
  else if key_obj.count "description" ≠ 0
      ∧ (key_obj.get "description").is_string = false then
    Result.error 400 "Key description must be a string."
  else if (key_obj.get "actions").is_array = false
      ∨ (key_obj.get "actions").empty = true then
    Result.error 400 "Wrong format for `actions`. It should be an array of string."
  else if (key_obj.get "collections").is_array = false
      ∨ (key_obj.get "collections").empty = true then
    Result.error 400 "Wrong format for `collections`. It should be an array of string."
  else if some_not_string (key_obj.get "actions").elems = true then
    Result.error 400 "Wrong format for `actions`. It should be an array of string."
  else if some_not_string (key_obj.get "collections").elems = true then
    Result.error 400 "Wrong format for `collections`. It should be an array of string."
  else if key_obj.count "expires_at" ≠ 0 then
    if (key_obj.get "expires_at").is_number_integer = false
        ∨ (key_obj.get "expires_at").get_int64 < 0 then
      Result.error 400 "Wrong format for `expires_at`. It should be an unsigned integer."
    else Result.value 200
  else Result.value 200

end api_key_t

/-! ## The environment -/

/-- Library functions and header constants used by `auth_manager.cpp`.

* `split s delim` is the vector that `StringUtils::split(s, out, delim)` fills.
* `regex_match s e` is `std::regex_match(s, std::regex(e))` for a pattern `e` that
  `std::regex` compiles, and `regex_error e` says that `std::regex(e)` throws
  `std::regex_error` instead. The functions below give the value of a call that does
  not throw; `auth_against_key_throws` says which calls end in the exception.
* `json_parse` is `nlohmann::json::parse`; `none` stands for a thrown parse error.
* `hmac key msg` is `StringUtils::hmac`, the base64 text of the HMAC-SHA256.
* `dump_api_key k` is `k.to_json().dump()`, the stored text of a key.
* `load_api_key text` is `api_key_t::load`, the key read back from a stored text, or
  the error it reports.
* `serialize_uint32_t` and `deserialize_uint32_t` are the counter coding of
  `StringUtils`. -/
structure Env where
  HMAC_BASE64_LEN : Nat
  PREFIX_LEN : Nat
  API_KEYS_PREFIX : String
  API_KEY_NEXT_ID_KEY : String
  split : String → String → List String
  regex_match : String → String → Bool
  regex_error : String → Bool
  base64_decode : String → String
  hmac : String → String → String
  json_parse : String → Option json
  dump_api_key : api_key_t → String
  load_api_key : String → Result api_key_t
  serialize_uint32_t : Nat → String
  deserialize_uint32_t : String → Nat

/-! ## The store -/

/-- The outcome of a read of the store. -/
inductive StoreStatus where
  | FOUND
  | NOT_FOUND
  | ERROR
  deriving DecidableEq

/-- Modelled from the spec: the key-value store that the authentication manager
consumes, with the interface `get(key) -> {FOUND(value), NOT_FOUND, ERROR}`,
`insert(key, value) -> bool`, `remove(key) -> bool`, `increment(key, delta)` and
`scan_fill(prefix) -> [value]`. The class `Store` is not part of the sources at hand.
The entries are kept in key order; the three flags say which of the fallible operations
fail on this store. -/
structure Store where
  entries : List (String × String)
  get_fails : Bool
  insert_fails : Bool
  remove_fails : Bool
  deriving DecidableEq

namespace Store

/-- Modelled from the spec: `get(key) -> {FOUND(value), NOT_FOUND, ERROR}` of the
store; the text is the value found (empty otherwise). -/
def get (s : Store) (key : String) : StoreStatus × String :=
  if s.get_fails then (StoreStatus.ERROR, "")
  else match StdMap.find s.entries key with
    | some value => (StoreStatus.FOUND, value)
    | none => (StoreStatus.NOT_FOUND, "")

/-- Modelled from the spec: `insert(key, value) -> bool` of the store, which writes the
pair and reports success, or fails and writes nothing. -/
def insert (s : Store) (key value : String) : Bool × Store :=
  if s.insert_fails then (false, s)
  else (true, { s with entries := StdMap.set s.entries key value })

/-- Modelled from the spec: `remove(key) -> bool` of the store, which deletes the key
and reports success, or fails and deletes nothing. -/
def remove (s : Store) (key : String) : Bool × Store :=
  if s.remove_fails then (false, s)
  else (true, { s with entries := StdMap.erase s.entries key })

/-- Modelled from the spec: `increment(key, delta)` of the store, which adds `delta` to
the 32-bit counter stored under `key` (an absent counter counts as 0). -/
def increment (env : Env) (s : Store) (key : String) (delta : Nat) : Store :=
  let old := ((StdMap.find s.entries key).map env.deserialize_uint32_t).getD 0
  let text := env.serialize_uint32_t ((old + delta) % 2 ^ 32)
  { s with entries := StdMap.set s.entries key text }

/-- Modelled from the spec: `scan_fill(prefix) -> [value]` of the store, the values of
all keys that begin with `pfx`, in key order. -/
def scan_fill (s : Store) (pfx : String) : List String :=
  (s.entries.filter fun kv => pfx.data.isPrefixOf kv.1.data).map Prod.snd

end Store

/-- The members of the class `AuthManager` (the lock apart). -/
structure AuthManager where
  store : Store
  bootstrap_auth_key : String
  next_api_key_id : Nat
  api_keys : List (String × api_key_t)
  deriving DecidableEq

namespace AuthManager

/-- Modelled from the spec: the constant `AuthManager::DOCUMENTS_SEARCH_ACTION` of
`auth_manager.h`, which the spec names `documents:search`. -/
def DOCUMENTS_SEARCH_ACTION : String := "documents:search"

/-- The loop of `auth_against_key` over `api_key.actions` (lines 192-210). The result
is `none` when the loop evaluates `actual_action_parts[0]` on an empty vector, which
C++ leaves undefined. -/
def action_is_allowed (env : Env) (action : String) : List String → Option Bool
  | [] => some false
  | allowed_action :: rest =>
    if allowed_action = "*" ∨ (action ≠ "*" ∧ allowed_action = action) then some true
    else if 2 ≤ allowed_action.length
        ∧ StdString.at? allowed_action (allowed_action.length - 2) = some ':'
        ∧ allowed_action.data.getLast? = some '*' then
      let allowed_resource := StdString.substr allowed_action 0 (allowed_action.length - 2)
      match env.split action ":" with
      | [] => none
      | part0 :: _ =>
        if part0 = allowed_resource then some true
        else action_is_allowed env action rest
    else action_is_allowed env action rest

/-- The condition of line 221-222 for one allowed collection. -/
def allows (env : Env) (allowed_collection req_collection : String) : Bool :=
  allowed_collection == "*" || allowed_collection == req_collection
    || req_collection == "" || env.regex_match req_collection allowed_collection

/-- The inner loop of lines 220-226: some allowed collection admits `req_collection`. -/
def coll_allowed (env : Env) (allowed : List String) (req_collection : String) : Bool :=
  allowed.any fun allowed_collection => allows env allowed_collection req_collection

/-- `AuthManager::auth_against_key` (lines 176-235). `none` is the undefined behaviour
of `action_is_allowed`. The value is that of a call which does not throw; see
`auth_against_key_throws`. -/
def auth_against_key (env : Env) (now : Nat) (collections : List String) (action : String)
    (api_key : api_key_t) (search_only : Bool) : Option Bool :=
  if now > api_key.expires_at then some false
  else
    let action_ok : Option Bool :=
      if search_only then
        if api_key.actions.length ≠ 1 ∨ api_key.actions.head? ≠ some DOCUMENTS_SEARCH_ACTION
        then some false else some true
      else action_is_allowed env action api_key.actions
    match action_ok with
    | none => none
    | some false => some false
    | some true => some (collections.all fun req_collection =>
        coll_allowed env api_key.collections req_collection)

/-- The tail of `authenticate_parse_params` once the digest of a parent key has matched
(lines 277-304): the parsed parameters and the verdict. `embedded_params` is the value
the reference argument holds before the call (it stays when the parse throws). -/
def check_embedded_params (env : Env) (now : Nat) (api_key : api_key_t)
    (custom_params : String) (embedded_params : json) : Result Bool × json :=
  match env.json_parse custom_params with
  | none => (Result.error 403 "Forbidden.", embedded_params)
  | some parsed =>
    if !parsed.is_object then (Result.error 403 "Forbidden.", parsed)
    else if parsed.count "expires_at" ≠ 0 then
      if !(parsed.get "expires_at").is_number_integer
          || decide ((parsed.get "expires_at").get_int64 < 0) then
        (Result.error 403 "Forbidden.", parsed)
      else
        let expiry_ts := min api_key.expires_at (parsed.get "expires_at").get_uint64
        if now > expiry_ts then (Result.error 403 "Forbidden.", parsed)
        else (Result.value true, parsed)
    else (Result.value true, parsed)

/-- The loop of `authenticate_parse_params` over the key table (lines 261-309). -/
def verify_against_keys (env : Env) (now : Nat) (collections : List String)
    (action hmacSHA256 : String) ( key_prefix : String) (custom_params : String)
    (embedded_params : json) : List (String × api_key_t) → Option (Result Bool × json)
  | [] => some (Result.error 403 "Forbidden.", embedded_params)
  | kv :: rest =>
    if StdString.substr kv.1 0 env.PREFIX_LEN = key_prefix then
      match auth_against_key env now collections action kv.2 true with
      | none => none
      | some false => some (Result.error 403 "Forbidden.", embedded_params)
      | some true =>
        if env.hmac kv.1 custom_params = hmacSHA256 then
          some (check_embedded_params env now kv.2 custom_params embedded_params)
        else verify_against_keys env now collections action hmacSHA256 key_prefix
          custom_params embedded_params rest
    else verify_against_keys env now collections action hmacSHA256 key_prefix
      custom_params embedded_params rest

/-- The slice `hmacSHA256` of the decoded payload (line 256). -/
def digest_of (env : Env) (key_payload : String) : String :=
  StdString.substr key_payload 0 env.HMAC_BASE64_LEN

/-- The slice `key_prefix` of the decoded payload (line 257). -/
def parent_prefix_of (env : Env) (key_payload : String) : String :=
  StdString.substr key_payload env.HMAC_BASE64_LEN env.PREFIX_LEN

/-- The slice `custom_params` of the decoded payload (line 258). -/
def custom_params_of (env : Env) (key_payload : String) : String :=
  StdString.substr_from key_payload (env.HMAC_BASE64_LEN + env.PREFIX_LEN)

/-- `AuthManager::authenticate_parse_params` (lines 237-310): the returned `Option<bool>`
together with the final value of the reference argument `embedded_params`. -/
def authenticate_parse_params (env : Env) (now : Nat) (api_keys : List (String × api_key_t))
    (scoped_api_key action : String) (collections : List String) (embedded_params : json) :
    Option (Result Bool × json) :=
  if action ≠ DOCUMENTS_SEARCH_ACTION then
    some (Result.error 403 "Forbidden.", embedded_params)
  else
    let key_payload := env.base64_decode scoped_api_key
    if key_payload.length < env.HMAC_BASE64_LEN + env.PREFIX_LEN then
      some (Result.error 403 "Forbidden.", embedded_params)
    else
      verify_against_keys env now collections action (digest_of env key_payload)
        (parent_prefix_of env key_payload) (custom_params_of env key_payload)
        embedded_params api_keys

/-- The text that `add_item_to_params` stores for a value (lines 372-384): a string as
it is, an integer through `get<int64_t>()` in decimal, a float through its text, a boolean
as `true` or `false`; `none` for every other value. -/
def str_value : json → Option String
  | json.string s => some s
  | json.number_integer i => some (toString (json.number_integer i).get_int64)
  | json.number_unsigned n => some (toString (json.number_unsigned n).get_int64)
  | json.number_float text => some text
  | json.boolean b => some (if b then "true" else "false")
  | _ => none

/-- `AuthManager::add_item_to_params` (lines 368-395): the returned flag and the
parameter map after the call. -/
def add_item_to_params (req_params : Params) (item : String × json) (overwrite : Bool) :
    Bool × Params :=
  match str_value item.2 with
  | none => (false, req_params)
  | some sv =>
    if StdMap.count req_params item.1 = 0 then
      (true, StdMap.set req_params item.1 sv)
    else if item.1 = "filter_by" then
      (true, StdMap.set req_params item.1
        (((StdMap.find req_params item.1).getD "") ++ "&&" ++ sv))
    else if overwrite then
      (true, StdMap.set req_params item.1 sv)
    else (true, req_params)

/-- The loop of `authenticate` over the embedded parameters (lines 163-170). -/
def enrich_params (params : Params) : List (String × json) → Params
  | [] => params
  | item :: rest =>
    if item.1 = "expires_at" then enrich_params params rest
    else enrich_params (add_item_to_params params item true).2 rest

/-- `AuthManager::authenticate` (lines 142-174): the returned flag and the parameter map
after the call; `none` is the undefined behaviour of `action_is_allowed`. -/
def authenticate (env : Env) (now : Nat) (api_keys : List (String × api_key_t))
    (req_api_key action : String) (collections : List String) (params : Params) :
    Option (Bool × Params) :=
  match StdMap.find api_keys req_api_key with
  | some api_key =>
    match auth_against_key env now collections action api_key false with
    | none => none
    | some b => some (b, params)
  | none =>
    match authenticate_parse_params env now api_keys req_api_key action collections
        json.null with
    | none => none
    | some (auth_op, embedded_params) =>
      if !auth_op.ok then some (false, params)
      else some (true, enrich_params params embedded_params.items)

/-- `AuthManager::get_next_api_key_id` (lines 137-140): the id handed out and the manager
after the call; the counter is a `uint32_t`. -/
def get_next_api_key_id (env : Env) (self : AuthManager) : Nat × AuthManager :=
  (self.next_api_key_id,
    { self with
      store := self.store.increment env env.API_KEY_NEXT_ID_KEY 1
      next_api_key_id := (self.next_api_key_id + 1) % 2 ^ 32 })

/-- `AuthManager::create_key` (lines 95-115): the returned `Option<api_key_t>`, the
manager after the call and the final value of the reference argument `api_key`. -/
def create_key (env : Env) (self : AuthManager) (api_key : api_key_t) :
    Result api_key_t × AuthManager × api_key_t :=
  if StdMap.count self.api_keys api_key.value ≠ 0
      ∨ api_key.value = self.bootstrap_auth_key then
    (Result.error 409 "API key generation conflict.", self, api_key)
  else
    let next := get_next_api_key_id env self
    let api_key1 : api_key_t := { api_key with id := next.1 }
    let api_key_store_key := env.API_KEYS_PREFIX ++ "_" ++ toString api_key1.id
    let stored := next.2.store.insert api_key_store_key (env.dump_api_key api_key1)
    if !stored.1 then
      (Result.error 500 "Could not store generated API key.",
        { next.2 with store := stored.2 }, api_key1)
    else
      (Result.value api_key1,
        { next.2 with
          store := stored.2
          api_keys := StdMap.emplace next.2.api_keys api_key1.value api_key1 },
        api_key1)

/-- Modelled from the spec: `api_key_t::truncate_value` of `auth_manager.h`, which cuts
the value of a key down to the short prefix (its first `PREFIX_LEN` bytes) that listings
show. -/
def truncate_value (env : Env) (api_key : api_key_t) : api_key_t :=
  { api_key with value := StdString.substr api_key.value 0 env.PREFIX_LEN }

/-- `AuthManager::get_key` (lines 68-93). -/
def get_key (env : Env) (self : AuthManager) (id : Nat) (truncate : Bool) :
    Result api_key_t :=
  let api_key_store_key := env.API_KEYS_PREFIX ++ "_" ++ toString id
  let got := self.store.get api_key_store_key
  if got.1 = StoreStatus.FOUND then
    match env.load_api_key got.2 with
    | Result.error code msg => Result.error code msg
    | Result.value api_key =>
      if truncate then Result.value (truncate_value env api_key)
      else Result.value api_key
  else if got.1 = StoreStatus.NOT_FOUND then Result.error 404 "Not found."
  else Result.error 500 "Error while fetching key from store."

/-- `AuthManager::remove_key` (lines 117-135): the returned `Option<api_key_t>` and the
manager after the call. -/
def remove_key (env : Env) (self : AuthManager) (id : Nat) :
    Result api_key_t × AuthManager :=
  match get_key env self id false with
  | Result.error code msg => (Result.error code msg, self)
  | Result.value key =>
    let api_key_store_key := env.API_KEYS_PREFIX ++ "_" ++ toString id
    let removed := self.store.remove api_key_store_key
    if !removed.1 then
      (Result.error 500 "Could not delete API key.", { self with store := removed.2 })
    else
      (Result.value (truncate_value env key),
        { self with
          store := removed.2
          api_keys := StdMap.erase self.api_keys key.value })

/-- The loop of `init` over the stored keys (lines 34-42, and line 44 at its end): the
returned `Option<bool>` and the key map after the loop. -/
def load_keys (env : Env) :
    List String → List (String × api_key_t) → Result Bool × List (String × api_key_t)
  | [], api_keys => (Result.value true, api_keys)
  | api_key_json_str :: rest, api_keys =>
    match env.load_api_key api_key_json_str with
    | Result.error code msg => (Result.error code msg, api_keys)
    | Result.value api_key =>
      load_keys env rest (StdMap.emplace api_keys api_key.value api_key)

/-- `AuthManager::init` (lines 8-45): the returned `Option<bool>` and the manager after
the call. The manager takes over the store handed in. -/
def init (env : Env) (self : AuthManager) (store : Store) (bootstrap_auth_key : String) :
    Result Bool × AuthManager :=
  let self1 : AuthManager :=
    { self with store := store, bootstrap_auth_key := bootstrap_auth_key }
  let next_api_key_id_status := store.get env.API_KEY_NEXT_ID_KEY
  if next_api_key_id_status.1 = StoreStatus.ERROR then
    (Result.error 500 "Error while fetching the next API key id from the store.", self1)
  else
    let next_api_key_id :=
      if next_api_key_id_status.1 = StoreStatus.FOUND then
        env.deserialize_uint32_t next_api_key_id_status.2 % 2 ^ 32
      else 0
    let loaded := load_keys env (store.scan_fill env.API_KEYS_PREFIX) self1.api_keys
    (loaded.1, { self1 with next_api_key_id := next_api_key_id, api_keys := loaded.2 })

/-- The loop of `list_keys` over the stored keys (lines 55-63, and line 65 at its end). -/
def list_keys_loop (env : Env) : List String → List api_key_t → Result (List api_key_t)
  | [], stored_api_keys => Result.value stored_api_keys
  | api_key_json_str :: rest, stored_api_keys =>
    match env.load_api_key api_key_json_str with
    | Result.error code msg => Result.error code msg
    | Result.value api_key =>
      list_keys_loop env rest (stored_api_keys ++ [truncate_value env api_key])

/-- `AuthManager::list_keys` (lines 47-66), a `const` member: it hands back a list and
leaves the manager as it is. -/
def list_keys (env : Env) (self : AuthManager) : Result (List api_key_t) :=
  list_keys_loop env (self.store.scan_fill env.API_KEYS_PREFIX) []

end AuthManager

/-! ## The search handlers of `src/src/core_api.cpp`

The handlers read the clock at the cache lookup and again when they store a response;
the two readings are the arguments `now` and `later`, counted in ticks of
`std::chrono::high_resolution_clock`. -/

/-- Modelled from the spec: the request object `http_req` of `http_data.h`, of which the
handlers use the hash of the route, the body and the parameters. -/
structure http_req where
  route_hash : Nat
  body : String
  params : Params
  deriving DecidableEq

/-- Modelled from the spec: the response object `http_res` of `http_data.h`, of which
the handlers set the status code, the content type, the body and the `final` flag. -/
structure http_res where
  status_code : Nat
  content_type_header : String
  body : String
  final : Bool
  deriving DecidableEq

/-- Modelled from the spec: the record `cached_res_t` of a cached response,
`(status_code, content_type, body, created_at, ttl_seconds)` with the fingerprint it is
stored under; `ttl` is a `uint32_t`, `created_at` a time point in ticks. -/
structure cached_res_t where
  status_code : Nat
  content_type_header : String
  body : String
  created_at : Int
  ttl : Nat
  hash : Nat
  deriving DecidableEq

/-- Modelled from the spec: the response cache `LRU::Cache<uint64_t, cached_res_t>`, a
capacity-bounded mapping from fingerprints to cached responses. The entries are listed
from the latest insertion to the earliest; an insertion beyond the capacity drops the
entries at the end. The refresh of the recency order by `find` is not modelled. -/
structure LRUCache where
  entries : List (Nat × cached_res_t)
  capacity : Nat
  deriving DecidableEq

namespace LRUCache

/-- Modelled from the spec: `find(key)` of the cache, the entry stored under the
fingerprint, if there is one. -/
def find (c : LRUCache) (key : Nat) : Option cached_res_t :=
  (c.entries.find? fun kv => kv.1 == key).map Prod.snd

/-- Modelled from the spec: `insert(key, value)` of the cache, which stores the value
under the fingerprint in place of an earlier one and keeps at most `capacity`
entries. -/
def insert (c : LRUCache) (key : Nat) (value : cached_res_t) : LRUCache :=
  { c with
    entries := ((key, value) :: c.entries.filter fun kv => kv.1 != key).take c.capacity }

end LRUCache

/-- Functions that `core_api.cpp` calls but does not define.

* `hash_wy text` is `StringUtils::hash_wy` of the bytes of `text`.
* `do_search params` is `CollectionManager::do_search`: the returned `Option<bool>` and
  the text left in `results_json_str`.
* `is_int32_t`, `is_uint32_t` are the tests of `StringUtils`. `stoul text` is the number
  that `std::stoul` reads from a text that passed `is_int32_t`. `stoi text` is the number
  that `std::stoi` reads; `none` stands for the exception that it throws, as
  `std::out_of_range` for a number beyond `INT_MAX`.
* `json_parse` is `nlohmann::json::parse`; `none` stands for a thrown parse error.
* `results_dump outcomes` is the text `response.dump()` of the object with the `results`
  array of lines 387-394, built from the outcomes of the searches in order.
* `message_body msg` is the body that `http_res::set(code, msg)` writes.
* `ticks_per_second` is the resolution of the clock. -/
structure Core where
  hash_wy : String → Nat
  do_search : Params → Result Bool × String
  is_int32_t : String → Bool
  is_uint32_t : String → Bool
  stoul : String → Nat
  stoi : String → Option Nat
  json_parse : String → Option json
  results_dump : List (Result Bool × String) → String
  message_body : String → String
  ticks_per_second : Nat

namespace http_res

/-- Modelled from the spec: `http_res::set_content(status, content_type, body, final)`,
which hands out a response as it is given. -/
def set_content (res : http_res) (status_code : Nat) (content_type_header body : String)
    (final : Bool) : http_res :=
  { res with
    status_code := status_code
    content_type_header := content_type_header
    body := body
    final := final }

/-- Modelled from the spec: `http_res::set_200(body)`, the successful response. -/
def set_200 (res : http_res) (body : String) : http_res :=
  { res with status_code := 200, body := body }

/-- Modelled from the spec: `http_res::set(code, message)`, the error response with its
integer code. -/
def set (core : Core) (res : http_res) (code : Nat) (message : String) : http_res :=
  { res with status_code := code, body := core.message_body message }

/-- Modelled from the spec: `http_res::set_400(message)`, the bad-request response. -/
def set_400 (core : Core) (res : http_res) (message : String) : http_res :=
  set core res 400 message

end http_res

/-- The values of the parameters other than `use_cache`, in key order, joined (the loop
of lines 223-227). -/
def hashed_values : Params → String
  | [] => ""
  | kv :: rest => if kv.1 ≠ "use_cache" then kv.2 ++ hashed_values rest else hashed_values rest

/-- `hash_request` (lines 219-231). -/
def hash_request (core : Core) (req : http_req) : Nat :=
  core.hash_wy (toString req.route_hash ++ req.body ++ hashed_values req.params)

/-- The byte string `req_str` that `hash_request` builds in its stream and hands to the
hash (lines 220-230). -/
def req_str (req : http_req) : String :=
  toString req.route_hash ++ req.body ++ hashed_values req.params

/-- The flag `use_cache` of lines 234-235 and 295-296. -/
def use_cache_of (params : Params) : Bool :=
  match StdMap.find params "use_cache" with
  | some value => value == "1" || value == "true"
  | none => false

/-- The `seconds_elapsed` of lines 252-253: the whole seconds between two time points
(rounded towards zero), stored in a `uint64_t`. -/
def seconds_elapsed (core : Core) (now created_at : Int) : Nat :=
  ((Int.tdiv (now - created_at) core.ticks_per_second) % 2 ^ 64).toNat

/-- The cached response that lines 238-262 (and 299-321) serve, if any. -/
def cache_lookup (core : Core) (now : Int) (cache : LRUCache) (req : http_req) :
    Option cached_res_t :=
  if use_cache_of req.params then
    match cache.find (hash_request core req) with
    | some cached_value =>
      if seconds_elapsed core now cached_value.created_at < cached_value.ttl then
        some cached_value
      else none
    | none => none
  else none

/-- The `req_hash` of the handlers: the fingerprint when `use_cache` is set, else 0. -/
def req_hash_of (core : Core) (req : http_req) : Nat :=
  if use_cache_of req.params then hash_request core req else 0

/-- The `cache_ttl` of lines 278-282 (and 403-407), a `uint32_t`. -/
def cache_ttl_of (core : Core) (params : Params) : Nat :=
  match StdMap.find params "cache_ttl" with
  | some value => if core.is_int32_t value then core.stoul value % 2 ^ 32 else 60
  | none => 60

/-- The insertion of lines 284-288 (and 409-413). -/
def cache_store (core : Core) (later : Int) (cache : LRUCache) (req_hash : Nat)
    (params : Params) (res : http_res) : LRUCache :=
  cache.insert req_hash
    { status_code := res.status_code
      content_type_header := res.content_type_header
      body := res.body
      created_at := later
      ttl := cache_ttl_of core params
      hash := req_hash }

/-- The part of `get_search` behind the cache lookup (lines 264-291): the returned flag,
the response and the cache. `use_cache` and `req_hash` are the locals of that name. -/
def get_search_miss (core : Core) (later : Int) (cache : LRUCache) (req : http_req)
    (res : http_res) (use_cache : Bool) (req_hash : Nat) : Bool × http_res × LRUCache :=
  let search_op := core.do_search req.params
  if !search_op.1.ok then
    (false, http_res.set core res search_op.1.code search_op.1.message, cache)
  else
    let res1 := res.set_200 search_op.2
    if use_cache then (true, res1, cache_store core later cache req_hash req.params res1)
    else (true, res1, cache)

/-- `get_search` (lines 233-292): the returned flag, the response and the cache after
the call. -/
def get_search (core : Core) (now later : Int) (cache : LRUCache) (req : http_req)
    (res : http_res) : Bool × http_res × LRUCache :=
  match cache_lookup core now cache req with
  | some cached_value =>
    (true, res.set_content cached_value.status_code cached_value.content_type_header
      cached_value.body true, cache)
  | none =>
    get_search_miss core later cache req res (use_cache_of req.params) (req_hash_of core req)

/-- The loop of `post_multi_search` over the items of one search (lines 370-382): whether
every item was taken, and the parameters after the loop. -/
def merge_search_items : Params → List (String × json) → Bool × Params
  | params, [] => (true, params)
  | params, search_item :: rest =>
    if search_item.1 = "cache_ttl" then merge_search_items params rest
    else
      let populated := AuthManager.add_item_to_params params search_item false
      if !populated.1 then (false, populated.2)
      else merge_search_items populated.2 rest

/-- The loop of `post_multi_search` over the searches (lines 362-395): the message of
the bad-request response that ends it early, if any, the request parameters as the loop
leaves them, and the outcomes of the searches run so far. -/
def run_searches (core : Core) (orig_req_params : Params) :
    List json → Params → List (Result Bool × String) →
    Option String × Params × List (Result Bool × String)
  | [], params, outcomes => (none, params, outcomes)
  | search_params :: rest, params, outcomes =>
    if !search_params.is_object then
      (some "The value of `searches` must be an array of objects.", params, outcomes)
    else
      let merged := merge_search_items orig_req_params search_params.items
      if !merged.1 then
        (some "One or more search parameters are malformed.", merged.2, outcomes)
      else
        run_searches core orig_req_params rest merged.2
          (outcomes ++ [core.do_search merged.2])

/-- The `limit_multi_searches` of lines 343-348; `none` when `std::stoi` throws. -/
def limit_multi_searches_of (core : Core) (params : Params) : Option Nat :=
  if StdMap.count params "limit_multi_searches" ≠ 0
      ∧ core.is_uint32_t ((StdMap.find params "limit_multi_searches").getD "") = true then
    core.stoi ((StdMap.find params "limit_multi_searches").getD "")
  else some 50

/-- The part of `post_multi_search` behind the cache lookup (lines 323-416): the returned
flag, the request (whose parameters the loop rewrites), the response and the cache. The
flag is `none` when the handler ends in the exception of `std::stoi` (line 347), which
leaves the request, the response and the cache as they are. -/
def post_multi_search_miss (core : Core) (later : Int) (cache : LRUCache) (req : http_req)
    (res : http_res) (use_cache : Bool) (req_hash : Nat) :
    Option Bool × http_req × http_res × LRUCache :=
  match core.json_parse req.body with
  | none => (some false, req, http_res.set_400 core res "Bad JSON.", cache)
  | some req_json =>
    if req_json.count "searches" = 0 then
      (some false, req, http_res.set_400 core res "Missing `searches` array.", cache)
    else if !(req_json.get "searches").is_array then
      (some false, req, http_res.set_400 core res "Missing `searches` array.", cache)
    else
      match limit_multi_searches_of core req.params with
      | none => (none, req, res, cache)
      | some limit_multi_searches =>
        if (req_json.get "searches").size > limit_multi_searches then
          (some false, req, http_res.set_400 core res
            "Number of multi searches exceeds `limit_multi_searches` parameter.", cache)
        else
          let ran :=
            run_searches core req.params (req_json.get "searches").elems req.params []
          let req1 : http_req := { req with params := ran.2.1 }
          match ran.1 with
          | some message => (some false, req1, http_res.set_400 core res message, cache)
          | none =>
            let res1 := res.set_200 (core.results_dump ran.2.2)
            if use_cache then
              (some true, req1, res1,
                cache_store core later cache req_hash req1.params res1)
            else (some true, req1, res1, cache)

/-- `post_multi_search` (lines 294-417): the returned flag (`none` when the handler ends
in the exception of `std::stoi`), the request, the response and the cache after the
call. -/
def post_multi_search (core : Core) (now later : Int) (cache : LRUCache) (req : http_req)
    (res : http_res) : Option Bool × http_req × http_res × LRUCache :=
  match cache_lookup core now cache req with
  | some cached_value =>
    (some true, req, res.set_content cached_value.status_code
      cached_value.content_type_header cached_value.body true, cache)
  | none =>
    post_multi_search_miss core later cache req res (use_cache_of req.params)
      (req_hash_of core req)

/-! ## The collections handed to authentication (`get_collections_for_auth`) -/

/-- The handlers that `get_collections_for_auth` and `handle_authentication` tell apart
by the address in `rpath.handler`; `other` stands for every other handler. -/
inductive route_handler where
  | get_health
  | post_multi_search
  | post_create_collection
  | other
  deriving DecidableEq

/-- The loop of lines 68-72 over the elements of `searches`: the vector after the loop,
or `none` when `get<std::string>()` throws. -/
def searches_collections : List json → List String → Option (List String)
  | [], collections => some collections
  | el :: rest, collections =>
    if el.is_object = true ∧ el.count "collection" ≠ 0 then
      match (el.get "collection").get_string with
      | some name => searches_collections rest (collections ++ [name])
      | none => none
    else searches_collections rest collections

/-- `get_collections_for_auth` (lines 56-91): the vector `collections` after the call, or
`none` when the call ends in an exception. `core.json_parse body = none` stands for the
`discarded` value that `parse(body, nullptr, false)` returns for a malformed body. -/
def get_collections_for_auth (core : Core) (req_params : Params) (body : String)
    (handler : route_handler) (collections : List String) : Option (List String) :=
  let collections1 :=
    if StdMap.count req_params "collection" ≠ 0 then
      collections ++ [(StdMap.find req_params "collection").getD ""]
    else collections
  if handler = route_handler.post_multi_search then
    match core.json_parse body with
    | none => some collections1
    | some obj =>
      if obj.count "searches" ≠ 0 ∧ (obj.get "searches").is_array = true then
        searches_collections (obj.get "searches").elems collections1
      else some collections1
  else if handler = route_handler.post_create_collection then
    match core.json_parse body with
    | none => some collections1
    | some obj =>
      if obj.count "name" ≠ 0 ∧ (obj.get "name").is_string = true then
        some (collections1 ++ [((obj.get "name").get_string).getD ""])
      else some collections1
  else if collections1.isEmpty then some (collections1 ++ [""])
  else some collections1

/-! ## The configuration handler (`post_config`) -/

/-- Modelled from the spec: the three values of the singleton `Config` that `post_config`
sets through `set_log_slow_requests_time_ms(int)`, `set_healthy_read_lag(size_t)` and
`set_healthy_write_lag(size_t)`. The class `Config` is not part of the sources at hand;
a `size_t` has 64 bits. -/
structure Config where
  log_slow_requests_time_ms : Int
  healthy_read_lag : Nat
  healthy_write_lag : Nat
  deriving DecidableEq

/-- The conversion of an `int` to a `size_t`, which wraps a negative number modulo
`2^64`. -/
def to_size_t (i : Int) : Nat := (i % 2 ^ 64).toNat

/-- Modelled from the spec: `http_res::set_201(body)`, the response to a creation. -/
def http_res.set_201 (res : http_res) (body : String) : http_res :=
  { res with status_code := 201, body := body }

/-- Modelled from the spec: `http_res::set_404()`, the response for a missing resource. -/
def http_res.set_404 (core : Core) (res : http_res) : http_res :=
  http_res.set core res 404 "Not Found"

/-- The block of `post_config` for `log-slow-requests-time-ms` (lines 1287-1295): the
message of the bad-request response that ends the handler, or the configuration and the
flag `found_config` after the block. -/
def post_config_log_slow (req_json : json) (config : Config) (found_config : Bool) :
    Except String (Config × Bool) :=
  if req_json.count "log-slow-requests-time-ms" ≠ 0 then
    if !(req_json.get "log-slow-requests-time-ms").is_number_integer then
      Except.error "Configuration `log-slow-requests-time-ms` must be an integer."
    else
      let value := (req_json.get "log-slow-requests-time-ms").get_int32
      Except.ok ({ config with log_slow_requests_time_ms := value }, true)
  else Except.ok (config, found_config)

/-- The block of `post_config` for `healthy-read-lag` (lines 1297-1311). The local
`read_lag` is a `size_t`, so that `read_lag <= 0` holds for 0 only. -/
def post_config_read_lag (req_json : json) (config : Config) (found_config : Bool) :
    Except String (Config × Bool) :=
  if req_json.count "healthy-read-lag" ≠ 0 then
    if !(req_json.get "healthy-read-lag").is_number_integer then
      Except.error "Configuration `healthy-read-lag` must be a positive integer."
    else
      let read_lag := to_size_t (req_json.get "healthy-read-lag").get_int32
      if read_lag ≤ 0 then
        Except.error "Configuration `healthy-read-lag` must be a positive integer."
      else Except.ok ({ config with healthy_read_lag := read_lag }, true)
  else Except.ok (config, found_config)

/-- The block of `post_config` for `healthy-write-lag` (lines 1313-1327). The local
`write_lag` is a `size_t`; the setter is handed `get<int>()` again, which its `size_t`
parameter converts. -/
def post_config_write_lag (req_json : json) (config : Config) (found_config : Bool) :
    Except String (Config × Bool) :=
  if req_json.count "healthy-write-lag" ≠ 0 then
    if !(req_json.get "healthy-write-lag").is_number_integer then
      Except.error "Configuration `healthy-write-lag` must be an integer."
    else
      let write_lag := to_size_t (req_json.get "healthy-write-lag").get_int32
      if write_lag ≤ 0 then
        Except.error "Configuration `healthy-write-lag` must be a positive integer."
      else
        let value := to_size_t (req_json.get "healthy-write-lag").get_int32
        Except.ok ({ config with healthy_write_lag := value }, true)
  else Except.ok (config, found_config)

/-- `post_config` (lines 1274-1338): the returned flag, the response and the
configuration after the call. `dump` is `nlohmann::json::dump`. A block that ends the
handler leaves the values that earlier blocks have set. -/
def post_config (core : Core) (dump : json → String) (config : Config) (req : http_req)
    (res : http_res) : Bool × http_res × Config :=
  match core.json_parse req.body with
  | none => (false, http_res.set_400 core res "Bad JSON.", config)
  | some req_json =>
    match post_config_log_slow req_json config false with
    | Except.error message => (false, http_res.set_400 core res message, config)
    | Except.ok after_log =>
      match post_config_read_lag req_json after_log.1 after_log.2 with
      | Except.error message => (false, http_res.set_400 core res message, after_log.1)
      | Except.ok after_read =>
        match post_config_write_lag req_json after_read.1 after_read.2 with
        | Except.error message => (false, http_res.set_400 core res message, after_read.1)
        | Except.ok after_write =>
          if !after_write.2 then
            (true, http_res.set_400 core res "Invalid configuration.", after_write.1)
          else
            (true, res.set_201 (dump (json.object [("success", json.boolean true)])),
              after_write.1)

/-! ## Overrides (`override_t::parse` and `put_override`)

The class `override_t` is declared in a header that is not part of the sources at hand;
its test `OverrideJSONValidation` and the handler `put_override` are. -/

/-- Modelled from the spec: an override (curation rule) with `id`, `rule.query`,
`rule.match`, `includes` (pairs of a document id and a position), `excludes` (document
ids), `filter_by` and `remove_matched_tokens` (true unless stated). -/
structure override_t where
  id : String
  rule_query : String
  rule_match : String
  includes : List (String × Int)
  excludes : List String
  filter_by : String
  remove_matched_tokens : Bool

namespace override_t

/-- Modelled from the spec: the check of one entry of `includes` ("include entries
require both `id` (string) and `position` (integer)"), with the messages of the test;
`none` when the entry passes. -/
def include_error (include_obj : json) : Option String :=
  if !include_obj.is_object then some "The `includes` value must be an array of objects."
  else if include_obj.count "id" = 0 ∨ include_obj.count "position" = 0 then
    some "Inclusion definition must define both `id` and `position` keys."
  else if !(include_obj.get "id").is_string then some "Inclusion `id` must be a string."
  else if !(include_obj.get "position").is_number_integer then
    some "Inclusion `position` must be an integer."
  else none

/-- Modelled from the spec: the check of one entry of `excludes` ("exclude entries
require `id` (string)"), with the messages of the test; `none` when the entry passes. -/
def exclude_error (exclude_obj : json) : Option String :=
  if !exclude_obj.is_object then some "The `excludes` value must be an array of objects."
  else if exclude_obj.count "id" = 0 then some "Exclusion definition must define an `id`."
  else if !(exclude_obj.get "id").is_string then some "Exclusion `id` must be a string."
  else none

/-- Modelled from the spec: the check of `includes`, the first complaint about the
array or about one of its entries. -/
def includes_error (override_json : json) : Option String :=
  if override_json.count "includes" = 0 then none
  else if !(override_json.get "includes").is_array then
    some "The `includes` value must be an array."
  else (override_json.get "includes").elems.findSome? include_error

/-- Modelled from the spec: the check of `excludes`, the first complaint about the
array or about one of its entries. -/
def excludes_error (override_json : json) : Option String :=
  if override_json.count "excludes" = 0 then none
  else if !(override_json.get "excludes").is_array then
    some "The `excludes` value must be an array."
  else (override_json.get "excludes").elems.findSome? exclude_error

/-- Modelled from the spec: the check of `filter_by` ("if present, is a non-empty
string"). -/
def filter_by_error (override_json : json) : Option String :=
  if override_json.count "filter_by" = 0 then none
  else if !(override_json.get "filter_by").is_string then
    some "The `filter_by` must be a string."
  else if (override_json.get "filter_by").get_string = some "" then
    some "The `filter_by` must be a non-empty string."
  else none

/-- Modelled from the spec: the override that an accepted JSON describes; the id is the
one handed in, or the `id` of the JSON when that one is empty. -/
def of_json (override_json : json) (id : String) : override_t where
  id := if id = "" then ((override_json.get "id").get_string).getD "" else id
  rule_query := (((override_json.get "rule").get "query").get_string).getD ""
  rule_match := (((override_json.get "rule").get "match").get_string).getD ""
  includes := (override_json.get "includes").elems.map fun include_obj =>
    (((include_obj.get "id").get_string).getD "", (include_obj.get "position").get_int64)
  excludes := (override_json.get "excludes").elems.map fun exclude_obj =>
    ((exclude_obj.get "id").get_string).getD ""
  filter_by := ((override_json.get "filter_by").get_string).getD ""
  remove_matched_tokens :=
    match override_json.get "remove_matched_tokens" with
    | json.boolean b => b
    | _ => true

/-- Modelled from the spec: `override_t::parse(override_json, id, override)`, the
validation "at least one of `includes`, `excludes`, `filter_by` must be present;
`filter_by`, if present, is a non-empty string; include entries require both `id`
(string) and `position` (integer); exclude entries require `id` (string)", with the
messages of the test `OverrideJSONValidation`. The result holds the override that the
function fills on success. The spec states no validation of `rule`; none is made. -/
def parse (override_json : json) (id : String) : Result override_t :=
  if override_json.count "includes" = 0 ∧ override_json.count "excludes" = 0
      ∧ override_json.count "filter_by" = 0 then
    Result.error 400 "Must contain one of:`includes`, `excludes`, `filter_by`."
  else
    match includes_error override_json with
    | some message => Result.error 400 message
    | none =>
      match excludes_error override_json with
      | some message => Result.error 400 message
      | none =>
        match filter_by_error override_json with
        | some message => Result.error 400 message
        | none => Result.value (of_json override_json id)

end override_t

/-- The assignment `j[key] = value` to an object (or to `null`, which becomes an
object); for any other value the library throws, which the handlers below do not
reach. -/
def json.set_member (j : json) (key : String) (value : json) : json :=
  match j with
  | json.object members => json.object (StdMap.set members key value)
  | json.null => json.object [(key, value)]
  | other => other

/-- `put_override` (lines 1064-1104): the returned flag, the response and the collection
after the call. `collection` is what `get_collection` returns for the parameter
`collection` (`none` for `nullptr`), `add_override` is `Collection::add_override` on a
collection of type `C`, and `dump` is `nlohmann::json::dump`. The empty entries that
`req->params[...]` adds to the parameters for a missing key are not tracked. -/
def put_override {C : Type} (core : Core) (dump : json → String)
    (add_override : C → override_t → Result Nat × C) (collection : Option C)
    (req : http_req) (res : http_res) : Bool × http_res × Option C :=
  let override_id := (StdMap.find req.params "id").getD ""
  match collection with
  | none => (false, http_res.set_404 core res, none)
  | some coll =>
    match core.json_parse req.body with
    | none => (false, http_res.set_400 core res "Bad JSON.", some coll)
    | some req_json =>
      match override_t.parse req_json override_id with
      | Result.error code message => (false, http_res.set core res code message, some coll)
      | Result.value override =>
        let add_op := add_override coll override
        if !add_op.1.ok then
          (false, http_res.set core res add_op.1.code add_op.1.message, some add_op.2)
        else
          (true, res.set_200 (dump (req_json.set_member "id" (json.string override.id))),
            some add_op.2)

/-! ## The cap on sort keys (`Collection::search`)

The class `Collection` is not part of the sources at hand; its test
`ThreeSortFieldsLimit` is. -/

/-- Modelled from the spec: a sort key, the name of a field (or an expression) with a
direction. -/
structure sort_by where
  name : String
  order : String
  deriving DecidableEq

namespace Collection

/-- Modelled from the spec: the check of `Collection::search` on its sort keys, "At most
3 sort keys; exceeding this fails with an invalid-argument error", with the message
`Only upto 3 sort_by fields can be specified.` of scenario S4 and of the test.
`evaluate` stands for the rest of the search, which runs on a list that passes. -/
def search {R : Type} (evaluate : List sort_by → Result R) (sort_fields : List sort_by) :
    Result R :=
  if sort_fields.length > 3 then
    Result.error 400 "Only upto 3 sort_by fields can be specified."
  else evaluate sort_fields

end Collection

/-! ## Synonym reduction (`Collection::synonym_reduction`)

Only the tests of the reduction are part of the sources at hand. The model scans the
tokens from the left; where phrases with a replacement begin, the longest ones are
replaced (by each alternative, in the order of insertion of the synonyms) and the scan
goes on behind the replaced phrase, so that a replacement is not replaced again. -/

/-- Modelled from the spec: a synonym with `id`, `root` (possibly empty) and
`synonyms`. -/
structure synonym_t where
  id : String
  root : List String
  synonyms : List (List String)
  deriving DecidableEq

namespace synonym_t

/-- Modelled from the spec: the replacements that a synonym allows, as pairs of a phrase
and its alternatives: "if `root` is non-empty, occurrences of `root` in a query may be
replaced by any element of `synonyms` (one-way). If `root` is empty, any element of
`synonyms` may be replaced by any other element (multi-way)". -/
def rules (s : synonym_t) : List (List String × List (List String)) :=
  if s.root ≠ [] then [(s.root, s.synonyms)]
  else s.synonyms.map fun member => (member, s.synonyms.filter fun other => other ≠ member)

end synonym_t

namespace Collection

/-- Modelled from the spec: whether the phrase, which is not empty, stands at the front
of the tokens. -/
def occurs_at (phrase tokens : List String) : Bool :=
  !phrase.isEmpty && phrase.isPrefixOf tokens

/-- Modelled from the spec: whether the phrase occurs somewhere in the tokens. -/
def occurs_in (phrase tokens : List String) : Bool :=
  tokens.tails.any fun rest => occurs_at phrase rest

/-- Modelled from the spec: the length of the longest phrase with a replacement that
stands at the front of the tokens, 0 when there is none ("the longer replacement
wins"). -/
def longest_at (rules : List (List String × List (List String))) (tokens : List String) :
    Nat :=
  ((rules.filter fun rule => occurs_at rule.1 tokens).map fun rule => rule.1.length).foldl
    max 0

/-- Modelled from the spec: the alternatives for the longest phrases at the front of the
tokens, in the order of insertion of their synonyms. -/
def replacements_at (rules : List (List String × List (List String)))
    (tokens : List String) : List (List String) :=
  ((rules.filter fun rule =>
      occurs_at rule.1 tokens && rule.1.length == longest_at rules tokens).map
    Prod.snd).flatten

/-- Modelled from the spec: the scan of the reduction: the rewritten sequences of the
tokens, and whether a replacement was made. `skip` counts the tokens of a replaced
phrase still to pass over. -/
def reduce_from (rules : List (List String × List (List String))) :
    Nat → List String → List (List String) × Bool
  | _, [] => ([[]], false)
  | skip + 1, _ :: rest => reduce_from rules skip rest
  | 0, token :: rest =>
    if longest_at rules (token :: rest) = 0 then
      ((reduce_from rules 0 rest).1.map fun tail => token :: tail,
        (reduce_from rules 0 rest).2)
    else
      ((replacements_at rules (token :: rest)).flatMap fun replacement =>
          (reduce_from rules (longest_at rules (token :: rest) - 1) rest).1.map
            fun tail => replacement ++ tail,
        true)

/-- Modelled from the spec: `synonym_reduction(tokens, results)`: "given a token
sequence, produce token sequences in which occurrences of multi-token synonym groups
have been replaced by their canonical form; the original sequence is not included".
The tokens are taken as normalized. -/
def synonym_reduction (synonyms : List synonym_t) (tokens : List String) :
    List (List String) :=
  let scanned := reduce_from (synonyms.flatMap synonym_t.rules) 0 tokens
  if scanned.2 then scanned.1 else []

end Collection

/-! ## Predicates of the specification -/

namespace AuthManager

/-- A sequence of `create_key` calls, one for each key of the list in order: the results
of the calls and the manager after the last one. -/
def create_keys (env : Env) : AuthManager → List api_key_t →
    List (Result api_key_t) × AuthManager
  | self, [] => ([], self)
  | self, api_key :: rest =>
    let first := create_key env self api_key
    let others := create_keys env first.2.1 rest
    (first.1 :: others.1, others.2)

/-- The ids of the keys that a sequence of calls created, in the order of the calls. -/
def created_ids : List (Result api_key_t) → List Nat
  | [] => []
  | Result.value api_key :: rest => api_key.id :: created_ids rest
  | Result.error _ _ :: rest => created_ids rest

/-- What `auth_against_key` asks of a parent key (`search_only` set): not expired, the
single action `documents:search`, and every requested collection admitted. -/
def parent_eligible (env : Env) (now : Nat) (collections : List String)
    (api_key : api_key_t) : Bool :=
  decide (now ≤ api_key.expires_at)
    && decide (api_key.actions = [DOCUMENTS_SEARCH_ACTION])
    && collections.all fun c => coll_allowed env api_key.collections c

/-- The loop of `authenticate_parse_params` goes past a table entry: its key has another
prefix, or the key is accepted as a parent and its digest differs. -/
def passed_over (env : Env) (now : Nat) (collections : List String) (digest pfx : String)
    (custom_params : String) (kv : String × api_key_t) : Prop :=
  StdString.substr kv.1 0 env.PREFIX_LEN ≠ pfx
    ∨ (parent_eligible env now collections kv.2 = true
      ∧ env.hmac kv.1 custom_params ≠ digest)

/-- The value that a merge with `overwrite` set leaves under the key `k`: the embedded
text `s` when the request had no such key; the request's text, `&&` and `s` for
`filter_by`; `s` in place of the request's text for every other key. -/
def merged_value (k : String) (old : Option String) (s : String) : String :=
  match old with
  | none => s
  | some o => if k = "filter_by" then o ++ "&&" ++ s else s

/-- The text of an embedded value in the words of the claim: a string as it is, an
integer in decimal, a float through its text, a boolean as `true` or `false`. -/
def embedded_text : json → String
  | json.string s => s
  | json.number_integer i => toString i
  | json.number_unsigned n => toString n
  | json.number_float text => text
  | json.boolean b => if b then "true" else "false"
  | _ => ""

/-- An embedded value of the kinds that the claim names (string, integer, float,
boolean), an integer being one that an `int64_t` holds. -/
def embedded_scalar : json → Bool
  | json.string _ => true
  | json.number_integer i => decide (-2 ^ 63 ≤ i) && decide (i < 2 ^ 63)
  | json.number_unsigned n => decide (n < 2 ^ 63)
  | json.number_float _ => true
  | json.boolean _ => true
  | _ => false

/-- The persisted counter of key ids: the 32-bit number stored under
`API_KEY_NEXT_ID_KEY`, a missing entry counting as 0. -/
def persisted_counter (env : Env) (store : Store) : Nat :=
  ((StdMap.find store.entries env.API_KEY_NEXT_ID_KEY).map env.deserialize_uint32_t).getD 0
    % 2 ^ 32

/-- The value that the claim on multi-search gives to a key of a `searches` entry with
the text `s`, where `old` is the value of the original request: an original value is
kept, but for `filter_by`, onto which the entry's filter is ANDed. -/
def kept_value (k : String) (old : Option String) (s : String) : String :=
  match old with
  | none => s
  | some o => if k = "filter_by" then o ++ "&&" ++ s else o

/-- The parameters with which the claim on multi-search runs the search of one entry:
the original parameters merged with the items of that entry only. -/
def entry_params (orig_req_params : Params) (search_params : json) : Params :=
  (merge_search_items orig_req_params search_params.items).2

end AuthManager

/-! ## A concrete environment

The theorems below hold for every `Env`. To evaluate the definitions on examples, this
section fixes one: `split` follows `StringUtils::split` (pieces between occurrences of
the delimiter, each trimmed of white space, empty pieces dropped), the regular
expressions are the literal patterns and `.*`, base64 is the identity coding, the digest
is a keyed tag of 44 bytes, and the JSON reader knows the texts of the examples. -/

namespace Sample

/-- The `std::isspace` of the C locale. -/
def isspace (c : Char) : Bool :=
  c == ' ' || c == '\t' || c == '\n' || c == '\x0b' || c == '\x0c' || c == '\r'

/-- The `StringUtils::trim` of a byte sequence. -/
def trim (l : List Char) : List Char :=
  ((l.dropWhile isspace).reverse.dropWhile isspace).reverse

/-- The raw pieces of `rest` between occurrences of `delim`; `skip` counts the bytes of
a delimiter still to pass over, `cur` holds the current piece in reverse. -/
def pieces (delim : List Char) : Nat → List Char → List Char → List (List Char)
  | _, cur, [] => [cur.reverse]
  | skip + 1, cur, _ :: rest => pieces delim skip cur rest
  | 0, cur, c :: rest =>
    if delim.isPrefixOf (c :: rest) then cur.reverse :: pieces delim (delim.length - 1) [] rest
    else pieces delim 0 (c :: cur) rest

/-- The vector that `StringUtils::split(s, out, delim)` fills. -/
def split (s delim : String) : List String :=
  if delim = "" then [s]
  else (((pieces delim.data 0 [] s.data).map trim).filter fun p => !p.isEmpty).map String.mk

/-- A matcher for the literal patterns and for `.*`. -/
def regex_match (s e : String) : Bool := e == ".*" || e == s

/-- The patterns that the sample takes as refused by `std::regex`: those with a round or
square bracket, such as `(`, which opens a group that is never closed. -/
def regex_error (e : String) : Bool :=
  e.data.any fun c => c == '(' || c == ')' || c == '[' || c == ']'

/-- A keyed tag of 44 bytes. -/
def hmac (key msg : String) : String :=
  ⟨((msg.data ++ '/' :: key.data) ++ List.replicate 44 '=').take 44⟩

/-- The number written by a sequence of decimal digits. -/
def digits_value (l : List Char) : Nat :=
  l.foldl (fun n c => 10 * n + (c.toNat - '0'.toNat)) 0

/-- The JSON texts of the examples with their values. -/
def json_texts : List (String × json) :=
  [ ("\x7b\"filter_by\":\"a:1\"\x7d", json.object [("filter_by", json.string "a:1")]),
    ("\x7b\"expires_at\":1,\"filter_by\":\"a:1\"\x7d",
      json.object [("expires_at", json.number_unsigned 1), ("filter_by", json.string "a:1")]),
    ("\x7b\"expires_at\":9223372036854775808\x7d",
      json.object [("expires_at", json.number_unsigned 9223372036854775808)]),
    ("\x7b\"cache_ttl\":120,\"filter_by\":\"a:1\",\"q\":\"shoe\"\x7d",
      json.object [("cache_ttl", json.number_unsigned 120), ("filter_by", json.string "a:1"),
        ("q", json.string "shoe")]),
    ("\x7b\"filter_by\":[\"a:1\"],\"q\":\"shoe\"\x7d",
      json.object [("filter_by", json.array [json.string "a:1"]), ("q", json.string "shoe")]),
    ("\x7b\"searches\":[\x7b\"filter_by\":[\"a:1\"],\"q\":\"shoe\"\x7d]\x7d",
      json.object [("searches", json.array [json.object
        [("filter_by", json.array [json.string "a:1"]), ("q", json.string "shoe")]])]),
    ("\x7b\"searches\":[\x7b\"q\":\"shoe\"\x7d,\x7b\"q\":\"hat\"\x7d]\x7d",
      json.object [("searches", json.array [json.object [("q", json.string "shoe")],
        json.object [("q", json.string "hat")]])]) ]

/-- A search-only parent key without expiry that admits every collection. -/
def parent : api_key_t where
  id := 1
  value := "abcd-parent-key"
  description := "search only"
  actions := ["documents:search"]
  collections := ["*"]
  expires_at := 64723363199

/-- A key for every action on documents, on two named collections. -/
def docs_key : api_key_t where
  id := 2
  value := "wxyz-docs-key"
  description := "documents"
  actions := ["collections:list", "documents:*"]
  collections := ["coll_a", "coll_b"]
  expires_at := 5000

/-- The stored texts that the sample reader of keys knows, with their keys. -/
def stored_keys : List (String × api_key_t) :=
  [(parent.value, parent), (docs_key.value, docs_key)]

/-- The sample environment. -/
def env : Env where
  HMAC_BASE64_LEN := 44
  PREFIX_LEN := 4
  API_KEYS_PREFIX := "$KP"
  API_KEY_NEXT_ID_KEY := "$KN"
  split := split
  regex_match := regex_match
  regex_error := regex_error
  base64_decode := id
  hmac := hmac
  json_parse := fun text => StdMap.find json_texts text
  dump_api_key := fun k => k.value
  load_api_key := fun text =>
    match StdMap.find stored_keys text with
    | some k => Result.value k
    | none => Result.error 500 "Error while parsing JSON string."
  serialize_uint32_t := fun n => toString n
  deserialize_uint32_t := fun text => digits_value text.data

/-- A search-only key that shares its first four bytes with `parent` and expired at
time 50. -/
def old_parent : api_key_t where
  id := 0
  value := "abcd-old-key"
  description := "search only, expired"
  actions := ["documents:search"]
  collections := ["*"]
  expires_at := 50

/-- The scoped key made from `parent` and the JSON text `custom_json`. -/
def scoped_key (custom_json : String) : String :=
  hmac parent.value custom_json ++ "abcd" ++ custom_json

/-- A key whose value is the text of a scoped key of `parent`. -/
def shadow_key : api_key_t where
  id := 3
  value := scoped_key "\x7b\"filter_by\":\"a:1\"\x7d"
  description := "lists collections"
  actions := ["collections:list"]
  collections := ["*"]
  expires_at := 64723363199

/-- A manager without keys over a store that holds `entries` and does not fail. -/
def manager (entries : List (String × String)) : AuthManager :=
  ⟨⟨entries, false, false, false⟩, "bootstrap-key", 0, []⟩

/-- A sample of the functions behind the handlers: a rolling hash, a search that answers
every request that has a `q`, tests and readers for texts of decimal digits, the JSON
reader of the sample environment, and a clock of 1000 ticks per second. -/
def core : Core where
  hash_wy := fun text => text.data.foldl (fun h c => (31 * h + c.toNat) % 2 ^ 64) 7
  do_search := fun params =>
    match StdMap.find params "q" with
    | some q => (Result.value true, "hits:" ++ q)
    | none => (Result.error 400 "No search query.", "")
  is_int32_t := fun text => !text.data.isEmpty && text.data.all Char.isDigit
  is_uint32_t := fun text => !text.data.isEmpty && text.data.all Char.isDigit
  stoul := fun text => digits_value text.data
  stoi := fun text =>
    if digits_value text.data < 2 ^ 31 then some (digits_value text.data) else none
  json_parse := fun text => StdMap.find json_texts text
  results_dump := fun outcomes =>
    String.join (outcomes.map fun o => if o.1.ok then o.2 ++ ";" else o.1.message ++ ";")
  message_body := fun message => "message:" ++ message
  ticks_per_second := 1000

/-- A test for the texts of the numbers of an `int32_t`: an optional minus sign, decimal
digits, and a value between `-2^31` and `2^31 - 1`. -/
def is_int32_t (text : String) : Bool :=
  match text.data with
  | '-' :: digits =>
    !digits.isEmpty && digits.all Char.isDigit && decide (digits_value digits ≤ 2 ^ 31)
  | digits =>
    !digits.isEmpty && digits.all Char.isDigit && decide (digits_value digits < 2 ^ 31)

/-- The number that `std::stoul` reads from a text of decimal digits with an optional
minus sign: as `strtoul` does, it negates the number read within the 64 bits of an
`unsigned long`. -/
def stoul (text : String) : Nat :=
  match text.data with
  | '-' :: digits => (2 ^ 64 - digits_value digits % 2 ^ 64) % 2 ^ 64
  | digits => digits_value digits

/-- The sample `core` with the test and the reader for signed texts. -/
def signed_core : Core :=
  { core with is_int32_t := is_int32_t, stoul := stoul }

/-- A dump that knows the JSON value `{"success":true}` of the examples. -/
def dump (j : json) : String :=
  match j with
  | json.object [("success", json.boolean true)] => "\x7b\"success\":true\x7d"
  | _ => "?"

/-- The configuration before the examples. -/
def config : Config := ⟨2000, 1000, 500⟩

/-- The JSON texts of the examples on configuration, on overrides and on the collections
of a request, with their values. -/
def admin_texts : List (String × json) :=
  [ ("\x7b\"healthy-read-lag\":-5\x7d",
      json.object [("healthy-read-lag", json.number_integer (-5))]),
    ("\x7b\"healthy-write-lag\":-5\x7d",
      json.object [("healthy-write-lag", json.number_integer (-5))]),
    ("\x7b\"healthy-read-lag\":0\x7d",
      json.object [("healthy-read-lag", json.number_unsigned 0)]),
    ("\x7b\"searches\":[\x7b\"collection\":5\x7d]\x7d",
      json.object [("searches", json.array [json.object
        [("collection", json.number_unsigned 5)]])]),
    ("\x7b\"searches\":[\x7b\"collection\":\"a\"\x7d,7,\x7b\"q\":\"x\"\x7d,\x7b\"collection\":\"b\"\x7d]\x7d",
      json.object [("searches", json.array [json.object [("collection", json.string "a")],
        json.number_unsigned 7, json.object [("q", json.string "x")],
        json.object [("collection", json.string "b")]])]),
    ("\x7b\"rule\":\x7b\"match\":\"exact\",\"query\":\"of\"\x7d\x7d",
      json.object [("rule", json.object
        [("match", json.string "exact"), ("query", json.string "of")])]) ]

/-- The sample `core` with the reader of `admin_texts`. -/
def admin_core : Core :=
  { core with json_parse := fun text => StdMap.find admin_texts text }

/-- A search request that asks for the cache, with a time to live of 30 seconds. -/
def search_req : http_req :=
  ⟨11, "", [("cache_ttl", "30"), ("q", "shoe"), ("use_cache", "true")]⟩

/-- A fresh response object. -/
def fresh_res : http_res := ⟨0, "application/json; charset=utf-8", "", false⟩

/-- The response to `search_req`, cached at tick 5000 for 30 seconds. -/
def cached_hit : cached_res_t :=
  ⟨200, "application/json; charset=utf-8", "hits:old", 5000, 30, hash_request core search_req⟩

/-- A cache of capacity 100 that holds `cached_hit`. -/
def warm_cache : LRUCache := ⟨[(hash_request core search_req, cached_hit)], 100⟩

end Sample

/-! ## Lemmas on strings and maps -/

namespace StdString

end StdString

namespace StdMap

theorem find_set {β : Type} (m : List (String × β)) (k k' : String) (v : β) :
    StdMap.find (StdMap.set m k v) k' = if k = k' then some v else StdMap.find m k' := by
  induction m with
  | nil => simp [StdMap.set, StdMap.find]
  | cons hd tl ih =>
    obtain ⟨k0, v0⟩ := hd
    unfold StdMap.set
    by_cases h0 : k0 = k
    · subst h0
      simp only [if_true]
      by_cases hk : k0 = k' <;> simp [StdMap.find, hk]
    · rw [if_neg h0]
      by_cases hlt : StdString.lt k k0
      · rw [if_pos hlt]
        by_cases hk : k = k' <;> simp [StdMap.find, hk]
      · rw [if_neg hlt]
        by_cases hk : k = k'
        · subst hk
          simp [StdMap.find, h0, ih]
        · by_cases hk0 : k0 = k' <;> simp [StdMap.find, hk, hk0, ih]

theorem find_eq_none_of_not_mem {β : Type} (m : List (String × β)) (k : String)
    (hk : k ∉ m.map Prod.fst) : StdMap.find m k = none := by
  induction m with
  | nil => rfl
  | cons hd tl ih =>
    obtain ⟨k0, v0⟩ := hd
    simp only [List.map_cons, List.mem_cons, not_or] at hk
    unfold StdMap.find
    rw [if_neg (fun h => hk.1 h.symm)]
    exact ih hk.2

end StdMap

/-! ## The direct key path -/

namespace AuthManager

theorem authenticate_direct (env : Env) (now : Nat) (api_keys : List (String × api_key_t))
    (v : String) (key : api_key_t) (action : String) (collections : List String)
    (params : Params) (hfind : StdMap.find api_keys v = some key) :
    authenticate env now api_keys v action collections params
      = (auth_against_key env now collections action key false).map fun b => (b, params) := by
  unfold authenticate
  rw [hfind]
  cases h : auth_against_key env now collections action key false <;> simp [h]

theorem auth_against_key_direct (env : Env) (now : Nat) (collections : List String)
    (action : String) (key : api_key_t) (hexp : now ≤ key.expires_at) :
    auth_against_key env now collections action key false
      = match action_is_allowed env action key.actions with
        | none => none
        | some false => some false
        | some true => some (collections.all fun c => coll_allowed env key.collections c) := by
  unfold auth_against_key
  rw [if_neg (Nat.not_lt.mpr hexp)]
  simp

/-- C3. A key found in the table whose `expires_at` is smaller than the current time
makes `authenticate` return false for every action and collection list, without a look
at the scoped-key path; a key with current time at most `expires_at` is judged by its
actions and collections alone, so the answer does not depend on `expires_at`. -/
theorem C3_expired_direct_key (env : Env) (now : Nat)
    (api_keys : List (String × api_key_t)) (v : String) (key : api_key_t)
    (action : String) (collections : List String) (params : Params)
    (hfind : StdMap.find api_keys v = some key) :
    (key.expires_at < now →
        authenticate env now api_keys v action collections params = some (false, params))
      ∧ (now ≤ key.expires_at →
        authenticate env now api_keys v action collections params
          = match action_is_allowed env action key.actions with
            | none => none
            | some false => some (false, params)
            | some true =>
              some (collections.all fun c => coll_allowed env key.collections c, params)) := by
  rw [authenticate_direct env now api_keys v key action collections params hfind]
  constructor
  · intro hlt
    unfold auth_against_key
    rw [if_pos hlt]
    rfl
  · intro hle
    rw [auth_against_key_direct env now collections action key hle]
    cases action_is_allowed env action key.actions with
    | none => rfl
    | some b => cases b <;> rfl

/-- C3, witness: `docs_key` expires at 5000; at time 5001 it is refused, at time 5000 it
is not. -/
theorem C3_expired_direct_key_witness :
    authenticate Sample.env 5001 [(Sample.docs_key.value, Sample.docs_key)]
        Sample.docs_key.value "documents:search" ["coll_a"] [] = some (false, [])
      ∧ authenticate Sample.env 5000 [(Sample.docs_key.value, Sample.docs_key)]
        Sample.docs_key.value "documents:search" ["coll_a"] [] = some (true, []) :=
  ⟨(C3_expired_direct_key Sample.env 5001 [(Sample.docs_key.value, Sample.docs_key)]
      Sample.docs_key.value Sample.docs_key "documents:search" ["coll_a"] []
      (by decide)).1 (by decide),
    ((C3_expired_direct_key Sample.env 5000 [(Sample.docs_key.value, Sample.docs_key)]
      Sample.docs_key.value Sample.docs_key "documents:search" ["coll_a"] []
      (by decide)).2 (by decide)).trans (by decide)⟩

/-! ## Creation of keys -/

/-- C4. When the value of the key to create is already the value of a stored key, or is
the bootstrap key, `create_key` returns the error 409 and the manager (key map, store
and next-id counter) is as it was; the key handed in is not touched either. -/
theorem C4_create_key_conflict (env : Env) (self : AuthManager) (api_key : api_key_t)
    (hdup : (∃ stored, StdMap.find self.api_keys api_key.value = some stored)
      ∨ api_key.value = self.bootstrap_auth_key) :
    (create_key env self api_key).1 = Result.error 409 "API key generation conflict."
      ∧ (create_key env self api_key).2.1.api_keys = self.api_keys
      ∧ (create_key env self api_key).2.1.store = self.store
      ∧ (create_key env self api_key).2.1.next_api_key_id = self.next_api_key_id
      ∧ (create_key env self api_key).2 = (self, api_key) := by
  have hcond : StdMap.count self.api_keys api_key.value ≠ 0
      ∨ api_key.value = self.bootstrap_auth_key := by
    rcases hdup with ⟨stored, hs⟩ | hb
    · left
      simp [StdMap.count, hs]
    · exact Or.inr hb
  unfold create_key
  rw [if_pos hcond]
  exact ⟨rfl, rfl, rfl, rfl, rfl⟩

/-- C4, witness: a manager that holds `docs_key` refuses a second key of that value. -/
theorem C4_create_key_conflict_witness :
    (create_key Sample.env
        ⟨⟨[], false, false, false⟩, "bootstrap", 3, [(Sample.docs_key.value, Sample.docs_key)]⟩
        { Sample.parent with value := Sample.docs_key.value }).1
      = Result.error 409 "API key generation conflict." :=
  (C4_create_key_conflict Sample.env
    ⟨⟨[], false, false, false⟩, "bootstrap", 3, [(Sample.docs_key.value, Sample.docs_key)]⟩
    { Sample.parent with value := Sample.docs_key.value }
    (Or.inl ⟨Sample.docs_key, by decide⟩)).1

/-! ## The scoped key path -/

theorem authenticate_scoped (env : Env) (now : Nat) (api_keys : List (String × api_key_t))
    (req action : String) (collections : List String) (params : Params)
    (hfind : StdMap.find api_keys req = none) :
    authenticate env now api_keys req action collections params
      = match authenticate_parse_params env now api_keys req action collections
          json.null with
        | none => none
        | some (auth_op, embedded_params) =>
          if !auth_op.ok then some (false, params)
          else some (true, enrich_params params embedded_params.items) := by
  unfold authenticate
  rw [hfind]

/-- C5. A presented key that is no value of the key table is refused for every action
other than `documents:search`, whatever it decodes to; the parameters stay as they
were. -/
theorem C5_scoped_search_only (env : Env) (now : Nat)
    (api_keys : List (String × api_key_t)) (req action : String)
    (collections : List String) (params : Params)
    (hfind : StdMap.find api_keys req = none)
    (haction : action ≠ DOCUMENTS_SEARCH_ACTION) :
    authenticate env now api_keys req action collections params = some (false, params) := by
  rw [authenticate_scoped env now api_keys req action collections params hfind]
  unfold authenticate_parse_params
  rw [if_pos haction]
  rfl

/-- C5, witness: a well-formed scoped key of `parent` is refused for
`documents:get`. -/
theorem C5_scoped_search_only_witness :
    authenticate Sample.env 100 [(Sample.parent.value, Sample.parent)]
      (Sample.scoped_key "\x7b\"filter_by\":\"a:1\"\x7d") "documents:get" ["coll"] []
      = some (false, []) :=
  C5_scoped_search_only Sample.env 100 [(Sample.parent.value, Sample.parent)]
    (Sample.scoped_key "\x7b\"filter_by\":\"a:1\"\x7d") "documents:get" ["coll"] []
    (by decide) (by decide)

theorem not_single_search_action (actions : List String) :
    (actions.length ≠ 1 ∨ actions.head? ≠ some DOCUMENTS_SEARCH_ACTION)
      ↔ actions ≠ [DOCUMENTS_SEARCH_ACTION] := by
  cases actions with
  | nil => simp
  | cons a rest =>
    cases rest with
    | nil => simp
    | cons b rest2 => simp

theorem auth_against_key_search_only (env : Env) (now : Nat) (collections : List String)
    (action : String) (api_key : api_key_t) :
    auth_against_key env now collections action api_key true
      = some (parent_eligible env now collections api_key) := by
  unfold auth_against_key parent_eligible
  by_cases hexp : now > api_key.expires_at
  · rw [if_pos hexp]
    simp [Nat.not_le.mpr hexp]
  · rw [if_neg hexp]
    have hle : now ≤ api_key.expires_at := Nat.not_lt.mp hexp
    by_cases hact : api_key.actions = [DOCUMENTS_SEARCH_ACTION]
    · have hc : ¬ (api_key.actions.length ≠ 1
          ∨ api_key.actions.head? ≠ some DOCUMENTS_SEARCH_ACTION) := by
        rw [not_single_search_action]; exact fun h => h hact
      simp only [if_true, if_neg hc]
      simp [hle, hact]
    · have hc : api_key.actions.length ≠ 1
          ∨ api_key.actions.head? ≠ some DOCUMENTS_SEARCH_ACTION :=
        (not_single_search_action _).mpr hact
      simp only [if_true, if_pos hc]
      simp [hact]

theorem verify_against_keys_cons (env : Env) (now : Nat) (collections : List String)
    (action digest pfx custom_params : String) (embedded_params : json)
    (kv : String × api_key_t) (rest : List (String × api_key_t)) :
    verify_against_keys env now collections action digest pfx custom_params
        embedded_params (kv :: rest)
      = if StdString.substr kv.1 0 env.PREFIX_LEN = pfx then
          match auth_against_key env now collections action kv.2 true with
          | none => none
          | some false => some (Result.error 403 "Forbidden.", embedded_params)
          | some true =>
            if env.hmac kv.1 custom_params = digest then
              some (check_embedded_params env now kv.2 custom_params embedded_params)
            else verify_against_keys env now collections action digest pfx custom_params
              embedded_params rest
        else verify_against_keys env now collections action digest pfx custom_params
          embedded_params rest := by
  rw [verify_against_keys]

theorem verify_against_keys_skip (env : Env) (now : Nat) (collections : List String)
    (action digest pfx custom_params : String) (embedded_params : json)
    (before rest : List (String × api_key_t))
    (hbefore : ∀ kv ∈ before, passed_over env now collections digest pfx custom_params kv) :
    verify_against_keys env now collections action digest pfx custom_params
        embedded_params (before ++ rest)
      = verify_against_keys env now collections action digest pfx custom_params
        embedded_params rest := by
  induction before with
  | nil => rfl
  | cons kv tail ih =>
    have htail := ih fun x hx => hbefore x (List.mem_cons_of_mem _ hx)
    have hkv := hbefore kv (List.mem_cons_self _ _)
    rw [List.cons_append, verify_against_keys_cons]
    rcases hkv with hp | ⟨hel, hd⟩
    · rw [if_neg hp]
      exact htail
    · by_cases hp : StdString.substr kv.1 0 env.PREFIX_LEN = pfx
      · rw [if_pos hp, auth_against_key_search_only, hel]
        simp only
        rw [if_neg hd]
        exact htail
      · rw [if_neg hp]
        exact htail

theorem verify_against_keys_ineligible (env : Env) (now : Nat) (collections : List String)
    (action digest pfx custom_params : String) (embedded_params : json)
    (kv : String × api_key_t) (rest : List (String × api_key_t))
    (hp : StdString.substr kv.1 0 env.PREFIX_LEN = pfx)
    (hel : parent_eligible env now collections kv.2 = false) :
    verify_against_keys env now collections action digest pfx custom_params
        embedded_params (kv :: rest)
      = some (Result.error 403 "Forbidden.", embedded_params) := by
  rw [verify_against_keys_cons, if_pos hp, auth_against_key_search_only, hel]

theorem verify_against_keys_match (env : Env) (now : Nat) (collections : List String)
    (action digest pfx custom_params : String) (embedded_params : json)
    (kv : String × api_key_t) (rest : List (String × api_key_t))
    (hp : StdString.substr kv.1 0 env.PREFIX_LEN = pfx)
    (hel : parent_eligible env now collections kv.2 = true)
    (hd : env.hmac kv.1 custom_params = digest) :
    verify_against_keys env now collections action digest pfx custom_params
        embedded_params (kv :: rest)
      = some (check_embedded_params env now kv.2 custom_params embedded_params) := by
  rw [verify_against_keys_cons, if_pos hp, auth_against_key_search_only, hel]
  simp only
  rw [if_pos hd]

/-- The loop refuses at an unacceptable parent that it reaches: no entry in front of it
has both the prefix and the digest. -/
theorem verify_against_keys_refused_at (env : Env) (now : Nat) (collections : List String)
    (action digest pfx custom_params : String) (embedded_params : json)
    (before after : List (String × api_key_t)) (kv : String × api_key_t)
    (hbefore : ∀ x ∈ before, StdString.substr x.1 0 env.PREFIX_LEN = pfx →
      env.hmac x.1 custom_params ≠ digest)
    (hp : StdString.substr kv.1 0 env.PREFIX_LEN = pfx)
    (hel : parent_eligible env now collections kv.2 = false) :
    verify_against_keys env now collections action digest pfx custom_params
        embedded_params (before ++ kv :: after)
      = some (Result.error 403 "Forbidden.", embedded_params) := by
  induction before with
  | nil =>
    exact verify_against_keys_ineligible env now collections action digest pfx
      custom_params embedded_params kv after hp hel
  | cons x tail ih =>
    have htail := ih fun y hy => hbefore y (List.mem_cons_of_mem _ hy)
    rw [List.cons_append]
    by_cases hpx : StdString.substr x.1 0 env.PREFIX_LEN = pfx
    · cases helx : parent_eligible env now collections x.2
      · exact verify_against_keys_ineligible env now collections action digest pfx
          custom_params embedded_params x _ hpx helx
      · rw [verify_against_keys_cons, if_pos hpx, auth_against_key_search_only, helx]
        simp only
        rw [if_neg (hbefore x (List.mem_cons_self _ _) hpx)]
        exact htail
    · rw [verify_against_keys_cons, if_neg hpx]
      exact htail

/-- A refusal by `authenticate_parse_params` is a refusal by `authenticate` that leaves
the parameters alone. -/
theorem authenticate_of_forbidden (env : Env) (now : Nat)
    (api_keys : List (String × api_key_t)) (req action : String)
    (collections : List String) (params : Params) (embedded_params : json)
    (hfind : StdMap.find api_keys req = none)
    (hparse : authenticate_parse_params env now api_keys req action collections json.null
      = some (Result.error 403 "Forbidden.", embedded_params)) :
    authenticate env now api_keys req action collections params = some (false, params) := by
  rw [authenticate_scoped env now api_keys req action collections params hfind, hparse]
  rfl

/-- The scoped path for the search action and a payload of sufficient length is the
loop over the key table. -/
theorem authenticate_parse_params_search (env : Env) (now : Nat)
    (api_keys : List (String × api_key_t)) (req : String) (collections : List String)
    (embedded_params : json)
    (hlen : env.HMAC_BASE64_LEN + env.PREFIX_LEN ≤ (env.base64_decode req).length) :
    authenticate_parse_params env now api_keys req DOCUMENTS_SEARCH_ACTION collections
        embedded_params
      = verify_against_keys env now collections DOCUMENTS_SEARCH_ACTION
        (digest_of env (env.base64_decode req)) (parent_prefix_of env (env.base64_decode req))
        (custom_params_of env (env.base64_decode req)) embedded_params api_keys := by
  unfold authenticate_parse_params
  rw [if_neg (fun h => h rfl), if_neg (Nat.not_lt.mpr hlen)]

/-- Every refusal of `authenticate_parse_params` before the loop. -/
theorem authenticate_parse_params_early (env : Env) (now : Nat)
    (api_keys : List (String × api_key_t)) (req action : String)
    (collections : List String) (embedded_params : json)
    (hearly : action ≠ DOCUMENTS_SEARCH_ACTION
      ∨ (env.base64_decode req).length < env.HMAC_BASE64_LEN + env.PREFIX_LEN) :
    authenticate_parse_params env now api_keys req action collections embedded_params
      = some (Result.error 403 "Forbidden.", embedded_params) := by
  unfold authenticate_parse_params
  by_cases ha : action ≠ DOCUMENTS_SEARCH_ACTION
  · rw [if_pos ha]
  · rw [if_neg ha]
    rcases hearly with h | h
    · exact absurd h ha
    · rw [if_pos h]

/-- C6. On the scoped-key path, take a table key that begins with the parent prefix of
the payload, such that no key in front of it in the table has both that prefix and the
digest of the payload. If this key is expired, or its actions are anything but the single
action `documents:search`, `authenticate` returns false, whatever the digest and the
embedded parameters (an embedded `expires_at` included) are. -/
theorem C6_parent_eligibility (env : Env) (now : Nat)
    (api_keys before after : List (String × api_key_t)) (kname : String)
    (parent_key : api_key_t) (req action : String) (collections : List String)
    (params : Params)
    (hfind : StdMap.find api_keys req = none)
    (htable : api_keys = before ++ (kname, parent_key) :: after)
    (hbefore : ∀ kv ∈ before,
      StdString.substr kv.1 0 env.PREFIX_LEN = parent_prefix_of env (env.base64_decode req) →
      env.hmac kv.1 (custom_params_of env (env.base64_decode req))
        ≠ digest_of env (env.base64_decode req))
    (hlocated : StdString.substr kname 0 env.PREFIX_LEN
      = parent_prefix_of env (env.base64_decode req))
    (hbad : parent_key.expires_at < now
      ∨ parent_key.actions ≠ [DOCUMENTS_SEARCH_ACTION]) :
    authenticate env now api_keys req action collections params = some (false, params) := by
  apply authenticate_of_forbidden env now api_keys req action collections params json.null
    hfind
  by_cases hearly : action ≠ DOCUMENTS_SEARCH_ACTION
      ∨ (env.base64_decode req).length < env.HMAC_BASE64_LEN + env.PREFIX_LEN
  · exact authenticate_parse_params_early env now api_keys req action collections
      json.null hearly
  · rw [not_or, not_not, Nat.not_lt] at hearly
    obtain ⟨hact, hlen⟩ := hearly
    subst hact
    rw [authenticate_parse_params_search env now api_keys req collections json.null hlen,
      htable]
    apply verify_against_keys_refused_at _ _ _ _ _ _ _ _ before after (kname, parent_key)
      hbefore hlocated
    unfold parent_eligible
    rcases hbad with h | h
    · simp [Nat.not_le.mpr h]
    · simp [h]

/-- C6, witness: a scoped key with a correct digest, whose parent `old_parent` expired
at time 50, is refused at time 100; so is a scoped key of the same form whose parent
`docs_key` has other actions than the single `documents:search`. -/
theorem C6_parent_eligibility_witness :
    authenticate Sample.env 100 [(Sample.old_parent.value, Sample.old_parent)]
        (Sample.hmac Sample.old_parent.value "\x7b\"filter_by\":\"a:1\"\x7d" ++ "abcd"
          ++ "\x7b\"filter_by\":\"a:1\"\x7d")
        "documents:search" ["coll"] [] = some (false, [])
      ∧ authenticate Sample.env 100 [(Sample.docs_key.value, Sample.docs_key)]
        (Sample.hmac Sample.docs_key.value "\x7b\"filter_by\":\"a:1\"\x7d" ++ "wxyz"
          ++ "\x7b\"filter_by\":\"a:1\"\x7d")
        "documents:search" ["coll_a"] [] = some (false, []) :=
  ⟨C6_parent_eligibility Sample.env 100 [(Sample.old_parent.value, Sample.old_parent)]
      [] [] Sample.old_parent.value Sample.old_parent
      (Sample.hmac Sample.old_parent.value "\x7b\"filter_by\":\"a:1\"\x7d" ++ "abcd"
        ++ "\x7b\"filter_by\":\"a:1\"\x7d")
      "documents:search" ["coll"] [] (by decide) (by decide)
      (by intro kv hkv; cases hkv) (by decide) (Or.inl (by decide)),
    C6_parent_eligibility Sample.env 100 [(Sample.docs_key.value, Sample.docs_key)]
      [] [] Sample.docs_key.value Sample.docs_key
      (Sample.hmac Sample.docs_key.value "\x7b\"filter_by\":\"a:1\"\x7d" ++ "wxyz"
        ++ "\x7b\"filter_by\":\"a:1\"\x7d")
      "documents:search" ["coll_a"] [] (by decide) (by decide)
      (by intro kv hkv; cases hkv) (by decide) (Or.inr (by decide))⟩

/-- The verdict of lines 289-302 on an embedded `expires_at`: the value has to be an
integer, not negative when read as an `int64_t`, and the clock must not exceed the
smaller of the parent's expiry and the value read as a `uint64_t`. -/
theorem check_embedded_params_expiry (env : Env) (now : Nat) (api_key : api_key_t)
    (custom_params : String) (embedded_params : json) (members : List (String × json))
    (e : json) (hparse : env.json_parse custom_params = some (json.object members))
    (hsome : StdMap.find members "expires_at" = some e) :
    (check_embedded_params env now api_key custom_params embedded_params).1.ok
      = (e.is_number_integer && decide (0 ≤ e.get_int64)
        && decide (now ≤ min api_key.expires_at e.get_uint64)) := by
  unfold check_embedded_params
  simp only [hparse, json.is_object, Bool.not_true, Bool.false_eq_true, if_false]
  have hc : (json.object members).count "expires_at" ≠ 0 := by
    simp [json.count, json.items, StdMap.count, hsome]
  have hget : (json.object members).get "expires_at" = e := by
    simp [json.get, json.items, hsome]
  rw [if_pos hc, hget]
  by_cases h1 : (!e.is_number_integer || decide (e.get_int64 < 0)) = true
  · rw [if_pos h1]
    simp only [Bool.or_eq_true, Bool.not_eq_true', decide_eq_true_eq] at h1
    rcases h1 with h1 | h1
    · simp [Result.ok, h1]
    · simp [Result.ok, Int.not_le.mpr h1]
  · rw [if_neg h1]
    simp only [Bool.or_eq_true, Bool.not_eq_true', decide_eq_true_eq, not_or,
      Bool.not_eq_false, Int.not_lt] at h1
    by_cases h2 : now > min api_key.expires_at e.get_uint64
    · simp only [if_pos h2]
      simp [Result.ok, h1.1, h1.2, Nat.not_le.mpr h2]
    · simp only [if_neg h2]
      simp [Result.ok, h1.1, h1.2, Nat.not_lt.mp h2]

/-- An unsigned JSON integer below `2^63` reads the same as `int64_t` and as
`uint64_t`. -/
theorem json.number_unsigned_reads (n : Nat) (hn : n < 2 ^ 63) :
    (json.number_unsigned n).get_int64 = n ∧ (json.number_unsigned n).get_uint64 = n := by
  constructor
  · simp only [json.get_int64, json.to_int64]
    have h64 : ((n : Int) % 2 ^ 64) = n := by
      apply Int.emod_eq_of_lt (Int.ofNat_nonneg n)
      have : (n : Int) < 2 ^ 63 := by exact_mod_cast hn
      omega
    rw [h64, if_pos (by exact_mod_cast hn)]
  · simp only [json.get_uint64]
    exact Nat.mod_eq_of_lt (by omega)

/-- C9, evaluated where the code departs from it. The presented key is the scoped key
of `parent`, an accepted parent under which the digest matches; the embedded object has
the `expires_at` of `2^63`, a non-negative integer; the parent never expires and the
clock reads 100, which does not exceed the smaller of the two expiry times. The code
reads the value through `get<int64_t>()`, finds it negative and refuses the key. -/
theorem C9_expiry_beyond_int64 :
    parent_eligible Sample.env 100 ["coll"] Sample.parent = true
      ∧ Sample.env.hmac Sample.parent.value "\x7b\"expires_at\":9223372036854775808\x7d"
        = digest_of Sample.env (Sample.env.base64_decode
            (Sample.scoped_key "\x7b\"expires_at\":9223372036854775808\x7d"))
      ∧ Sample.env.json_parse "\x7b\"expires_at\":9223372036854775808\x7d"
        = some (json.object [("expires_at", json.number_unsigned (2 ^ 63))])
      ∧ 100 ≤ min Sample.parent.expires_at (2 ^ 63)
      ∧ (json.number_unsigned (2 ^ 63)).get_int64 = -2 ^ 63
      ∧ authenticate Sample.env 100 [(Sample.parent.value, Sample.parent)]
        (Sample.scoped_key "\x7b\"expires_at\":9223372036854775808\x7d")
        "documents:search" ["coll"] [] = some (false, []) := by
  refine ⟨by decide, by decide, rfl, by decide, by decide, by decide⟩

/-! ## Merging the embedded parameters -/

theorem add_item_to_params_find (params : Params) (k : String) (v : json) (s : String)
    (hs : str_value v = some s) (k' : String) :
    StdMap.find (add_item_to_params params (k, v) true).2 k'
      = if k = k' then some (merged_value k (StdMap.find params k) s)
        else StdMap.find params k' := by
  unfold add_item_to_params
  simp only [hs]
  cases hold : StdMap.find params k with
  | none =>
    have hc : StdMap.count params k = 0 := by simp [StdMap.count, hold]
    rw [if_pos hc]
    simp only [StdMap.find_set, merged_value]
  | some o =>
    have hc : ¬ StdMap.count params k = 0 := by simp [StdMap.count, hold]
    rw [if_neg hc]
    by_cases hf : k = "filter_by"
    · rw [if_pos hf]
      simp only [StdMap.find_set, merged_value, hold, if_pos hf, Option.getD_some]
    · rw [if_neg hf]
      simp only [StdMap.find_set, merged_value, if_neg hf, if_true]

theorem enrich_params_find (members : List (String × json))
    (hkeys : (members.map Prod.fst).Nodup)
    (hvalues : ∀ kv ∈ members, ∃ s, str_value kv.2 = some s) (params : Params) (k : String) :
    StdMap.find (enrich_params params members) k
      = if k = "expires_at" then StdMap.find params k
        else match StdMap.find members k with
          | none => StdMap.find params k
          | some v => (str_value v).map (merged_value k (StdMap.find params k)) := by
  induction members generalizing params with
  | nil => simp [enrich_params, StdMap.find]
  | cons hd tl ih =>
    obtain ⟨k0, v0⟩ := hd
    rw [List.map_cons, List.nodup_cons] at hkeys
    have ihtl := ih hkeys.2 (fun kv hkv => hvalues kv (List.mem_cons_of_mem _ hkv))
    obtain ⟨s0, hs0⟩ := hvalues (k0, v0) (List.mem_cons_self _ _)
    have hnone : StdMap.find tl k0 = none := StdMap.find_eq_none_of_not_mem tl k0 hkeys.1
    unfold enrich_params
    by_cases he : k0 = "expires_at"
    · simp only [he, if_true]
      rw [ihtl params]
      by_cases hk : k = "expires_at"
      · simp [hk]
      · have hk' : ¬ "expires_at" = k := fun h => hk h.symm
        simp [hk, StdMap.find, hk']
    · simp only [if_neg he]
      rw [ihtl, add_item_to_params_find params k0 v0 s0 hs0 k]
      by_cases hk : k = "expires_at"
      · have h0 : ¬ k0 = k := fun h => he (h.trans hk)
        rw [if_pos hk, if_pos hk, if_neg h0]
      · simp only [if_neg hk]
        by_cases h0 : k0 = k
        · subst h0
          simp [StdMap.find, hnone, hs0]
        · simp [StdMap.find, h0]

/-- The three slices of a payload `digest ++ pfx ++ custom_json` whose first two parts
have the lengths `HMAC_BASE64_LEN` and `PREFIX_LEN`. -/
theorem payload_slices (env : Env) (digest pfx custom_json : String)
    (hdlen : digest.length = env.HMAC_BASE64_LEN) (hplen : pfx.length = env.PREFIX_LEN) :
    env.HMAC_BASE64_LEN + env.PREFIX_LEN ≤ (digest ++ pfx ++ custom_json).length
      ∧ digest_of env (digest ++ pfx ++ custom_json) = digest
      ∧ parent_prefix_of env (digest ++ pfx ++ custom_json) = pfx
      ∧ custom_params_of env (digest ++ pfx ++ custom_json) = custom_json := by
  rw [String.length] at hdlen hplen
  refine ⟨?_, ?_, ?_, ?_⟩
  · have hlen : (digest ++ pfx ++ custom_json).length
        = digest.data.length + pfx.data.length + custom_json.data.length := by
      rw [String.length, String.data_append, String.data_append, List.length_append,
        List.length_append]
    omega
  · apply String.ext
    show List.take env.HMAC_BASE64_LEN (List.drop 0 (digest ++ pfx ++ custom_json).data)
      = digest.data
    rw [String.data_append, String.data_append, List.drop_zero, List.append_assoc, ← hdlen,
      List.take_left']
    rfl
  · apply String.ext
    show List.take env.PREFIX_LEN
      (List.drop env.HMAC_BASE64_LEN (digest ++ pfx ++ custom_json).data) = pfx.data
    rw [String.data_append, String.data_append, List.append_assoc, ← hdlen,
      List.drop_left', ← hplen, List.take_left']
    · rfl
    · rfl
  · apply String.ext
    show List.drop (env.HMAC_BASE64_LEN + env.PREFIX_LEN)
      (digest ++ pfx ++ custom_json).data = custom_json.data
    rw [String.data_append, String.data_append, ← hdlen, ← hplen, ← List.length_append,
      List.drop_left']
    rfl

/-- The embedded parameters pass the checks of lines 277-304 when the text parses to an
object that has no `expires_at`, or one that is an integer, not negative as an
`int64_t`, and not exceeded by the clock; the parent is not expired. -/
theorem check_embedded_params_ok (env : Env) (now : Nat) (api_key : api_key_t)
    (custom_params : String) (embedded_params : json) (members : List (String × json))
    (hparse : env.json_parse custom_params = some (json.object members))
    (hexp : now ≤ api_key.expires_at)
    (hexpiry : StdMap.find members "expires_at" = none
      ∨ ∃ e, StdMap.find members "expires_at" = some e ∧ e.is_number_integer = true
        ∧ 0 ≤ e.get_int64 ∧ now ≤ e.get_uint64) :
    check_embedded_params env now api_key custom_params embedded_params
      = (Result.value true, json.object members) := by
  unfold check_embedded_params
  simp only [hparse, json.is_object, Bool.not_true, Bool.false_eq_true, if_false]
  rcases hexpiry with hnone | ⟨e, hsome, hint, hnonneg, hnow⟩
  · have hc : ¬ (json.object members).count "expires_at" ≠ 0 := by
      simp [json.count, json.items, StdMap.count, hnone]
    rw [if_neg hc]
  · have hc : (json.object members).count "expires_at" ≠ 0 := by
      simp [json.count, json.items, StdMap.count, hsome]
    have hget : (json.object members).get "expires_at" = e := by
      simp [json.get, json.items, hsome]
    rw [if_pos hc, hget]
    have h1 : ¬ ((!e.is_number_integer || decide (e.get_int64 < 0)) = true) := by
      simp [hint, hnonneg]
    rw [if_neg h1]
    have h2 : ¬ now > min api_key.expires_at e.get_uint64 := by
      simp only [gt_iff_lt, not_lt]
      exact le_min hexp hnow
    simp only [if_neg h2]

/-- C8, the divergence. Let no table key in front of `bad` begin with the parent prefix
of the payload, let `bad` begin with it and be expired or have actions other than the
single `documents:search`, and let the next table key `good` begin with the same prefix,
be accepted as a parent for the requested collections, and have the digest of the
payload over the embedded text, which is a JSON object with an acceptable `expires_at`
or none. Then `authenticate` returns false at `bad` (the `return` of lines 268-271); with
`bad` taken out of the table, the same call returns true. -/
theorem C8_expired_key_in_front (env : Env) (now : Nat)
    (before after : List (String × api_key_t)) (bad good : String × api_key_t)
    (req : String) (collections : List String) (params : Params)
    (members : List (String × json))
    (hfind : StdMap.find (before ++ bad :: good :: after) req = none)
    (hfind_good : StdMap.find (before ++ good :: after) req = none)
    (hlen : env.HMAC_BASE64_LEN + env.PREFIX_LEN ≤ (env.base64_decode req).length)
    (hfirst : ∀ kv ∈ before,
      StdString.substr kv.1 0 env.PREFIX_LEN ≠ parent_prefix_of env (env.base64_decode req))
    (hlocated : StdString.substr bad.1 0 env.PREFIX_LEN
      = parent_prefix_of env (env.base64_decode req))
    (hbad : bad.2.expires_at < now ∨ bad.2.actions ≠ [DOCUMENTS_SEARCH_ACTION])
    (hgood_located : StdString.substr good.1 0 env.PREFIX_LEN
      = parent_prefix_of env (env.base64_decode req))
    (hgood_parent : parent_eligible env now collections good.2 = true)
    (hgood_digest : env.hmac good.1 (custom_params_of env (env.base64_decode req))
      = digest_of env (env.base64_decode req))
    (hgood_json : env.json_parse (custom_params_of env (env.base64_decode req))
      = some (json.object members))
    (hexpiry : StdMap.find members "expires_at" = none
      ∨ ∃ e, StdMap.find members "expires_at" = some e ∧ e.is_number_integer = true
        ∧ 0 ≤ e.get_int64 ∧ now ≤ e.get_uint64) :
    authenticate env now (before ++ bad :: good :: after) req DOCUMENTS_SEARCH_ACTION
        collections params = some (false, params)
      ∧ authenticate env now (before ++ good :: after) req DOCUMENTS_SEARCH_ACTION
        collections params = some (true, enrich_params params members) := by
  constructor
  · apply authenticate_of_forbidden env now _ req _ collections params json.null hfind
    rw [authenticate_parse_params_search env now _ req collections json.null hlen]
    apply verify_against_keys_refused_at _ _ _ _ _ _ _ _ before (good :: after) bad
      (fun kv hkv hp => absurd hp (hfirst kv hkv)) hlocated
    unfold parent_eligible
    rcases hbad with h | h
    · simp [Nat.not_le.mpr h]
    · simp [h]
  · have hexp : now ≤ good.2.expires_at := by
      unfold parent_eligible at hgood_parent
      simp only [Bool.and_eq_true, decide_eq_true_eq] at hgood_parent
      exact hgood_parent.1.1
    rw [authenticate_scoped env now _ req _ collections params hfind_good,
      authenticate_parse_params_search env now _ req collections json.null hlen,
      verify_against_keys_skip _ _ _ _ _ _ _ _ before _ (fun kv hkv => Or.inl (hfirst kv hkv)),
      verify_against_keys_match _ _ _ _ _ _ _ _ good after hgood_located hgood_parent
        hgood_digest,
      check_embedded_params_ok env now good.2 _ json.null members hgood_json hexp hexpiry]
    rfl

/-- C8, at the failing input. The table holds `old_parent` (expired, same four-byte
prefix, earlier in key order) and `parent`; the presented key is the scoped key of
`parent`, which is an accepted parent with the matching digest. With `parent` alone the
key is accepted; with `old_parent` in front the loop returns at the expired entry and
the key is refused. -/
theorem C8_expired_key_in_front_witness :
    parent_eligible Sample.env 100 ["coll"] Sample.parent = true
      ∧ Sample.env.hmac Sample.parent.value "\x7b\"filter_by\":\"a:1\"\x7d"
        = digest_of Sample.env
            (Sample.env.base64_decode (Sample.scoped_key "\x7b\"filter_by\":\"a:1\"\x7d"))
      ∧ authenticate Sample.env 100 [(Sample.parent.value, Sample.parent)]
        (Sample.scoped_key "\x7b\"filter_by\":\"a:1\"\x7d") "documents:search" ["coll"] []
        = some (true, [("filter_by", "a:1")])
      ∧ authenticate Sample.env 100
        [(Sample.old_parent.value, Sample.old_parent), (Sample.parent.value, Sample.parent)]
        (Sample.scoped_key "\x7b\"filter_by\":\"a:1\"\x7d") "documents:search" ["coll"] []
        = some (false, []) :=
  ⟨by decide, by decide, by decide,
    (C8_expired_key_in_front Sample.env 100 [] []
      (Sample.old_parent.value, Sample.old_parent) (Sample.parent.value, Sample.parent)
      (Sample.scoped_key "\x7b\"filter_by\":\"a:1\"\x7d") ["coll"] []
      [("filter_by", json.string "a:1")]
      (by decide) (by decide) (by decide) (by intro kv hkv; cases hkv) (by decide)
      (Or.inl (by decide)) (by decide) (by decide) (by decide) rfl (Or.inl rfl)).1⟩

theorem str_value_of_kind (v : json)
    (hkind : v.is_string = true ∨ v.is_number_integer = true ∨ v.is_number_float = true
      ∨ v.is_boolean = true) : ∃ s, str_value v = some s := by
  cases v <;> simp [str_value, json.is_string, json.is_number_integer, json.is_number_float,
    json.is_boolean] at hkind ⊢

/-- The text that `add_item_to_params` stores for a string, a float, a boolean and for an
integer that an `int64_t` holds is the text of the value. -/
theorem str_value_of_scalar (v : json) (hv : embedded_scalar v = true) :
    str_value v = some (embedded_text v) := by
  cases v with
  | number_integer i =>
    simp only [embedded_scalar, Bool.and_eq_true, decide_eq_true_eq] at hv
    have h64 : (json.number_integer i).get_int64 = i := by
      simp only [json.get_int64, json.to_int64]
      split_ifs <;> omega
    simp only [str_value, embedded_text, h64]
  | number_unsigned n =>
    simp only [embedded_scalar, decide_eq_true_eq] at hv
    simp only [str_value, embedded_text, (json.number_unsigned_reads n hv).1]
    rfl
  | string s => rfl
  | number_float text => rfl
  | boolean b => rfl
  | null => cases hv
  | array elems => cases hv
  | object members => cases hv

/-- C10, as amended. The presented key is no value of the key table and decodes to
`digest ++ pfx ++ custom_json`; the first table key with the prefix `pfx` is not
expired, has the actions `[documents:search]` and the collections `[*]`, and the digest
of `custom_json` under it is `digest`; `custom_json` parses to an object of string,
float and boolean values and of integers that an `int64_t` holds, whose `expires_at`, if
there is one, is an integer that is not negative as an `int64_t` and is not exceeded by
the clock. Then `authenticate` returns true for `documents:search`, and the parameter
map afterwards agrees with the old one on `expires_at` and on every key that is not
embedded, and holds for every other embedded key the merged value: the text of the
embedded value for a key the request did not have, the request's `filter_by` followed by
`&&` and the embedded one, and the text of the embedded value in place of the request's
for every other key. -/
theorem C10_scoped_success (env : Env) (now : Nat)
    (api_keys before after : List (String × api_key_t)) (kname : String)
    (parent_key : api_key_t) (req digest pfx custom_json : String)
    (collections : List String) (params : Params) (members : List (String × json))
    (hfind : StdMap.find api_keys req = none)
    (hpayload : env.base64_decode req = digest ++ pfx ++ custom_json)
    (hdlen : digest.length = env.HMAC_BASE64_LEN) (hplen : pfx.length = env.PREFIX_LEN)
    (htable : api_keys = before ++ (kname, parent_key) :: after)
    (honly : ∀ kv ∈ before, StdString.substr kv.1 0 env.PREFIX_LEN ≠ pfx)
    (hlocated : StdString.substr kname 0 env.PREFIX_LEN = pfx)
    (hexp : now ≤ parent_key.expires_at)
    (hact : parent_key.actions = [DOCUMENTS_SEARCH_ACTION])
    (hcoll : parent_key.collections = ["*"])
    (hdigest : env.hmac kname custom_json = digest)
    (hparse : env.json_parse custom_json = some (json.object members))
    (hkeys : (members.map Prod.fst).Nodup)
    (hvalues : ∀ kv ∈ members, embedded_scalar kv.2 = true)
    (hexpiry : StdMap.find members "expires_at" = none
      ∨ ∃ e, StdMap.find members "expires_at" = some e ∧ e.is_number_integer = true
        ∧ 0 ≤ e.get_int64 ∧ now ≤ e.get_uint64) :
    ∃ merged, authenticate env now api_keys req DOCUMENTS_SEARCH_ACTION collections params
        = some (true, merged)
      ∧ (∀ k, k = "expires_at" ∨ StdMap.find members k = none →
        StdMap.find merged k = StdMap.find params k)
      ∧ (∀ k v, k ≠ "expires_at" → StdMap.find members k = some v →
        StdMap.find merged k
          = some (merged_value k (StdMap.find params k) (embedded_text v))) := by
  obtain ⟨hlen, hd, hp, hc⟩ := payload_slices env digest pfx custom_json hdlen hplen
  rw [← hpayload] at hlen hd hp hc
  have hel : parent_eligible env now collections (kname, parent_key).2 = true := by
    simp [parent_eligible, hexp, hact, hcoll, coll_allowed, allows]
  have hstr : ∀ kv ∈ members, ∃ s, str_value kv.2 = some s :=
    fun kv hkv => ⟨_, str_value_of_scalar kv.2 (hvalues kv hkv)⟩
  have hparsed : authenticate_parse_params env now api_keys req DOCUMENTS_SEARCH_ACTION
      collections json.null = some (Result.value true, json.object members) := by
    rw [authenticate_parse_params_search env now api_keys req collections json.null hlen,
      hd, hp, hc, htable,
      verify_against_keys_skip _ _ _ _ _ _ _ _ before _ (fun kv hkv => Or.inl (honly kv hkv)),
      verify_against_keys_match _ _ _ _ _ _ _ _ (kname, parent_key) after hlocated hel
        hdigest,
      check_embedded_params_ok env now parent_key custom_json json.null members hparse hexp
        hexpiry]
  refine ⟨enrich_params params members, ?_, ?_, ?_⟩
  · rw [authenticate_scoped env now api_keys req _ collections params hfind, hparsed]
    rfl
  · intro k hk
    rw [enrich_params_find members hkeys hstr params k]
    rcases hk with hk | hk
    · rw [if_pos hk]
    · by_cases he : k = "expires_at"
      · rw [if_pos he]
      · rw [if_neg he, hk]
  · intro k v hk hv
    have hmem : (k, v) ∈ members := by
      clear hparse hkeys hvalues hexpiry hstr hparsed
      induction members with
      | nil => simp [StdMap.find] at hv
      | cons hd tl ih =>
        obtain ⟨k0, v0⟩ := hd
        unfold StdMap.find at hv
        by_cases h0 : k0 = k
        · rw [if_pos h0] at hv
          simp only [Option.some.injEq] at hv
          subst h0; subst hv
          exact List.mem_cons_self _ _
        · rw [if_neg h0] at hv
          exact List.mem_cons_of_mem _ (ih hv)
    rw [enrich_params_find members hkeys hstr params k, if_neg hk, hv]
    simp only [str_value_of_scalar v (hvalues (k, v) hmem), Option.map_some']

/-- C10, witness: the scoped key of `parent` embeds `cache_ttl`, `filter_by` and `q`; the
request has its own `cache_ttl` and `filter_by`. -/
theorem C10_scoped_success_witness :
    ∃ merged, authenticate Sample.env 100 [(Sample.parent.value, Sample.parent)]
        (Sample.scoped_key "\x7b\"cache_ttl\":120,\"filter_by\":\"a:1\",\"q\":\"shoe\"\x7d")
        DOCUMENTS_SEARCH_ACTION ["coll"] [("cache_ttl", "5"), ("filter_by", "b:2")]
        = some (true, merged)
      ∧ StdMap.find merged "cache_ttl" = some "120"
      ∧ StdMap.find merged "filter_by" = some "b:2&&a:1"
      ∧ StdMap.find merged "q" = some "shoe" := by
  obtain ⟨merged, hauth, _, hmerge⟩ := C10_scoped_success Sample.env 100
    [(Sample.parent.value, Sample.parent)] [] [] Sample.parent.value Sample.parent
    (Sample.scoped_key "\x7b\"cache_ttl\":120,\"filter_by\":\"a:1\",\"q\":\"shoe\"\x7d")
    (Sample.hmac Sample.parent.value
      "\x7b\"cache_ttl\":120,\"filter_by\":\"a:1\",\"q\":\"shoe\"\x7d")
    "abcd" "\x7b\"cache_ttl\":120,\"filter_by\":\"a:1\",\"q\":\"shoe\"\x7d" ["coll"]
    [("cache_ttl", "5"), ("filter_by", "b:2")]
    [("cache_ttl", json.number_unsigned 120), ("filter_by", json.string "a:1"),
      ("q", json.string "shoe")]
    (by decide) rfl (by decide) (by decide) rfl (by intro kv hkv; cases hkv) (by decide)
    (by decide) rfl rfl rfl rfl (by decide) (by decide) (Or.inl rfl)
  refine ⟨merged, hauth, ?_, ?_, ?_⟩
  · rw [hmerge "cache_ttl" (json.number_unsigned 120) (by decide) rfl]
    decide
  · rw [hmerge "filter_by" (json.string "a:1") (by decide) rfl]
    decide
  · rw [hmerge "q" (json.string "shoe") (by decide) rfl]
    decide

/-- C10, counterexamples to the claim as worded. First: `parent` is the only key with
the prefix, is not expired, has the actions `[documents:search]` and the collections
`[*]`, the digest is right and the embedded object holds an integer and a string, yet the
key is refused, because the embedded `expires_at` of 1 lies before the clock value 100.
Second: the text of the scoped key is itself the value of a table key, so the direct
path decides and refuses the search. -/
theorem C10_counterexample :
    Sample.env.json_parse "\x7b\"expires_at\":1,\"filter_by\":\"a:1\"\x7d"
        = some (json.object
          [("expires_at", json.number_unsigned 1), ("filter_by", json.string "a:1")])
      ∧ authenticate Sample.env 100 [(Sample.parent.value, Sample.parent)]
        (Sample.scoped_key "\x7b\"expires_at\":1,\"filter_by\":\"a:1\"\x7d")
        "documents:search" ["coll"] [("filter_by", "b:2")]
        = some (false, [("filter_by", "b:2")])
      ∧ authenticate Sample.env 100
        [(Sample.parent.value, Sample.parent), (Sample.shadow_key.value, Sample.shadow_key)]
        (Sample.scoped_key "\x7b\"filter_by\":\"a:1\"\x7d")
        "documents:search" ["coll"] [("filter_by", "b:2")]
        = some (false, [("filter_by", "b:2")]) := by
  refine ⟨rfl, by decide, by decide⟩

/-! ## The merging policy of `add_item_to_params` -/

/-- The value that `add_item_to_params` leaves under the key `k` of an item with the
text `s`: `s` for an absent key; the old text, `&&` and `s` for `filter_by`; `s` in
place of the old text when `overwrite` is set, else the old text. -/
theorem add_item_to_params_policy (params : Params) (k : String) (v : json) (s : String)
    (overwrite : Bool) (hs : str_value v = some s) :
    (add_item_to_params params (k, v) overwrite).1 = true
      ∧ ∀ k', StdMap.find (add_item_to_params params (k, v) overwrite).2 k'
        = if k = k' then
            some (match StdMap.find params k with
              | none => s
              | some old =>
                if k = "filter_by" then old ++ "&&" ++ s
                else if overwrite = true then s else old)
          else StdMap.find params k' := by
  unfold add_item_to_params
  simp only [hs]
  cases hold : StdMap.find params k with
  | none =>
    have hc : StdMap.count params k = 0 := by simp [StdMap.count, hold]
    rw [if_pos hc]
    exact ⟨rfl, fun k' => by simp only [StdMap.find_set]⟩
  | some o =>
    have hc : ¬ StdMap.count params k = 0 := by simp [StdMap.count, hold]
    rw [if_neg hc]
    by_cases hf : k = "filter_by"
    · rw [if_pos hf]
      refine ⟨rfl, fun k' => ?_⟩
      simp only [StdMap.find_set, hold, if_pos hf, Option.getD_some]
    · rw [if_neg hf]
      cases overwrite with
      | true =>
        refine ⟨rfl, fun k' => ?_⟩
        simp only [StdMap.find_set, if_neg hf, if_true]
      | false =>
        refine ⟨rfl, fun k' => ?_⟩
        by_cases hk : k = k'
        · subst hk
          simp [hold, hf]
        · simp [hk]

/-- An integer that fits in an `int64_t` is stored as its decimal text; a signed value
is in that range by its type, an unsigned one when it is below `2^63`. -/
theorem str_value_integer (i : Int) (n : Nat) (hi : -2 ^ 63 ≤ i ∧ i < 2 ^ 63)
    (hn : n < 2 ^ 63) :
    str_value (json.number_integer i) = some (toString i)
      ∧ str_value (json.number_unsigned n) = some (toString (n : Int)) := by
  constructor
  · simp only [str_value, json.get_int64, json.to_int64]
    by_cases h0 : 0 ≤ i
    · have h64 : i % 2 ^ 64 = i := Int.emod_eq_of_lt h0 (by omega)
      rw [h64, if_pos hi.2]
    · have h64 : i % 2 ^ 64 = i + 2 ^ 64 := by
        rw [← Int.add_emod_self]
        exact Int.emod_eq_of_lt (by omega) (by omega)
      rw [h64, if_neg (by omega)]
      congr 2
      omega
  · rw [str_value, (json.number_unsigned_reads n hn).1]

/-- C11, evaluated where the code departs from it. The item has the key `max` and the
integer `2^63`, whose decimal form is `9223372036854775808`; the call returns true and
stores the text `-9223372036854775808`, the value read through `get<int64_t>()`. An
integer below `2^63` is stored in its decimal form. -/
theorem C11_integer_beyond_int64 :
    toString ((2 : Nat) ^ 63) = "9223372036854775808"
      ∧ add_item_to_params [("q", "shoe")] ("max", json.number_unsigned (2 ^ 63)) true
        = (true, [("max", "-9223372036854775808"), ("q", "shoe")])
      ∧ add_item_to_params [("q", "shoe")] ("max", json.number_unsigned (2 ^ 63 - 1)) true
        = (true, [("max", "9223372036854775807"), ("q", "shoe")]) := by
  decide

/-- A value that is no string, integer, float or boolean is refused by
`add_item_to_params`, which returns false and leaves the parameters as they were. -/
theorem add_item_to_params_rejects (params : Params) (k : String) (v : json)
    (overwrite : Bool) (hv : str_value v = none) :
    add_item_to_params params (k, v) overwrite = (false, params) := by
  unfold add_item_to_params
  simp only [hv]

/-- The loop of `post_multi_search` over the items of a search stops at the first item,
other than `cache_ttl`, whose value `add_item_to_params` refuses. -/
theorem merge_search_items_rejects (params : Params) (items : List (String × json))
    (hbad : ∃ item ∈ items, item.1 ≠ "cache_ttl" ∧ str_value item.2 = none) :
    (merge_search_items params items).1 = false := by
  induction items generalizing params with
  | nil =>
    obtain ⟨item, hmem, _⟩ := hbad
    cases hmem
  | cons hd tl ih =>
    unfold merge_search_items
    by_cases hc : hd.1 = "cache_ttl"
    · rw [if_pos hc]
      apply ih
      obtain ⟨item, hmem, hne, hnone⟩ := hbad
      rcases List.mem_cons.mp hmem with h | h
      · subst h
        exact absurd hc hne
      · exact ⟨item, h, hne, hnone⟩
    · rw [if_neg hc]
      cases hsv : str_value hd.2 with
      | none =>
        have := add_item_to_params_rejects params hd.1 hd.2 false hsv
        simp only [Prod.mk.eta] at this
        simp [this]
      | some sv =>
        have hok := (add_item_to_params_policy params hd.1 hd.2 sv false hsv).1
        simp only [Prod.mk.eta] at hok
        simp only [hok, Bool.not_true, Bool.false_eq_true, if_false]
        apply ih
        obtain ⟨item, hmem, hne, hnone⟩ := hbad
        rcases List.mem_cons.mp hmem with h | h
        · subst h
          rw [hsv] at hnone
          cases hnone
        · exact ⟨item, h, hne, hnone⟩

/-- C12, evaluated where the code departs from it. The scoped key of `parent` embeds
`filter_by` as an array, a value that `add_item_to_params` refuses; `authenticate`
does not look at the returned flag, drops the item without a word and accepts the
request. The same object as an entry of a multi-search body makes `post_multi_search`
answer 400. -/
theorem C12_embedded_array_accepted :
    add_item_to_params [("page", "2")] ("filter_by", json.array [json.string "a:1"]) true
        = (false, [("page", "2")])
      ∧ authenticate Sample.env 100 [(Sample.parent.value, Sample.parent)]
        (Sample.scoped_key "\x7b\"filter_by\":[\"a:1\"],\"q\":\"shoe\"\x7d")
        "documents:search" ["coll"] [("page", "2")]
        = some (true, [("page", "2"), ("q", "shoe")])
      ∧ (post_multi_search Sample.core 0 0 ⟨[], 100⟩
          ⟨12, "\x7b\"searches\":[\x7b\"filter_by\":[\"a:1\"],\"q\":\"shoe\"\x7d]\x7d",
            [("page", "2")]⟩ Sample.fresh_res).1 = false
      ∧ (post_multi_search Sample.core 0 0 ⟨[], 100⟩
          ⟨12, "\x7b\"searches\":[\x7b\"filter_by\":[\"a:1\"],\"q\":\"shoe\"\x7d]\x7d",
            [("page", "2")]⟩ Sample.fresh_res).2.2.1.status_code = 400 := by
  decide

/-! ## What `authenticate` does to the parameters, and the layout of a scoped key -/

/-- C13. When `authenticate` returns false the parameter map is as it was; and when the
presented key is found in the key table the parameter map is as it was, whatever the
answer. -/
theorem C13_params_frame (env : Env) (now : Nat) (api_keys : List (String × api_key_t))
    (req action : String) (collections : List String) (params after : Params) :
    (authenticate env now api_keys req action collections params = some (false, after) →
        after = params)
      ∧ (∀ key b, StdMap.find api_keys req = some key →
        authenticate env now api_keys req action collections params = some (b, after) →
        after = params) := by
  have hdirect : ∀ key b, StdMap.find api_keys req = some key →
      authenticate env now api_keys req action collections params = some (b, after) →
      after = params := by
    intro key b hfind hres
    rw [authenticate_direct env now api_keys req key action collections params hfind] at hres
    cases hk : auth_against_key env now collections action key false with
    | none => rw [hk] at hres; cases hres
    | some b' =>
      rw [hk] at hres
      simp only [Option.map_some', Option.some.injEq, Prod.mk.injEq] at hres
      exact hres.2.symm
  refine ⟨?_, hdirect⟩
  intro hres
  cases hfind : StdMap.find api_keys req with
  | some key => exact hdirect key false hfind hres
  | none =>
    rw [authenticate_scoped env now api_keys req action collections params hfind] at hres
    cases hp : authenticate_parse_params env now api_keys req action collections
        json.null with
    | none => rw [hp] at hres; cases hres
    | some r =>
      obtain ⟨auth_op, embedded_params⟩ := r
      rw [hp] at hres
      simp only at hres
      cases hok : auth_op.ok with
      | false =>
        simp only [hok, Bool.not_false, if_true, Option.some.injEq, Prod.mk.injEq,
          true_and] at hres
        exact hres.symm
      | true =>
        simp [hok] at hres

/-- C13, witness: the scoped key of `parent` with an altered text is refused and the
parameters stay; the table key `docs_key` is accepted and the parameters stay. -/
theorem C13_params_frame_witness :
    authenticate Sample.env 100 [(Sample.parent.value, Sample.parent)]
        (Sample.hmac Sample.parent.value "\x7b\"filter_by\":\"a:1\"\x7d" ++ "abcd"
          ++ "\x7b\"filter_by\":\"a:2\"\x7d")
        "documents:search" ["coll"] [("q", "shoe")] = some (false, [("q", "shoe")])
      ∧ authenticate Sample.env 100 [(Sample.docs_key.value, Sample.docs_key)]
        Sample.docs_key.value "documents:search" ["coll_a"] [("q", "shoe")]
        = some (true, [("q", "shoe")]) := by
  have h1 : ∃ after, authenticate Sample.env 100 [(Sample.parent.value, Sample.parent)]
      (Sample.hmac Sample.parent.value "\x7b\"filter_by\":\"a:1\"\x7d" ++ "abcd"
        ++ "\x7b\"filter_by\":\"a:2\"\x7d")
      "documents:search" ["coll"] [("q", "shoe")] = some (false, after) :=
    ⟨[("q", "shoe")], by decide⟩
  have h2 : ∃ after, authenticate Sample.env 100 [(Sample.docs_key.value, Sample.docs_key)]
      Sample.docs_key.value "documents:search" ["coll_a"] [("q", "shoe")]
      = some (true, after) := ⟨[("q", "shoe")], by decide⟩
  obtain ⟨a1, ha1⟩ := h1
  obtain ⟨a2, ha2⟩ := h2
  have e1 := (C13_params_frame Sample.env 100 [(Sample.parent.value, Sample.parent)] _
    "documents:search" ["coll"] [("q", "shoe")] a1).1 ha1
  have e2 := (C13_params_frame Sample.env 100 [(Sample.docs_key.value, Sample.docs_key)]
    Sample.docs_key.value "documents:search" ["coll_a"] [("q", "shoe")] a2).2
    Sample.docs_key true (by decide) ha2
  rw [ha1, ha2, e1, e2]
  exact ⟨rfl, rfl⟩

end AuthManager

/-! ## More on maps -/

namespace StdMap

theorem find_isSome_iff_mem {β : Type} (m : List (String × β)) (k : String) :
    (find m k).isSome = true ↔ k ∈ m.map Prod.fst := by
  induction m with
  | nil => simp [find]
  | cons hd tl ih =>
    obtain ⟨k0, v0⟩ := hd
    unfold find
    by_cases h0 : k0 = k
    · simp [h0]
    · rw [if_neg h0, ih]
      simp only [List.map_cons, List.mem_cons]
      constructor
      · exact Or.inr
      · rintro (h | h)
        · exact absurd h.symm h0
        · exact h

theorem mem_keys_set {β : Type} (m : List (String × β)) (k : String) (v : β) (x : String) :
    x ∈ (set m k v).map Prod.fst ↔ x = k ∨ x ∈ m.map Prod.fst := by
  induction m with
  | nil => simp [set]
  | cons hd tl ih =>
    obtain ⟨k0, v0⟩ := hd
    unfold set
    by_cases h0 : k0 = k
    · subst h0
      simp
    · rw [if_neg h0]
      by_cases hlt : StdString.lt k k0
      · rw [if_pos hlt]
        simp
      · rw [if_neg hlt]
        simp only [List.map_cons, List.mem_cons, ih]
        constructor
        · rintro (h | h | h)
          · exact Or.inr (Or.inl h)
          · exact Or.inl h
          · exact Or.inr (Or.inr h)
        · rintro (h | h | h)
          · exact Or.inr (Or.inl h)
          · exact Or.inl h
          · exact Or.inr (Or.inr h)

theorem nodup_keys_set {β : Type} (m : List (String × β)) (k : String) (v : β)
    (hk : k ∉ m.map Prod.fst) (hm : (m.map Prod.fst).Nodup) :
    ((set m k v).map Prod.fst).Nodup := by
  induction m with
  | nil => simp [set]
  | cons hd tl ih =>
    obtain ⟨k0, v0⟩ := hd
    simp only [List.map_cons, List.mem_cons, not_or] at hk
    simp only [List.map_cons, List.nodup_cons] at hm
    unfold set
    rw [if_neg (fun h => hk.1 h.symm)]
    by_cases hlt : StdString.lt k k0
    · rw [if_pos hlt]
      simp only [List.map_cons, List.nodup_cons, List.mem_cons, not_or]
      exact ⟨⟨hk.1, hk.2⟩, hm.1, hm.2⟩
    · rw [if_neg hlt]
      simp only [List.map_cons, List.nodup_cons, mem_keys_set, not_or]
      exact ⟨⟨fun h => hk.1 h.symm, hm.1⟩, ih hk.2 hm.2⟩

theorem emplace_of_present {β : Type} (m : List (String × β)) (k : String) (v : β)
    (hk : (find m k).isSome = true) : emplace m k v = m := by
  unfold emplace
  cases hf : find m k with
  | none => rw [hf] at hk; cases hk
  | some x => rfl

theorem find_emplace_present {β : Type} (m : List (String × β)) (k : String) (v : β)
    (k' : String) (hk : k' = k ∨ (find m k').isSome = true) :
    (find (emplace m k v) k').isSome = true := by
  unfold emplace
  cases hf : find m k with
  | some x =>
    rcases hk with h | h
    · subst h
      simp [hf]
    · exact h
  | none =>
    simp only [find_set]
    by_cases hkk : k = k'
    · simp [hkk]
    · rw [if_neg hkk]
      rcases hk with h | h
      · exact absurd h.symm hkk
      · exact h

theorem nodup_keys_emplace {β : Type} (m : List (String × β)) (k : String) (v : β)
    (hm : (m.map Prod.fst).Nodup) : ((emplace m k v).map Prod.fst).Nodup := by
  unfold emplace
  cases hf : find m k with
  | some x => exact hm
  | none =>
    apply nodup_keys_set m k v _ hm
    intro hmem
    have := (find_isSome_iff_mem m k).mpr hmem
    rw [hf] at this
    cases this

end StdMap

namespace AuthManager

/-! ## Failures of the store, the ids of new keys, and `init` -/

/-- C15. If the store insert fails during `create_key` (the value is not taken yet), the
call returns the error 500 and the key map is as it was, so it does not hold the new
key; if the store remove fails during `remove_key` (the key was fetched), the call
returns the error 500 and the key map is as it was. Both calls change the key map only
when they succeed. -/
theorem C15_store_failure (env : Env) (self : AuthManager) (api_key : api_key_t) (id : Nat) :
    (StdMap.find self.api_keys api_key.value = none →
        api_key.value ≠ self.bootstrap_auth_key → self.store.insert_fails = true →
        (create_key env self api_key).1
            = Result.error 500 "Could not store generated API key."
          ∧ (create_key env self api_key).2.1.api_keys = self.api_keys
          ∧ StdMap.find (create_key env self api_key).2.1.api_keys api_key.value = none)
      ∧ (∀ key, get_key env self id false = Result.value key →
        self.store.remove_fails = true →
        (remove_key env self id).1 = Result.error 500 "Could not delete API key."
          ∧ (remove_key env self id).2.api_keys = self.api_keys)
      ∧ ((create_key env self api_key).1.ok = false →
        (create_key env self api_key).2.1.api_keys = self.api_keys)
      ∧ ((remove_key env self id).1.ok = false →
        (remove_key env self id).2.api_keys = self.api_keys) := by
  refine ⟨?_, ?_, ?_, ?_⟩
  · intro hfind hboot hfail
    have hcond : ¬ (StdMap.count self.api_keys api_key.value ≠ 0
        ∨ api_key.value = self.bootstrap_auth_key) := by
      simp [StdMap.count, hfind, hboot]
    have hins : ∀ key value, ((get_next_api_key_id env self).2.store.insert key value).1
        = false := by
      intro key value
      simp [get_next_api_key_id, Store.increment, Store.insert, hfail]
    unfold create_key
    rw [if_neg hcond]
    simp only [hins, Bool.not_false, if_true]
    exact ⟨trivial, rfl, hfind⟩
  · intro key hget hfail
    unfold remove_key
    rw [hget]
    simp [Store.remove, hfail]
  · intro hfailed
    unfold create_key at hfailed ⊢
    by_cases hcond : StdMap.count self.api_keys api_key.value ≠ 0
        ∨ api_key.value = self.bootstrap_auth_key
    · rw [if_pos hcond]
    · rw [if_neg hcond] at hfailed ⊢
      cases hins : ((get_next_api_key_id env self).2.store.insert
          (env.API_KEYS_PREFIX ++ "_" ++ toString (get_next_api_key_id env self).1)
          (env.dump_api_key { api_key with id := (get_next_api_key_id env self).1 })).1 with
      | false =>
        simp only [hins, Bool.not_false, if_true]
        rfl
      | true =>
        simp [hins, Result.ok] at hfailed
  · intro hfailed
    unfold remove_key at hfailed ⊢
    cases hget : get_key env self id false with
    | error code msg => rfl
    | value key =>
      rw [hget] at hfailed
      simp only at hfailed ⊢
      cases hrem : (self.store.remove (env.API_KEYS_PREFIX ++ "_" ++ toString id)).1 with
      | false => simp [hrem]
      | true => simp [hrem, Result.ok] at hfailed

/-- C15, witness: over a store whose inserts fail, the creation of a key fails and the
key map stays empty. -/
theorem C15_store_failure_witness :
    (create_key Sample.env ⟨⟨[], false, true, false⟩, "bootstrap-key", 0, []⟩
        Sample.parent).1 = Result.error 500 "Could not store generated API key."
      ∧ (create_key Sample.env ⟨⟨[], false, true, false⟩, "bootstrap-key", 0, []⟩
        Sample.parent).2.1.api_keys = []
      ∧ (remove_key Sample.env
        ⟨⟨[("$KP_1", Sample.parent.value)], false, false, true⟩, "bootstrap-key", 2,
          [(Sample.parent.value, Sample.parent)]⟩ 1).1
        = Result.error 500 "Could not delete API key."
      ∧ (remove_key Sample.env
        ⟨⟨[("$KP_1", Sample.parent.value)], false, false, true⟩, "bootstrap-key", 2,
          [(Sample.parent.value, Sample.parent)]⟩ 1).2.api_keys
        = [(Sample.parent.value, Sample.parent)] := by
  have h := (C15_store_failure Sample.env ⟨⟨[], false, true, false⟩, "bootstrap-key", 0, []⟩
    Sample.parent 0).1 (by decide) (by decide) (by decide)
  have h' := (C15_store_failure Sample.env
    ⟨⟨[("$KP_1", Sample.parent.value)], false, false, true⟩, "bootstrap-key", 2,
      [(Sample.parent.value, Sample.parent)]⟩ Sample.parent 1).2.1 Sample.parent
    (by decide) (by decide)
  exact ⟨h.1, h.2.1, h'.1, h'.2⟩

/-- What one `create_key` call does to the counter: it stays, or moves on by one
(modulo `2^32`); a created key has the old counter as its id, and the counter has moved
on. -/
theorem create_key_counter (env : Env) (self : AuthManager) (api_key : api_key_t) :
    ((create_key env self api_key).2.1.next_api_key_id = self.next_api_key_id
        ∧ (create_key env self api_key).1.ok = false
      ∨ (create_key env self api_key).2.1.next_api_key_id
        = (self.next_api_key_id + 1) % 2 ^ 32)
      ∧ ∀ created, (create_key env self api_key).1 = Result.value created →
        created.id = self.next_api_key_id
          ∧ (create_key env self api_key).2.1.next_api_key_id
            = (self.next_api_key_id + 1) % 2 ^ 32 := by
  unfold create_key
  by_cases hcond : StdMap.count self.api_keys api_key.value ≠ 0
      ∨ api_key.value = self.bootstrap_auth_key
  · rw [if_pos hcond]
    refine ⟨Or.inl ⟨rfl, rfl⟩, fun created h => ?_⟩
    cases h
  · rw [if_neg hcond]
    cases hins : ((get_next_api_key_id env self).2.store.insert
        (env.API_KEYS_PREFIX ++ "_" ++ toString (get_next_api_key_id env self).1)
        (env.dump_api_key { api_key with id := (get_next_api_key_id env self).1 })).1 with
    | false =>
      simp only [hins, Bool.not_false, if_true]
      refine ⟨Or.inr rfl, fun created h => ?_⟩
      cases h
    | true =>
      simp only [hins, Bool.not_true, Bool.false_eq_true, if_false]
      refine ⟨Or.inr rfl, fun created h => ?_⟩
      simp only [Result.value.injEq] at h
      subst h
      exact ⟨rfl, rfl⟩

theorem create_keys_cons (env : Env) (self : AuthManager) (api_key : api_key_t)
    (rest : List api_key_t) :
    create_keys env self (api_key :: rest)
      = ((create_key env self api_key).1
          :: (create_keys env (create_key env self api_key).2.1 rest).1,
        (create_keys env (create_key env self api_key).2.1 rest).2) := by
  rw [create_keys]

/-- The ids that a sequence of calls hands out start at the counter and increase, as
long as the counter does not pass `2^32`. -/
theorem created_ids_increasing (env : Env) (api_keys : List api_key_t) :
    ∀ self : AuthManager, self.next_api_key_id + api_keys.length ≤ 2 ^ 32 →
      (∀ x ∈ created_ids (create_keys env self api_keys).1, self.next_api_key_id ≤ x)
        ∧ (created_ids (create_keys env self api_keys).1).Pairwise (· < ·) := by
  induction api_keys with
  | nil =>
    intro self _
    simp [create_keys, created_ids]
  | cons api_key rest ih =>
    intro self hbound
    rw [create_keys_cons]
    obtain ⟨hstep, hcreated⟩ := create_key_counter env self api_key
    simp only [List.length_cons] at hbound
    by_cases hrest : rest = []
    · subst hrest
      cases hres : (create_key env self api_key).1 with
      | value created =>
        have := (hcreated created hres).1
        simp [create_keys, created_ids, this]
      | error code msg => simp [create_keys, created_ids]
    · have hlen : 1 ≤ rest.length := by
        cases rest with
        | nil => exact absurd rfl hrest
        | cons a b => simp
      have hmod : (self.next_api_key_id + 1) % 2 ^ 32 = self.next_api_key_id + 1 :=
        Nat.mod_eq_of_lt (by omega)
      have hnext : self.next_api_key_id ≤ (create_key env self api_key).2.1.next_api_key_id
          ∧ (create_key env self api_key).2.1.next_api_key_id + rest.length ≤ 2 ^ 32 := by
        rcases hstep with ⟨h, _⟩ | h
        · rw [h]; omega
        · rw [h, hmod]; omega
      obtain ⟨hlow, hpair⟩ := ih (create_key env self api_key).2.1 hnext.2
      cases hres : (create_key env self api_key).1 with
      | value created =>
        obtain ⟨hid, hadv⟩ := hcreated created hres
        rw [hadv, hmod] at hlow
        simp only [created_ids, List.mem_cons, List.pairwise_cons]
        refine ⟨?_, ?_, hpair⟩
        · rintro x (h | h)
          · rw [h, hid]
          · have := hlow x h
            omega
        · intro x hx
          have := hlow x hx
          omega
      | error code msg =>
        simp only [created_ids]
        exact ⟨fun x hx => le_trans hnext.1 (hlow x hx), hpair⟩

/-- C16, as the code has it. In a sequence of `create_key` calls during which the
counter does not pass `2^32`, every created key has an id greater than the ids of the
keys created before it. And `init` does not move the counter: it leaves the store as it
is and sets the counter of the manager to the stored one (to 0 when none is stored, and
not at all when the store fails). -/
theorem C16_ids_increasing (env : Env) (self : AuthManager) (api_keys : List api_key_t)
    (store : Store) (bootstrap_auth_key : String)
    (hbound : self.next_api_key_id + api_keys.length ≤ 2 ^ 32) :
    (created_ids (create_keys env self api_keys).1).Pairwise (· < ·)
      ∧ (init env self store bootstrap_auth_key).2.store = store
      ∧ (init env self store bootstrap_auth_key).2.next_api_key_id
        = if (store.get env.API_KEY_NEXT_ID_KEY).1 = StoreStatus.ERROR then
            self.next_api_key_id
          else if (store.get env.API_KEY_NEXT_ID_KEY).1 = StoreStatus.FOUND then
            env.deserialize_uint32_t (store.get env.API_KEY_NEXT_ID_KEY).2 % 2 ^ 32
          else 0 := by
  refine ⟨(created_ids_increasing env api_keys self hbound).2, ?_, ?_⟩
  · unfold init
    by_cases herr : (store.get env.API_KEY_NEXT_ID_KEY).1 = StoreStatus.ERROR
    · rw [if_pos herr]
    · rw [if_neg herr]
  · unfold init
    by_cases herr : (store.get env.API_KEY_NEXT_ID_KEY).1 = StoreStatus.ERROR
    · rw [if_pos herr, if_pos herr]
    · rw [if_neg herr, if_neg herr]

/-- C16, witness: after an `init` over a store whose counter is 7, two keys get the ids
7 and 8. -/
theorem C16_ids_increasing_witness :
    created_ids (create_keys Sample.env
        (init Sample.env (Sample.manager []) ⟨[("$KN", "7")], false, false, false⟩
          "bootstrap-key").2
        [{ Sample.parent with value := "key-one" },
          { Sample.parent with value := "key-two" }]).1 = [7, 8]
      ∧ ([7, 8] : List Nat).Pairwise (· < ·) := by
  have h := (C16_ids_increasing Sample.env
    (init Sample.env (Sample.manager []) ⟨[("$KN", "7")], false, false, false⟩
      "bootstrap-key").2
    [{ Sample.parent with value := "key-one" }, { Sample.parent with value := "key-two" }]
    ⟨[], false, false, false⟩ "" (by decide)).1
  have he : created_ids (create_keys Sample.env
      (init Sample.env (Sample.manager []) ⟨[("$KN", "7")], false, false, false⟩
        "bootstrap-key").2
      [{ Sample.parent with value := "key-one" },
        { Sample.parent with value := "key-two" }]).1 = [7, 8] := by decide
  rw [he] at h
  exact ⟨he, h⟩

/-- C16, counterexample to strictly increasing ids: after an `init` over a store whose
counter is `2^32 - 1`, two keys are created with the ids 4294967295 and 0. -/
theorem C16_counterexample :
    (init Sample.env (Sample.manager []) ⟨[("$KN", "4294967295")], false, false, false⟩
        "bootstrap-key").2.next_api_key_id = 4294967295
      ∧ ((create_keys Sample.env
        (init Sample.env (Sample.manager []) ⟨[("$KN", "4294967295")], false, false, false⟩
          "bootstrap-key").2
        [{ Sample.parent with value := "key-one" },
          { Sample.parent with value := "key-two" }]).1.map Result.ok) = [true, true]
      ∧ created_ids (create_keys Sample.env
        (init Sample.env (Sample.manager []) ⟨[("$KN", "4294967295")], false, false, false⟩
          "bootstrap-key").2
        [{ Sample.parent with value := "key-one" },
          { Sample.parent with value := "key-two" }]).1 = [4294967295, 0] := by
  decide

theorem load_keys_cons (env : Env) (text : String) (rest : List String)
    (api_keys : List (String × api_key_t)) :
    load_keys env (text :: rest) api_keys
      = match env.load_api_key text with
        | Result.error code msg => (Result.error code msg, api_keys)
        | Result.value api_key =>
          load_keys env rest (StdMap.emplace api_keys api_key.value api_key) := by
  rw [load_keys]

/-- A key value that the map holds is still held after the loop of `init`. -/
theorem load_keys_keeps (env : Env) (texts : List String) :
    ∀ (api_keys : List (String × api_key_t)) (k : String),
      (StdMap.find api_keys k).isSome = true →
      (StdMap.find (load_keys env texts api_keys).2 k).isSome = true := by
  induction texts with
  | nil => intro api_keys k hk; exact hk
  | cons text rest ih =>
    intro api_keys k hk
    rw [load_keys_cons]
    cases hload : env.load_api_key text with
    | error code msg => exact hk
    | value api_key =>
      exact ih _ k (StdMap.find_emplace_present api_keys api_key.value api_key k (Or.inr hk))

/-- The loop of `init` does not change a map that already holds every key value that the
loop has put into some map. -/
theorem load_keys_again (env : Env) (texts : List String) :
    ∀ (api_keys held : List (String × api_key_t)),
      (∀ k, (StdMap.find (load_keys env texts api_keys).2 k).isSome = true →
        (StdMap.find held k).isSome = true) →
      load_keys env texts held = ((load_keys env texts api_keys).1, held) := by
  induction texts with
  | nil => intro api_keys held _; rfl
  | cons text rest ih =>
    intro api_keys held hheld
    rw [load_keys_cons, load_keys_cons]
    rw [load_keys_cons] at hheld
    cases hload : env.load_api_key text with
    | error code msg => rfl
    | value api_key =>
      rw [hload] at hheld
      simp only at hheld ⊢
      have hpresent : (StdMap.find held api_key.value).isSome = true := by
        apply hheld
        apply load_keys_keeps
        exact StdMap.find_emplace_present api_keys api_key.value api_key api_key.value
          (Or.inl rfl)
      rw [StdMap.emplace_of_present held api_key.value api_key hpresent]
      exact ih _ held hheld

theorem load_keys_nodup (env : Env) (texts : List String) :
    ∀ api_keys : List (String × api_key_t), (api_keys.map Prod.fst).Nodup →
      ((load_keys env texts api_keys).2.map Prod.fst).Nodup := by
  induction texts with
  | nil => intro api_keys h; exact h
  | cons text rest ih =>
    intro api_keys h
    rw [load_keys_cons]
    cases hload : env.load_api_key text with
    | error code msg => exact h
    | value api_key => exact ih _ (StdMap.nodup_keys_emplace api_keys _ _ h)

/-- C17. A second `init` with the same store and bootstrap key, right after the first,
returns the same result and leaves the manager as the first call left it (key map and
next-id counter included); and a key map without two records of one value has none
after `init` either. -/
theorem C17_init_idempotent (env : Env) (self : AuthManager) (store : Store)
    (bootstrap_auth_key : String) :
    init env (init env self store bootstrap_auth_key).2 store bootstrap_auth_key
        = init env self store bootstrap_auth_key
      ∧ ((self.api_keys.map Prod.fst).Nodup →
        ((init env self store bootstrap_auth_key).2.api_keys.map Prod.fst).Nodup) := by
  constructor
  · by_cases herr : (store.get env.API_KEY_NEXT_ID_KEY).1 = StoreStatus.ERROR
    · have h1 : init env self store bootstrap_auth_key
          = (Result.error 500 "Error while fetching the next API key id from the store.",
            { self with store := store, bootstrap_auth_key := bootstrap_auth_key }) := by
        unfold init
        rw [if_pos herr]
      rw [h1]
      unfold init
      rw [if_pos herr]
    · have h1 : init env self store bootstrap_auth_key
          = ((load_keys env (store.scan_fill env.API_KEYS_PREFIX) self.api_keys).1,
            { store := store
              bootstrap_auth_key := bootstrap_auth_key
              next_api_key_id :=
                if (store.get env.API_KEY_NEXT_ID_KEY).1 = StoreStatus.FOUND then
                  env.deserialize_uint32_t (store.get env.API_KEY_NEXT_ID_KEY).2 % 2 ^ 32
                else 0
              api_keys :=
                (load_keys env (store.scan_fill env.API_KEYS_PREFIX) self.api_keys).2 }) := by
        unfold init
        rw [if_neg herr]
      rw [h1]
      unfold init
      rw [if_neg herr]
      simp only
      rw [load_keys_again env (store.scan_fill env.API_KEYS_PREFIX) self.api_keys
        (load_keys env (store.scan_fill env.API_KEYS_PREFIX) self.api_keys).2
        (fun k hk => hk)]
  · intro hnodup
    unfold init
    by_cases herr : (store.get env.API_KEY_NEXT_ID_KEY).1 = StoreStatus.ERROR
    · rw [if_pos herr]
      exact hnodup
    · rw [if_neg herr]
      exact load_keys_nodup env _ self.api_keys hnodup

/-- C17, witness: `init` over a store with a counter and two keys, done once and done
twice, gives the manager with the counter 3 and the two keys. -/
theorem C17_init_idempotent_witness :
    (init Sample.env (init Sample.env (Sample.manager [])
        ⟨[("$KN", "3"), ("$KP_1", Sample.parent.value), ("$KP_2", Sample.docs_key.value)],
          false, false, false⟩ "bootstrap-key").2
        ⟨[("$KN", "3"), ("$KP_1", Sample.parent.value), ("$KP_2", Sample.docs_key.value)],
          false, false, false⟩ "bootstrap-key")
      = (Result.value true,
        ⟨⟨[("$KN", "3"), ("$KP_1", Sample.parent.value), ("$KP_2", Sample.docs_key.value)],
          false, false, false⟩, "bootstrap-key", 3,
          [(Sample.parent.value, Sample.parent), (Sample.docs_key.value, Sample.docs_key)]⟩)
      ∧ (([(Sample.parent.value, Sample.parent), (Sample.docs_key.value, Sample.docs_key)]
        : List (String × api_key_t)).map Prod.fst).Nodup := by
  have h := C17_init_idempotent Sample.env (Sample.manager [])
    ⟨[("$KN", "3"), ("$KP_1", Sample.parent.value), ("$KP_2", Sample.docs_key.value)],
      false, false, false⟩ "bootstrap-key"
  have he : init Sample.env (Sample.manager [])
      ⟨[("$KN", "3"), ("$KP_1", Sample.parent.value), ("$KP_2", Sample.docs_key.value)],
        false, false, false⟩ "bootstrap-key"
      = (Result.value true,
        ⟨⟨[("$KN", "3"), ("$KP_1", Sample.parent.value), ("$KP_2", Sample.docs_key.value)],
          false, false, false⟩, "bootstrap-key", 3,
          [(Sample.parent.value, Sample.parent), (Sample.docs_key.value, Sample.docs_key)]⟩) := by
    decide
  refine ⟨h.1.trans he, ?_⟩
  have hn := h.2 (by decide)
  rw [he] at hn
  exact hn

end AuthManager

/-! ## Validation of a key -/

namespace api_key_t

theorem ite_error_iff (c : Prop) [Decidable c] (code : Nat) (msg : String)
    (rest : Result Nat) (v : Nat) :
    (if c then Result.error code msg else rest) = Result.value v ↔ ¬ c ∧ rest = Result.value v := by
  by_cases hc : c
  · rw [if_pos hc]
    constructor
    · intro h; cases h
    · intro h; exact absurd hc h.1
  · rw [if_neg hc]
    exact ⟨fun h => ⟨hc, h⟩, fun h => h.2⟩

theorem ite_error_code (c : Prop) [Decidable c] (msg : String) (rest : Result Nat)
    (hrest : rest = Result.value 200 ∨ rest.code = 400) :
    (if c then Result.error 400 msg else rest) = Result.value 200
      ∨ (if c then Result.error 400 msg else rest).code = 400 := by
  by_cases hc : c
  · rw [if_pos hc]; exact Or.inr rfl
  · rw [if_neg hc]; exact hrest

theorem some_not_string_eq_false (items : List json) :
    ¬ some_not_string items = true ↔ ∀ item ∈ items, item.is_string = true := by
  unfold some_not_string
  rw [List.any_eq_true]
  constructor
  · intro h item hmem
    cases hs : item.is_string with
    | true => rfl
    | false => exact absurd ⟨item, hmem, by rw [hs]; rfl⟩ h
  · rintro h ⟨item, hmem, hbad⟩
    rw [h item hmem] at hbad
    cases hbad

/-- What `validate` accepts: the three mandatory keys are there, `value` (if there is
one) and `description` are strings, `actions` and `collections` are arrays that are not
empty and hold strings only, and `expires_at` (if there is one) is an integer that is
not negative when read as an `int64_t`. -/
theorem validate_accepts_iff (key_obj : json) :
    validate key_obj = Result.value 200 ↔
      key_obj.count "description" ≠ 0 ∧ key_obj.count "actions" ≠ 0
        ∧ key_obj.count "collections" ≠ 0
        ∧ (key_obj.count "value" ≠ 0 → (key_obj.get "value").is_string = true)
        ∧ (key_obj.get "description").is_string = true
        ∧ ((key_obj.get "actions").is_array = true
          ∧ (key_obj.get "actions").empty = false)
        ∧ ((key_obj.get "collections").is_array = true
          ∧ (key_obj.get "collections").empty = false)
        ∧ (∀ item ∈ (key_obj.get "actions").elems, item.is_string = true)
        ∧ (∀ item ∈ (key_obj.get "collections").elems, item.is_string = true)
        ∧ (key_obj.count "expires_at" ≠ 0 →
          (key_obj.get "expires_at").is_number_integer = true
            ∧ 0 ≤ (key_obj.get "expires_at").get_int64) := by
  unfold validate
  rw [ite_error_iff, ite_error_iff, ite_error_iff, ite_error_iff, ite_error_iff,
    ite_error_iff, ite_error_iff, ite_error_iff, ite_error_iff,
    some_not_string_eq_false, some_not_string_eq_false]
  have hlast : (if key_obj.count "expires_at" ≠ 0 then
        if (key_obj.get "expires_at").is_number_integer = false
            ∨ (key_obj.get "expires_at").get_int64 < 0 then
          Result.error 400
            "Wrong format for `expires_at`. It should be an unsigned integer."
        else Result.value 200
      else Result.value 200) = Result.value 200
      ↔ (key_obj.count "expires_at" ≠ 0 →
        (key_obj.get "expires_at").is_number_integer = true
          ∧ 0 ≤ (key_obj.get "expires_at").get_int64) := by
    by_cases hc : key_obj.count "expires_at" ≠ 0
    · rw [if_pos hc, ite_error_iff]
      constructor
      · intro h _
        have h1 := h.1
        rw [not_or, Bool.not_eq_false, Int.not_lt] at h1
        exact h1
      · intro h
        refine ⟨?_, rfl⟩
        rw [not_or, Bool.not_eq_false, Int.not_lt]
        exact h hc
    · rw [if_neg hc]
      exact ⟨fun _ h => absurd h hc, fun _ => rfl⟩
  rw [hlast]
  have hstr : ∀ j : json, ¬ j.is_string = false ↔ j.is_string = true := by
    intro j; cases j.is_string <;> simp
  have harr : ∀ j : json, ¬ (j.is_array = false ∨ j.empty = true)
      ↔ (j.is_array = true ∧ j.empty = false) := by
    intro j; cases j.is_array <;> cases j.empty <;> simp
  rw [harr, harr]
  constructor
  · rintro ⟨h1, h2, h3, h4, h5, h6, h7, h8, h9, h10⟩
    refine ⟨h1, h2, h3, ?_, ?_, h6, h7, h8, h9, h10⟩
    · intro hv
      exact (hstr _).mp fun hf => h4 ⟨hv, hf⟩
    · exact (hstr _).mp fun hf => h5 ⟨h1, hf⟩
  · rintro ⟨h1, h2, h3, h4, h5, h6, h7, h8, h9, h10⟩
    refine ⟨h1, h2, h3, ?_, ?_, h6, h7, h8, h9, h10⟩
    · rintro ⟨hv, hf⟩
      rw [h4 hv] at hf
      cases hf
    · rintro ⟨_, hf⟩
      rw [h5] at hf
      cases hf

/-- Every refusal of `validate` has the code 400. -/
theorem validate_code (key_obj : json) :
    validate key_obj = Result.value 200 ∨ (validate key_obj).code = 400 := by
  unfold validate
  repeat apply ite_error_code
  by_cases hc : key_obj.count "expires_at" ≠ 0
  · rw [if_pos hc]
    apply ite_error_code
    exact Or.inl rfl
  · rw [if_neg hc]
    exact Or.inl rfl

/-- C18, evaluated where the code departs from it. The object has `description`,
`actions` and `collections` of the right form and the `expires_at` of `2^63`, an integer
that is not negative; `validate` reads it through `get<int64_t>()`, finds it negative
and answers 400. With the `expires_at` of `2^63 - 1` the same object is accepted. -/
theorem C18_expires_at_beyond_int64 :
    validate (json.object [("actions", json.array [json.string "documents:search"]),
        ("collections", json.array [json.string "*"]),
        ("description", json.string "search only"),
        ("expires_at", json.number_unsigned (2 ^ 63))])
        = Result.error 400
          "Wrong format for `expires_at`. It should be an unsigned integer."
      ∧ validate (json.object [("actions", json.array [json.string "documents:search"]),
        ("collections", json.array [json.string "*"]),
        ("description", json.string "search only"),
        ("expires_at", json.number_unsigned (2 ^ 63 - 1))])
        = Result.value 200 := by
  decide

end api_key_t

/-! ## The response cache of the search handlers -/

/-- C20. A call of `get_search` or of `post_multi_search` that ends with a status code
outside 200..299 leaves the cache as it was; and whenever a call changes the cache, the
change is the insertion, under the fingerprint of the request, of one entry whose status
code is 200. -/
theorem C20_only_success_cached (core : Core) (now later : Int) (cache : LRUCache)
    (req : http_req) (res : http_res) :
    (¬ (200 ≤ (get_search core now later cache req res).2.1.status_code
          ∧ (get_search core now later cache req res).2.1.status_code < 300) →
        (get_search core now later cache req res).2.2 = cache)
      ∧ ((get_search core now later cache req res).2.2 = cache
        ∨ ∃ entry, (get_search core now later cache req res).2.2
            = cache.insert (hash_request core req) entry ∧ entry.status_code = 200)
      ∧ (¬ (200 ≤ (post_multi_search core now later cache req res).2.2.1.status_code
          ∧ (post_multi_search core now later cache req res).2.2.1.status_code < 300) →
        (post_multi_search core now later cache req res).2.2.2 = cache)
      ∧ ((post_multi_search core now later cache req res).2.2.2 = cache
        ∨ ∃ entry, (post_multi_search core now later cache req res).2.2.2
            = cache.insert (hash_request core req) entry ∧ entry.status_code = 200) := by
  have hget : ((get_search core now later cache req res).2.2 = cache
      ∨ ((get_search core now later cache req res).2.1.status_code = 200
        ∧ ∃ entry, (get_search core now later cache req res).2.2
          = cache.insert (hash_request core req) entry ∧ entry.status_code = 200)) := by
    unfold get_search
    cases hlook : cache_lookup core now cache req with
    | some cached => exact Or.inl rfl
    | none =>
      simp only
      unfold get_search_miss
      cases hok : (core.do_search req.params).1.ok with
      | false => exact Or.inl (by simp [hok])
      | true =>
        cases huse : use_cache_of req.params with
        | false => exact Or.inl (by simp [hok, huse])
        | true =>
          refine Or.inr ?_
          simp only [hok, huse, Bool.not_true, Bool.false_eq_true, if_false, if_true]
          refine ⟨rfl, ⟨200, res.content_type_header, (core.do_search req.params).2, later,
            cache_ttl_of core req.params, hash_request core req⟩, ?_, rfl⟩
          unfold cache_store req_hash_of
          rw [if_pos huse]
          rfl
  have hmulti : ((post_multi_search core now later cache req res).2.2.2 = cache
      ∨ ((post_multi_search core now later cache req res).2.2.1.status_code = 200
        ∧ ∃ entry, (post_multi_search core now later cache req res).2.2.2
          = cache.insert (hash_request core req) entry ∧ entry.status_code = 200)) := by
    unfold post_multi_search
    cases hlook : cache_lookup core now cache req with
    | some cached => exact Or.inl rfl
    | none =>
      simp only
      unfold post_multi_search_miss
      cases hparse : core.json_parse req.body with
      | none => exact Or.inl rfl
      | some req_json =>
        simp only
        by_cases h1 : req_json.count "searches" = 0
        · rw [if_pos h1]; exact Or.inl rfl
        · rw [if_neg h1]
          by_cases h2 : (!(req_json.get "searches").is_array) = true
          · rw [if_pos h2]; exact Or.inl rfl
          · rw [if_neg h2]
            cases hlimit : limit_multi_searches_of core req.params with
            | none => exact Or.inl rfl
            | some limit_multi_searches =>
              simp only
              by_cases h3 : (req_json.get "searches").size > limit_multi_searches
              · rw [if_pos h3]; exact Or.inl rfl
              · rw [if_neg h3]
                cases hran : (run_searches core req.params (req_json.get "searches").elems
                    req.params []).1 with
                | some message => exact Or.inl rfl
                | none =>
                  simp only
                  cases huse : use_cache_of req.params with
                  | false => exact Or.inl (by simp [huse])
                  | true =>
                    refine Or.inr ?_
                    simp only [huse, if_true]
                    refine ⟨rfl, ⟨200, res.content_type_header,
                      core.results_dump (run_searches core req.params
                        (req_json.get "searches").elems req.params []).2.2, later,
                      cache_ttl_of core (run_searches core req.params
                        (req_json.get "searches").elems req.params []).2.1,
                      hash_request core req⟩, ?_, rfl⟩
                    unfold cache_store req_hash_of
                    rw [if_pos huse]
                    rfl
  refine ⟨?_, ?_, ?_, ?_⟩
  · intro hstatus
    rcases hget with h | ⟨h200, _⟩
    · exact h
    · exact absurd ⟨by omega, by omega⟩ hstatus
  · rcases hget with h | ⟨_, h⟩
    · exact Or.inl h
    · exact Or.inr h
  · intro hstatus
    rcases hmulti with h | ⟨h200, _⟩
    · exact h
    · exact absurd ⟨by omega, by omega⟩ hstatus
  · rcases hmulti with h | ⟨_, h⟩
    · exact Or.inl h
    · exact Or.inr h

/-- C20, witness: a search without `q` fails with 400 and leaves `warm_cache` as it
was. -/
theorem C20_only_success_cached_witness :
    (get_search Sample.core 0 0 Sample.warm_cache ⟨11, "", [("use_cache", "true")]⟩
        Sample.fresh_res).2.1.status_code = 400
      ∧ (get_search Sample.core 0 0 Sample.warm_cache ⟨11, "", [("use_cache", "true")]⟩
        Sample.fresh_res).2.2 = Sample.warm_cache :=
  ⟨by decide,
    (C20_only_success_cached Sample.core 0 0 Sample.warm_cache
      ⟨11, "", [("use_cache", "true")]⟩ Sample.fresh_res).1 (by decide)⟩

/-! ## The time to live of a stored response -/

theorem AuthManager.add_item_to_params_find_other (params : Params) (item : String × json)
    (overwrite : Bool) (k : String) (hk : item.1 ≠ k) :
    StdMap.find (AuthManager.add_item_to_params params item overwrite).2 k
      = StdMap.find params k := by
  unfold AuthManager.add_item_to_params
  cases AuthManager.str_value item.2 with
  | none => rfl
  | some sv =>
    simp only
    split_ifs <;> simp only [StdMap.find_set, if_neg hk]

theorem merge_search_items_cache_ttl (params : Params) (items : List (String × json)) :
    StdMap.find (merge_search_items params items).2 "cache_ttl"
      = StdMap.find params "cache_ttl" := by
  induction items generalizing params with
  | nil => rfl
  | cons hd tl ih =>
    unfold merge_search_items
    by_cases hc : hd.1 = "cache_ttl"
    · rw [if_pos hc]
      exact ih params
    · rw [if_neg hc]
      simp only
      by_cases hp : (!(AuthManager.add_item_to_params params hd false).1) = true
      · rw [if_pos hp]
        exact AuthManager.add_item_to_params_find_other params hd false "cache_ttl" hc
      · rw [if_neg hp, ih]
        exact AuthManager.add_item_to_params_find_other params hd false "cache_ttl" hc

theorem run_searches_cache_ttl (core : Core) (orig_req_params : Params)
    (searches : List json) (params : Params) (outcomes : List (Result Bool × String))
    (hparams : StdMap.find params "cache_ttl" = StdMap.find orig_req_params "cache_ttl") :
    StdMap.find (run_searches core orig_req_params searches params outcomes).2.1 "cache_ttl"
      = StdMap.find orig_req_params "cache_ttl" := by
  induction searches generalizing params outcomes with
  | nil => exact hparams
  | cons hd tl ih =>
    unfold run_searches
    by_cases ho : (!hd.is_object) = true
    · rw [if_pos ho]
      exact hparams
    · rw [if_neg ho]
      simp only
      by_cases hm : (!(merge_search_items orig_req_params hd.items).1) = true
      · rw [if_pos hm]
        exact merge_search_items_cache_ttl orig_req_params hd.items
      · rw [if_neg hm]
        exact ih _ _ (merge_search_items_cache_ttl orig_req_params hd.items)

theorem cache_ttl_of_congr (core : Core) (p q : Params)
    (h : StdMap.find p "cache_ttl" = StdMap.find q "cache_ttl") :
    cache_ttl_of core p = cache_ttl_of core q := by
  unfold cache_ttl_of
  rw [h]

/-- The cache after `get_search`: as before, or with one entry more, whose time to live
is the `cache_ttl` of the request. -/
theorem get_search_cache (core : Core) (now later : Int) (cache : LRUCache)
    (req : http_req) (res : http_res) :
    (get_search core now later cache req res).2.2 = cache
      ∨ (get_search core now later cache req res).2.2
        = cache.insert (hash_request core req)
          ⟨200, res.content_type_header, (core.do_search req.params).2, later,
            cache_ttl_of core req.params, hash_request core req⟩ := by
  unfold get_search
  cases hlook : cache_lookup core now cache req with
  | some cached => exact Or.inl rfl
  | none =>
    simp only
    unfold get_search_miss
    cases hok : (core.do_search req.params).1.ok with
    | false => exact Or.inl (by simp [hok])
    | true =>
      cases huse : use_cache_of req.params with
      | false => exact Or.inl (by simp [hok, huse])
      | true =>
        refine Or.inr ?_
        simp only [hok, huse, Bool.not_true, Bool.false_eq_true, if_false, if_true]
        unfold cache_store req_hash_of
        rw [if_pos huse]
        rfl

/-- The cache after `post_multi_search`: as before, or with one entry more, whose time
to live is the `cache_ttl` of the request. -/
theorem post_multi_search_cache (core : Core) (now later : Int) (cache : LRUCache)
    (req : http_req) (res : http_res) :
    (post_multi_search core now later cache req res).2.2.2 = cache
      ∨ ∃ body, (post_multi_search core now later cache req res).2.2.2
        = cache.insert (hash_request core req)
          ⟨200, res.content_type_header, body, later,
            cache_ttl_of core req.params, hash_request core req⟩ := by
  unfold post_multi_search
  cases hlook : cache_lookup core now cache req with
  | some cached => exact Or.inl rfl
  | none =>
    simp only
    unfold post_multi_search_miss
    cases hparse : core.json_parse req.body with
    | none => exact Or.inl rfl
    | some req_json =>
      simp only
      by_cases h1 : req_json.count "searches" = 0
      · rw [if_pos h1]; exact Or.inl rfl
      · rw [if_neg h1]
        by_cases h2 : (!(req_json.get "searches").is_array) = true
        · rw [if_pos h2]; exact Or.inl rfl
        · rw [if_neg h2]
          cases hlimit : limit_multi_searches_of core req.params with
          | none => exact Or.inl rfl
          | some limit_multi_searches =>
            simp only
            by_cases h3 : (req_json.get "searches").size > limit_multi_searches
            · rw [if_pos h3]; exact Or.inl rfl
            · rw [if_neg h3]
              cases hran : (run_searches core req.params (req_json.get "searches").elems
                  req.params []).1 with
              | some message => exact Or.inl rfl
              | none =>
                simp only
                cases huse : use_cache_of req.params with
                | false => exact Or.inl (by simp [huse])
                | true =>
                  refine Or.inr ⟨core.results_dump (run_searches core req.params
                    (req_json.get "searches").elems req.params []).2.2, ?_⟩
                  simp only [huse, if_true]
                  unfold cache_store req_hash_of
                  rw [if_pos huse, cache_ttl_of_congr core _ req.params
                    (run_searches_cache_ttl core req.params _ req.params [] rfl)]
                  rfl

/-- C21, as amended. Whenever `get_search` or `post_multi_search` changes the cache, it
inserts one entry whose time to live is `cache_ttl_of` of the parameters of the request.
That number is 60 when `cache_ttl` is absent, 60 when its text fails `is_int32_t`, and
else the number that `std::stoul` reads from the text, cut to 32 bits: for a text that
passes the test and from which `std::stoul` reads a number below `2^31` (a non-negative
`int32_t`), it is that number. -/
theorem C21_cache_ttl_default (core : Core) (now later : Int) (cache : LRUCache)
    (req : http_req) (res : http_res) :
    ((get_search core now later cache req res).2.2 = cache
        ∨ ∃ entry, (get_search core now later cache req res).2.2
            = cache.insert (hash_request core req) entry
          ∧ entry.ttl = cache_ttl_of core req.params)
      ∧ ((post_multi_search core now later cache req res).2.2.2 = cache
        ∨ ∃ entry, (post_multi_search core now later cache req res).2.2.2
            = cache.insert (hash_request core req) entry
          ∧ entry.ttl = cache_ttl_of core req.params)
      ∧ (StdMap.find req.params "cache_ttl" = none → cache_ttl_of core req.params = 60)
      ∧ (∀ value, StdMap.find req.params "cache_ttl" = some value →
          core.is_int32_t value = false → cache_ttl_of core req.params = 60)
      ∧ (∀ value n, StdMap.find req.params "cache_ttl" = some value →
          core.is_int32_t value = true → core.stoul value = n → n < 2 ^ 31 →
          cache_ttl_of core req.params = n) := by
  refine ⟨?_, ?_, ?_, ?_, ?_⟩
  · rcases get_search_cache core now later cache req res with h | h
    · exact Or.inl h
    · exact Or.inr ⟨_, h, rfl⟩
  · rcases post_multi_search_cache core now later cache req res with h | ⟨body, h⟩
    · exact Or.inl h
    · exact Or.inr ⟨_, h, rfl⟩
  · intro hnone
    unfold cache_ttl_of
    rw [hnone]
  · intro value hsome hint
    unfold cache_ttl_of
    rw [hsome]
    simp [hint]
  · intro value n hsome hint hval hn
    unfold cache_ttl_of
    rw [hsome]
    simp only [hint, if_true, hval]
    exact Nat.mod_eq_of_lt (by omega)

/-- C21, witness: the request `search_req` asks for 30 seconds, and 30 is the time to
live of its entry. -/
theorem C21_cache_ttl_default_witness :
    cache_ttl_of Sample.core Sample.search_req.params = 30 :=
  (C21_cache_ttl_default Sample.core 0 0 Sample.warm_cache Sample.search_req
    Sample.fresh_res).2.2.2.2 "30" 30 (by decide) (by decide) (by decide) (by decide)

/-- C21, counterexample to the claim as stated: the time to live is a `uint32_t`, so that
for `cache_ttl=-5` it is never -5 and for `cache_ttl=4294967296` never 4294967296,
whatever the test and the reader of numbers do. With a test for signed 32-bit texts and
the reader of `strtoul`, `cache_ttl=-5` is stored with 4294967291 seconds to live, and
the integer 3000000000 with 60. -/
theorem C21_counterexample :
    (∀ core : Core, ((cache_ttl_of core [("cache_ttl", "-5")] : Nat) : Int) ≠ -5)
      ∧ (∀ core : Core, cache_ttl_of core [("cache_ttl", "4294967296")] ≠ 4294967296)
      ∧ cache_ttl_of Sample.signed_core [("cache_ttl", "-5")] = 4294967291
      ∧ cache_ttl_of Sample.signed_core [("cache_ttl", "3000000000")] = 60
      ∧ ((get_search Sample.signed_core 0 0 ⟨[], 100⟩
          ⟨11, "", [("cache_ttl", "-5"), ("q", "shoe"), ("use_cache", "true")]⟩
          Sample.fresh_res).2.2.entries.map fun kv => kv.2.ttl) = [4294967291] := by
  refine ⟨?_, ?_, by decide, by decide, by decide⟩
  · intro core
    omega
  · intro core
    have hlt : cache_ttl_of core [("cache_ttl", "4294967296")] < 2 ^ 32 := by
      unfold cache_ttl_of
      simp only [StdMap.find, if_true]
      split_ifs
      · exact Nat.mod_lt _ (by norm_num)
      · norm_num
    omega

/-! ## The fingerprint of a request -/

theorem hashed_values_erase (params : Params) :
    hashed_values (StdMap.erase params "use_cache") = hashed_values params := by
  induction params with
  | nil => rfl
  | cons kv rest ih =>
    unfold StdMap.erase at ih ⊢
    by_cases h : kv.1 = "use_cache"
    · rw [List.filter_cons_of_neg (by simpa using h), ih]
      simp [hashed_values, h]
    · rw [List.filter_cons_of_pos (by simpa using h)]
      simp only [hashed_values, if_pos h, ih, ne_eq, not_false_eq_true]

theorem hash_request_eq (core : Core) (req : http_req) :
    hash_request core req = core.hash_wy (req_str req) := rfl

/-- C22. Two requests with the same route hash and the same body, whose parameter maps
are equal once the entry `use_cache` is erased from both, have the same byte string
`req_str` and hence the same fingerprint. -/
theorem C22_fingerprint_without_use_cache (core : Core) (req1 req2 : http_req)
    (hroute : req1.route_hash = req2.route_hash) (hbody : req1.body = req2.body)
    (hparams : StdMap.erase req1.params "use_cache" = StdMap.erase req2.params "use_cache") :
    req_str req1 = req_str req2 ∧ hash_request core req1 = hash_request core req2 := by
  have hstr : req_str req1 = req_str req2 := by
    unfold req_str
    rw [hroute, hbody, ← hashed_values_erase req1.params, hparams,
      hashed_values_erase req2.params]
  exact ⟨hstr, by rw [hash_request_eq, hash_request_eq, hstr]⟩

/-- C22, witness: the same search with `use_cache=true` and without `use_cache`. -/
theorem C22_fingerprint_without_use_cache_witness :
    req_str ⟨11, "", [("q", "shoe"), ("use_cache", "true")]⟩ = req_str ⟨11, "", [("q", "shoe")]⟩
      ∧ hash_request Sample.core ⟨11, "", [("q", "shoe"), ("use_cache", "true")]⟩
        = hash_request Sample.core ⟨11, "", [("q", "shoe")]⟩ :=
  C22_fingerprint_without_use_cache Sample.core ⟨11, "", [("q", "shoe"), ("use_cache", "true")]⟩
    ⟨11, "", [("q", "shoe")]⟩ rfl rfl (by decide)

/-- C23, the divergence. The byte string that `hash_request` hashes holds the values of
the parameters only, one after the other: the name of a parameter does not enter it, and
nothing marks where one value ends. So the requests `q=shoe` and `filter_by=shoe` on the
same route are hashed from the same bytes and have the same fingerprint for every hash
function, and so have the requests `a=xy&b=z` and `a=x&b=yz`; a search cached for the
first is served to the second. -/
theorem C23_keys_not_hashed (core : Core) (route_hash : Nat) (body k1 k2 value : String)
    (h1 : k1 ≠ "use_cache") (h2 : k2 ≠ "use_cache") :
    req_str ⟨route_hash, body, [(k1, value)]⟩ = req_str ⟨route_hash, body, [(k2, value)]⟩
      ∧ hash_request core ⟨route_hash, body, [(k1, value)]⟩
        = hash_request core ⟨route_hash, body, [(k2, value)]⟩
      ∧ req_str ⟨route_hash, body, [("a", "xy"), ("b", "z")]⟩
        = req_str ⟨route_hash, body, [("a", "x"), ("b", "yz")]⟩
      ∧ hash_request core ⟨route_hash, body, [("a", "xy"), ("b", "z")]⟩
        = hash_request core ⟨route_hash, body, [("a", "x"), ("b", "yz")]⟩ := by
  have hkeys : req_str ⟨route_hash, body, [(k1, value)]⟩
      = req_str ⟨route_hash, body, [(k2, value)]⟩ := by
    simp only [req_str, hashed_values, if_pos h1, if_pos h2, ne_eq, not_false_eq_true]
  have hvalues : req_str ⟨route_hash, body, [("a", "xy"), ("b", "z")]⟩
      = req_str ⟨route_hash, body, [("a", "x"), ("b", "yz")]⟩ := by
    have hjoin : hashed_values [("a", "xy"), ("b", "z")]
        = hashed_values [("a", "x"), ("b", "yz")] := by decide
    simp only [req_str, hjoin]
  refine ⟨hkeys, ?_, hvalues, ?_⟩
  · rw [hash_request_eq, hash_request_eq, hkeys]
  · rw [hash_request_eq, hash_request_eq, hvalues]

/-- C23, at the failing input: with `use_cache=true`, the response stored for the search
`q=shoe` is handed out for the request `filter_by=shoe` of the same route, which has no
`q` and whose own search fails with 400. -/
theorem C23_keys_not_hashed_witness :
    req_str ⟨11, "", [("q", "shoe")]⟩ = req_str ⟨11, "", [("filter_by", "shoe")]⟩
      ∧ (get_search Sample.core 0 0
          (get_search Sample.core 0 0 ⟨[], 100⟩
            ⟨11, "", [("q", "shoe"), ("use_cache", "true")]⟩ Sample.fresh_res).2.2
          ⟨11, "", [("filter_by", "shoe"), ("use_cache", "true")]⟩ Sample.fresh_res).2.1
        = ⟨200, "application/json; charset=utf-8", "hits:shoe", true⟩
      ∧ (get_search Sample.core 0 0 ⟨[], 100⟩
          ⟨11, "", [("filter_by", "shoe"), ("use_cache", "true")]⟩
          Sample.fresh_res).2.1.status_code = 400 :=
  ⟨(C23_keys_not_hashed Sample.core 11 "" "q" "filter_by" "shoe" (by decide) (by decide)).1,
    by decide, by decide⟩

/-! ## The cap on sort keys -/

/-- C24. In the model of `Collection::search` made from the spec, a search with more than
three sort keys fails, with the code 400 and the message
`Only upto 3 sort_by fields can be specified.`, whatever the rest of the search would
answer; a list of at most three keys is handed to the rest of the search, whose answer
is the answer of the search. -/
theorem C24_sort_key_cap {R : Type} (evaluate : List sort_by → Result R)
    (sort_fields : List sort_by) :
    (sort_fields.length > 3 →
        Collection.search evaluate sort_fields
            = Result.error 400 "Only upto 3 sort_by fields can be specified."
          ∧ (Collection.search evaluate sort_fields).ok = false
          ∧ (Collection.search evaluate sort_fields).message
            = "Only upto 3 sort_by fields can be specified.")
      ∧ (sort_fields.length ≤ 3 →
        Collection.search evaluate sort_fields = evaluate sort_fields) := by
  constructor
  · intro hlong
    have h : Collection.search evaluate sort_fields
        = Result.error 400 "Only upto 3 sort_by fields can be specified." := by
      unfold Collection.search
      rw [if_pos hlong]
    rw [h]
    exact ⟨rfl, rfl, rfl⟩
  · intro hshort
    unfold Collection.search
    rw [if_neg (by omega)]

/-- C24, witness: the four sort keys of the test `ThreeSortFieldsLimit`, with a rest of
the search that would succeed. -/
theorem C24_sort_key_cap_witness :
    Collection.search (fun _ => Result.value "hits")
        [⟨"points", "DESC"⟩, ⟨"average", "DESC"⟩, ⟨"max", "DESC"⟩, ⟨"min", "DESC"⟩]
      = Result.error 400 "Only upto 3 sort_by fields can be specified." :=
  ((C24_sort_key_cap (fun _ => Result.value "hits")
    [⟨"points", "DESC"⟩, ⟨"average", "DESC"⟩, ⟨"max", "DESC"⟩, ⟨"min", "DESC"⟩]).1
    (by decide)).1

/-! ## Synonym reduction -/

namespace Collection

theorem occurs_in_cons (phrase : List String) (token : String) (rest : List String)
    (h : occurs_in phrase (token :: rest) = false) :
    occurs_at phrase (token :: rest) = false ∧ occurs_in phrase rest = false := by
  unfold occurs_in at h ⊢
  rw [List.tails, List.any_cons, Bool.or_eq_false_iff] at h
  exact h

theorem longest_at_none (rules : List (List String × List (List String)))
    (tokens : List String) (h : ∀ rule ∈ rules, occurs_at rule.1 tokens = false) :
    longest_at rules tokens = 0 := by
  unfold longest_at
  have hfilter : (rules.filter fun rule => occurs_at rule.1 tokens) = [] := by
    rw [List.filter_eq_nil_iff]
    intro rule hmem
    rw [h rule hmem]
    exact Bool.false_ne_true
  rw [hfilter]
  rfl

/-- Without an occurrence of a phrase that has a replacement, the scan hands the tokens
back and reports that it replaced nothing. -/
theorem reduce_from_none (rules : List (List String × List (List String)))
    (tokens : List String) (h : ∀ rule ∈ rules, occurs_in rule.1 tokens = false) :
    reduce_from rules 0 tokens = ([tokens], false) := by
  induction tokens with
  | nil => rfl
  | cons token rest ih =>
    have hrest := ih fun rule hmem => (occurs_in_cons rule.1 token rest (h rule hmem)).2
    have hlong := longest_at_none rules (token :: rest)
      fun rule hmem => (occurs_in_cons rule.1 token rest (h rule hmem)).1
    rw [reduce_from, if_pos hlong, hrest]
    rfl

end Collection

/-- C26. In the model of the reduction made from the spec: when no root and no member of
a synonym occurs in the token sequence, `synonym_reduction` returns the empty list; the
sequence itself is not returned. -/
theorem C26_reduction_without_occurrence (synonyms : List synonym_t) (tokens : List String)
    (hnone : ∀ s ∈ synonyms, Collection.occurs_in s.root tokens = false
      ∧ ∀ member ∈ s.synonyms, Collection.occurs_in member tokens = false) :
    Collection.synonym_reduction synonyms tokens = [] := by
  have hrules : ∀ rule ∈ synonyms.flatMap synonym_t.rules,
      Collection.occurs_in rule.1 tokens = false := by
    intro rule hmem
    obtain ⟨s, hs, hrule⟩ := List.mem_flatMap.mp hmem
    unfold synonym_t.rules at hrule
    by_cases hroot : s.root ≠ []
    · rw [if_pos hroot, List.mem_singleton] at hrule
      rw [hrule]
      exact (hnone s hs).1
    · rw [if_neg hroot] at hrule
      obtain ⟨member, hmember, heq⟩ := List.mem_map.mp hrule
      rw [← heq]
      exact (hnone s hs).2 member hmember
  unfold Collection.synonym_reduction
  rw [Collection.reduce_from_none _ tokens hrules]
  rfl

/-- C26, witness: with the synonym `nyc => new york` of the test `SynonymReductionOneWay`,
the tokens `foo bar baz` have no rewrite, while `red nyc tshirt` has one. -/
theorem C26_reduction_without_occurrence_witness :
    Collection.synonym_reduction [⟨"nyc-expansion", ["nyc"], [["new", "york"]]⟩]
        ["foo", "bar", "baz"] = []
      ∧ Collection.synonym_reduction [⟨"nyc-expansion", ["nyc"], [["new", "york"]]⟩]
        ["red", "nyc", "tshirt"] = [["red", "new", "york", "tshirt"]] :=
  ⟨C26_reduction_without_occurrence [⟨"nyc-expansion", ["nyc"], [["new", "york"]]⟩]
    ["foo", "bar", "baz"] (by decide), by decide⟩

/-! ## Validation of an override -/

namespace override_t

theorem parse_ok_iff (override_json : json) (id : String) :
    (parse override_json id).ok = true
      ↔ ¬ (override_json.count "includes" = 0 ∧ override_json.count "excludes" = 0
          ∧ override_json.count "filter_by" = 0)
        ∧ includes_error override_json = none ∧ excludes_error override_json = none
        ∧ filter_by_error override_json = none := by
  unfold parse
  by_cases hnone : override_json.count "includes" = 0 ∧ override_json.count "excludes" = 0
      ∧ override_json.count "filter_by" = 0
  · rw [if_pos hnone]
    simp only [Result.ok, Bool.false_eq_true, false_iff]
    exact fun h => h.1 hnone
  · rw [if_neg hnone]
    cases includes_error override_json with
    | some m => simp [Result.ok]
    | none =>
      cases excludes_error override_json with
      | some m => simp [Result.ok]
      | none =>
        cases filter_by_error override_json with
        | some m => simp [Result.ok]
        | none => simp [Result.ok, hnone]

theorem parse_accepts (override_json : json) (id : String)
    (h : (parse override_json id).ok = true) :
    parse override_json id = Result.value (of_json override_json id) := by
  have hall := (parse_ok_iff override_json id).mp h
  unfold parse
  rw [if_neg hall.1, hall.2.1, hall.2.2.1, hall.2.2.2]

theorem include_error_isSome (include_obj : json)
    (h : include_obj.is_object = false ∨ include_obj.count "id" = 0
      ∨ include_obj.count "position" = 0
      ∨ (include_obj.get "position").is_number_integer = false) :
    (include_error include_obj).isSome = true := by
  unfold include_error
  by_cases h1 : (!include_obj.is_object) = true
  · rw [if_pos h1]; rfl
  · rw [if_neg h1]
    by_cases h2 : include_obj.count "id" = 0 ∨ include_obj.count "position" = 0
    · rw [if_pos h2]; rfl
    · rw [if_neg h2]
      by_cases h3 : (!(include_obj.get "id").is_string) = true
      · rw [if_pos h3]; rfl
      · rw [if_neg h3]
        by_cases h4 : (!(include_obj.get "position").is_number_integer) = true
        · rw [if_pos h4]; rfl
        · exfalso
          rcases h with h | h | h | h
          · exact h1 (by rw [h]; rfl)
          · exact h2 (Or.inl h)
          · exact h2 (Or.inr h)
          · exact h4 (by rw [h]; rfl)

theorem include_error_none (include_obj : json)
    (hobj : include_obj.is_object = true) (hid : include_obj.count "id" ≠ 0)
    (hpos : include_obj.count "position" ≠ 0)
    (hstr : (include_obj.get "id").is_string = true)
    (hint : (include_obj.get "position").is_number_integer = true) :
    include_error include_obj = none := by
  unfold include_error
  rw [if_neg (by rw [hobj]; decide), if_neg (by tauto), if_neg (by rw [hstr]; decide),
    if_neg (by rw [hint]; decide)]

theorem exclude_error_isSome (exclude_obj : json)
    (h : exclude_obj.is_object = false ∨ (exclude_obj.get "id").is_string = false) :
    (exclude_error exclude_obj).isSome = true := by
  unfold exclude_error
  by_cases h1 : (!exclude_obj.is_object) = true
  · rw [if_pos h1]; rfl
  · rw [if_neg h1]
    by_cases h2 : exclude_obj.count "id" = 0
    · rw [if_pos h2]; rfl
    · rw [if_neg h2]
      by_cases h3 : (!(exclude_obj.get "id").is_string) = true
      · rw [if_pos h3]; rfl
      · exfalso
        rcases h with h | h
        · exact h1 (by rw [h]; rfl)
        · exact h3 (by rw [h]; rfl)

theorem includes_error_isSome (override_json : json)
    (hcount : override_json.count "includes" ≠ 0)
    (hbad : ∃ entry ∈ (override_json.get "includes").elems,
      (include_error entry).isSome = true) :
    includes_error override_json ≠ none := by
  unfold includes_error
  rw [if_neg hcount]
  by_cases harr : (!(override_json.get "includes").is_array) = true
  · rw [if_pos harr]
    exact Option.some_ne_none _
  · rw [if_neg harr]
    intro hfind
    rw [List.findSome?_eq_none_iff] at hfind
    obtain ⟨entry, hmem, hsome⟩ := hbad
    rw [hfind entry hmem] at hsome
    exact Bool.false_ne_true hsome

theorem excludes_error_isSome (override_json : json)
    (hcount : override_json.count "excludes" ≠ 0)
    (hbad : ∃ entry ∈ (override_json.get "excludes").elems,
      (exclude_error entry).isSome = true) :
    excludes_error override_json ≠ none := by
  unfold excludes_error
  rw [if_neg hcount]
  by_cases harr : (!(override_json.get "excludes").is_array) = true
  · rw [if_pos harr]
    exact Option.some_ne_none _
  · rw [if_neg harr]
    intro hfind
    rw [List.findSome?_eq_none_iff] at hfind
    obtain ⟨entry, hmem, hsome⟩ := hbad
    rw [hfind entry hmem] at hsome
    exact Bool.false_ne_true hsome

theorem parse_rejects_includes (override_json : json) (id : String)
    (hcount : override_json.count "includes" ≠ 0)
    (hbad : ∃ entry ∈ (override_json.get "includes").elems,
      (include_error entry).isSome = true) :
    (parse override_json id).ok = false := by
  cases hok : (parse override_json id).ok with
  | false => rfl
  | true =>
    exact absurd ((parse_ok_iff override_json id).mp hok).2.1
      (includes_error_isSome override_json hcount hbad)

theorem parse_rejects_excludes (override_json : json) (id : String)
    (hcount : override_json.count "excludes" ≠ 0)
    (hbad : ∃ entry ∈ (override_json.get "excludes").elems,
      (exclude_error entry).isSome = true) :
    (parse override_json id).ok = false := by
  cases hok : (parse override_json id).ok with
  | false => rfl
  | true =>
    exact absurd ((parse_ok_iff override_json id).mp hok).2.2.1
      (excludes_error_isSome override_json hcount hbad)

end override_t

/-- C25. In the model of `override_t::parse` made from the spec and from the test
`OverrideJSONValidation`: a JSON with none of `includes`, `excludes`, `filter_by` is
rejected with `Must contain one of:...`; a JSON is rejected when its `includes` holds an
entry that is not an object, lacks `id` or `position`, or has a `position` that is not
an integer, and when its `excludes` holds an entry that is not an object or whose `id` is
not a string; a JSON whose `includes` is an array of objects with a string `id` and an
integer `position`, without `excludes` and `filter_by`, is accepted. In `put_override`
(from the source), a body that `parse` rejects ends the handler with the error of
`parse`, before `add_override` is reached: the collection is as it was. -/
theorem C25_override_validation {C : Type} (core : Core) (dump : json → String)
    (add_override : C → override_t → Result Nat × C) (coll : C) (req : http_req)
    (res : http_res) (override_json : json) (id : String) :
    (override_json.count "includes" = 0 ∧ override_json.count "excludes" = 0
          ∧ override_json.count "filter_by" = 0 →
        override_t.parse override_json id
          = Result.error 400 "Must contain one of:`includes`, `excludes`, `filter_by`.")
      ∧ (override_json.count "includes" ≠ 0 →
        ∀ entry ∈ (override_json.get "includes").elems,
          entry.is_object = false ∨ entry.count "id" = 0 ∨ entry.count "position" = 0
              ∨ (entry.get "position").is_number_integer = false →
            (override_t.parse override_json id).ok = false)
      ∧ (override_json.count "excludes" ≠ 0 →
        ∀ entry ∈ (override_json.get "excludes").elems,
          entry.is_object = false ∨ (entry.get "id").is_string = false →
            (override_t.parse override_json id).ok = false)
      ∧ (override_json.count "includes" ≠ 0 →
        (override_json.get "includes").is_array = true →
        (∀ entry ∈ (override_json.get "includes").elems,
          entry.is_object = true ∧ entry.count "id" ≠ 0 ∧ entry.count "position" ≠ 0
            ∧ (entry.get "id").is_string = true
            ∧ (entry.get "position").is_number_integer = true) →
        override_json.count "excludes" = 0 → override_json.count "filter_by" = 0 →
        override_t.parse override_json id
          = Result.value (override_t.of_json override_json id))
      ∧ (core.json_parse req.body = some override_json →
        (override_t.parse override_json ((StdMap.find req.params "id").getD "")).ok = false →
        put_override core dump add_override (some coll) req res
          = (false,
            http_res.set core res
              (override_t.parse override_json ((StdMap.find req.params "id").getD "")).code
              (override_t.parse override_json
                ((StdMap.find req.params "id").getD "")).message,
            some coll)) := by
  refine ⟨?_, ?_, ?_, ?_, ?_⟩
  · intro hnone
    unfold override_t.parse
    rw [if_pos hnone]
  · intro hcount entry hmem hbad
    exact override_t.parse_rejects_includes override_json id hcount
      ⟨entry, hmem, override_t.include_error_isSome entry hbad⟩
  · intro hcount entry hmem hbad
    exact override_t.parse_rejects_excludes override_json id hcount
      ⟨entry, hmem, override_t.exclude_error_isSome entry hbad⟩
  · intro hcount harr hgood hex hfb
    apply override_t.parse_accepts
    rw [override_t.parse_ok_iff]
    refine ⟨fun h => hcount h.1, ?_, ?_, ?_⟩
    · unfold override_t.includes_error
      rw [if_neg hcount, if_neg (by rw [harr]; decide), List.findSome?_eq_none_iff]
      intro entry hmem
      obtain ⟨h1, h2, h3, h4, h5⟩ := hgood entry hmem
      exact override_t.include_error_none entry h1 h2 h3 h4 h5
    · unfold override_t.excludes_error
      rw [if_pos hex]
    · unfold override_t.filter_by_error
      rw [if_pos hfb]
  · intro hparse hrej
    unfold put_override
    simp only [hparse]
    cases hp : override_t.parse override_json ((StdMap.find req.params "id").getD "") with
    | value override =>
      rw [hp] at hrej
      exact absurd hrej (by simp [Result.ok])
    | error code message => rfl

/-- C25, witness: an override with a rule and nothing else is rejected with
`Must contain one of:...`, and `put_override` answers 400 for it and leaves the
collection (here the number of its overrides) as it was; with one include entry (`id`
`"0"`, `position` 1) the override is accepted. -/
theorem C25_override_validation_witness :
    override_t.parse (json.object [("rule", json.object
          [("match", json.string "exact"), ("query", json.string "of")])]) ""
        = Result.error 400 "Must contain one of:`includes`, `excludes`, `filter_by`."
      ∧ put_override Sample.admin_core Sample.dump
          (fun (coll : Nat) (_ : override_t) => (Result.value 0, coll + 1)) (some 3)
          ⟨11, "\x7b\"rule\":\x7b\"match\":\"exact\",\"query\":\"of\"\x7d\x7d",
            [("collection", "c"), ("id", "o1")]⟩ Sample.fresh_res
        = (false, ⟨400, "application/json; charset=utf-8",
            "message:Must contain one of:`includes`, `excludes`, `filter_by`.", false⟩,
          some 3)
      ∧ (override_t.parse (json.object [("includes", json.array [json.object
            [("id", json.string "0"), ("position", json.number_unsigned 1)]]),
          ("rule", json.object
            [("match", json.string "exact"), ("query", json.string "of")])]) "").ok
        = true :=
  ⟨(C25_override_validation Sample.admin_core Sample.dump
      (fun (coll : Nat) (_ : override_t) => (Result.value 0, coll + 1)) 3
      ⟨11, "", []⟩ Sample.fresh_res (json.object [("rule", json.object
          [("match", json.string "exact"), ("query", json.string "of")])]) "").1
      (by decide),
    by decide, by decide⟩

/-! ## The counter of key ids, in memory and in the store -/

theorem StdMap.find_erase_other {β : Type} (m : List (String × β)) (k k' : String)
    (hk : k ≠ k') : StdMap.find (StdMap.erase m k) k' = StdMap.find m k' := by
  induction m with
  | nil => rfl
  | cons hd tl ih =>
    obtain ⟨k0, v0⟩ := hd
    unfold StdMap.erase at ih ⊢
    by_cases h0 : k0 = k
    · rw [List.filter_cons_of_neg (by simpa using h0), ih]
      symm
      show (if k0 = k' then some v0 else StdMap.find tl k') = _
      rw [if_neg (by rw [h0]; exact hk)]
    · rw [List.filter_cons_of_pos (by simpa using h0)]
      show (if k0 = k' then some v0
          else StdMap.find (List.filter (fun kv => decide (kv.1 ≠ k)) tl) k')
        = (if k0 = k' then some v0 else StdMap.find tl k')
      rw [ih]

namespace AuthManager

theorem persisted_counter_insert (env : Env) (s : Store) (k v : String)
    (hk : k ≠ env.API_KEY_NEXT_ID_KEY) :
    persisted_counter env (s.insert k v).2 = persisted_counter env s := by
  unfold Store.insert
  by_cases hf : s.insert_fails = true
  · rw [if_pos hf]
  · rw [if_neg hf]
    unfold persisted_counter
    simp only [StdMap.find_set, if_neg hk]

theorem persisted_counter_remove (env : Env) (s : Store) (k : String)
    (hk : k ≠ env.API_KEY_NEXT_ID_KEY) :
    persisted_counter env (s.remove k).2 = persisted_counter env s := by
  unfold Store.remove
  by_cases hf : s.remove_fails = true
  · rw [if_pos hf]
  · rw [if_neg hf]
    unfold persisted_counter
    simp only [StdMap.find_erase_other _ _ _ hk]

theorem persisted_counter_increment (env : Env) (s : Store) :
    persisted_counter env (s.increment env env.API_KEY_NEXT_ID_KEY 1)
      = env.deserialize_uint32_t
          (env.serialize_uint32_t ((persisted_counter env s + 1) % 2 ^ 32)) % 2 ^ 32 := by
  unfold persisted_counter Store.increment
  simp only [StdMap.find_set, if_true, Option.map_some', Option.getD_some]
  rw [Nat.mod_add_mod]

/-- What `create_key` leaves behind: the manager as it was after a conflict, and else the
counter moved on and the store after the increment and the insert. -/
theorem create_key_state (env : Env) (self : AuthManager) (api_key : api_key_t) :
    (StdMap.count self.api_keys api_key.value ≠ 0 ∨ api_key.value = self.bootstrap_auth_key →
        (create_key env self api_key).1 = Result.error 409 "API key generation conflict."
          ∧ (create_key env self api_key).2.1 = self)
      ∧ (¬ (StdMap.count self.api_keys api_key.value ≠ 0
          ∨ api_key.value = self.bootstrap_auth_key) →
        (create_key env self api_key).2.1.next_api_key_id
            = (self.next_api_key_id + 1) % 2 ^ 32
          ∧ (create_key env self api_key).2.1.store
            = ((self.store.increment env env.API_KEY_NEXT_ID_KEY 1).insert
              (env.API_KEYS_PREFIX ++ "_" ++ toString self.next_api_key_id)
              (env.dump_api_key { api_key with id := self.next_api_key_id })).2) := by
  unfold create_key
  constructor
  · intro hcond
    rw [if_pos hcond]
    exact ⟨rfl, rfl⟩
  · intro hcond
    rw [if_neg hcond]
    cases hins : ((get_next_api_key_id env self).2.store.insert
        (env.API_KEYS_PREFIX ++ "_" ++ toString (get_next_api_key_id env self).1)
        (env.dump_api_key { api_key with id := (get_next_api_key_id env self).1 })).1 with
    | false =>
      simp only [hins, Bool.not_false, if_true]
      exact ⟨rfl, rfl⟩
    | true =>
      simp only [hins, Bool.not_true, Bool.false_eq_true, if_false]
      exact ⟨rfl, rfl⟩

theorem init_counter (env : Env) (self : AuthManager) (store : Store)
    (bootstrap_auth_key : String) (hget : store.get_fails = false) :
    (init env self store bootstrap_auth_key).2.next_api_key_id
        = persisted_counter env (init env self store bootstrap_auth_key).2.store := by
  unfold init persisted_counter Store.get
  simp only [hget, Bool.false_eq_true, if_false]
  cases hfind : StdMap.find store.entries env.API_KEY_NEXT_ID_KEY with
  | none => simp [hfind]
  | some text => simp [hfind]

theorem remove_key_counter (env : Env) (self : AuthManager) (id : Nat)
    (hold : env.API_KEYS_PREFIX ++ "_" ++ toString id ≠ env.API_KEY_NEXT_ID_KEY) :
    (remove_key env self id).2.next_api_key_id = self.next_api_key_id
      ∧ persisted_counter env (remove_key env self id).2.store
        = persisted_counter env self.store := by
  unfold remove_key
  cases hkey : get_key env self id false with
  | error code msg => simp
  | value key =>
    simp only
    cases hrem : (self.store.remove (env.API_KEYS_PREFIX ++ "_" ++ toString id)).1 with
    | false =>
      simp only [Bool.not_false, if_true]
      exact ⟨trivial, persisted_counter_remove env self.store _ hold⟩
    | true =>
      simp only [Bool.not_true, Bool.false_eq_true, if_false]
      exact ⟨trivial, persisted_counter_remove env self.store _ hold⟩

end AuthManager

namespace AuthManager

/-- C27, as amended. Let both counters stand below `2^32 - 1`, let the counter coding
read back the text it writes for the next counter value (`hcodec`), and let the store
keys of the API keys differ from the key of the counter (`hnew`, `hold`). An `init`
whose read of the store does not fail leaves the counter in memory equal to the
persisted one (a missing one counting as 0). A `create_key` that is rejected with the
conflict leaves the manager, store included, as it was. A `create_key` that passes the
conflict check moves each of the two counters on by exactly one, whether the insert into
the store fails or not; so equal counters are equal again after every `create_key`.
`remove_key` changes neither counter. `get_key`, `list_keys` and `authenticate` are
`const` members, which the model renders as functions that hand back no manager. -/
theorem C27_counters_agree (env : Env) (self : AuthManager) (store : Store)
    (bootstrap_auth_key : String) (api_key : api_key_t) (id : Nat)
    (hroom : self.next_api_key_id + 1 < 2 ^ 32)
    (hroom_store : persisted_counter env self.store + 1 < 2 ^ 32)
    (hcodec : env.deserialize_uint32_t
        (env.serialize_uint32_t (persisted_counter env self.store + 1))
      = persisted_counter env self.store + 1)
    (hnew : env.API_KEYS_PREFIX ++ "_" ++ toString self.next_api_key_id
      ≠ env.API_KEY_NEXT_ID_KEY)
    (hold : env.API_KEYS_PREFIX ++ "_" ++ toString id ≠ env.API_KEY_NEXT_ID_KEY) :
    (store.get_fails = false →
        (init env self store bootstrap_auth_key).2.next_api_key_id
          = persisted_counter env (init env self store bootstrap_auth_key).2.store)
      ∧ (StdMap.count self.api_keys api_key.value ≠ 0
          ∨ api_key.value = self.bootstrap_auth_key →
        (create_key env self api_key).1 = Result.error 409 "API key generation conflict."
          ∧ (create_key env self api_key).2.1 = self)
      ∧ (¬ (StdMap.count self.api_keys api_key.value ≠ 0
          ∨ api_key.value = self.bootstrap_auth_key) →
        (create_key env self api_key).2.1.next_api_key_id = self.next_api_key_id + 1
          ∧ persisted_counter env (create_key env self api_key).2.1.store
            = persisted_counter env self.store + 1)
      ∧ (self.next_api_key_id = persisted_counter env self.store →
        (create_key env self api_key).2.1.next_api_key_id
          = persisted_counter env (create_key env self api_key).2.1.store)
      ∧ (remove_key env self id).2.next_api_key_id = self.next_api_key_id
      ∧ persisted_counter env (remove_key env self id).2.store
        = persisted_counter env self.store := by
  have hpass : ¬ (StdMap.count self.api_keys api_key.value ≠ 0
        ∨ api_key.value = self.bootstrap_auth_key) →
      (create_key env self api_key).2.1.next_api_key_id = self.next_api_key_id + 1
        ∧ persisted_counter env (create_key env self api_key).2.1.store
          = persisted_counter env self.store + 1 := by
    intro hcond
    obtain ⟨hnext, hstore⟩ := (create_key_state env self api_key).2 hcond
    refine ⟨by rw [hnext, Nat.mod_eq_of_lt hroom], ?_⟩
    rw [hstore, persisted_counter_insert env _ _ _ hnew, persisted_counter_increment,
      Nat.mod_eq_of_lt hroom_store, hcodec, Nat.mod_eq_of_lt hroom_store]
  refine ⟨init_counter env self store bootstrap_auth_key,
    (create_key_state env self api_key).1, hpass, ?_, remove_key_counter env self id hold⟩
  intro heq
  by_cases hcond : StdMap.count self.api_keys api_key.value ≠ 0
      ∨ api_key.value = self.bootstrap_auth_key
  · rw [((create_key_state env self api_key).1 hcond).2]
    exact heq
  · obtain ⟨hnext, hstore⟩ := hpass hcond
    rw [hnext, hstore, heq]

/-- C27, witness: a manager whose two counters stand at 7. The `create_key` of `parent`
succeeds and both counters are 8; over a store that fails at every insert the call fails
with 500 and both counters are 8 as well; the `create_key` of a key with the value of the
bootstrap key is rejected and both counters stay at 7. -/
theorem C27_counters_agree_witness :
    (init Sample.env ⟨⟨[], false, false, false⟩, "", 0, []⟩
        ⟨[("$KN", "7")], false, false, false⟩ "bootstrap-key").2.next_api_key_id = 7
      ∧ (create_key Sample.env ⟨⟨[("$KN", "7")], false, false, false⟩, "bootstrap-key", 7, []⟩
        Sample.parent).1.ok = true
      ∧ (create_key Sample.env ⟨⟨[("$KN", "7")], false, false, false⟩, "bootstrap-key", 7, []⟩
        Sample.parent).2.1.next_api_key_id = 8
      ∧ persisted_counter Sample.env (create_key Sample.env
        ⟨⟨[("$KN", "7")], false, false, false⟩, "bootstrap-key", 7, []⟩
        Sample.parent).2.1.store = 8
      ∧ (create_key Sample.env ⟨⟨[("$KN", "7")], false, true, false⟩, "bootstrap-key", 7, []⟩
        Sample.parent).1.ok = false
      ∧ (create_key Sample.env ⟨⟨[("$KN", "7")], false, true, false⟩, "bootstrap-key", 7, []⟩
        Sample.parent).2.1.next_api_key_id = 8
      ∧ persisted_counter Sample.env (create_key Sample.env
        ⟨⟨[("$KN", "7")], false, true, false⟩, "bootstrap-key", 7, []⟩
        Sample.parent).2.1.store = 8
      ∧ (create_key Sample.env ⟨⟨[("$KN", "7")], false, false, false⟩, "bootstrap-key", 7, []⟩
        { Sample.parent with value := "bootstrap-key" }).2.1.next_api_key_id = 7 :=
  ⟨by decide, by decide,
    ((C27_counters_agree Sample.env
      ⟨⟨[("$KN", "7")], false, false, false⟩, "bootstrap-key", 7, []⟩
      ⟨[("$KN", "7")], false, false, false⟩ "bootstrap-key" Sample.parent 0 (by decide)
      (by decide) (by decide) (by decide) (by decide)).2.2.1 (by decide)).1,
    ((C27_counters_agree Sample.env
      ⟨⟨[("$KN", "7")], false, false, false⟩, "bootstrap-key", 7, []⟩
      ⟨[("$KN", "7")], false, false, false⟩ "bootstrap-key" Sample.parent 0 (by decide)
      (by decide) (by decide) (by decide) (by decide)).2.2.1 (by decide)).2,
    by decide,
    ((C27_counters_agree Sample.env
      ⟨⟨[("$KN", "7")], false, true, false⟩, "bootstrap-key", 7, []⟩
      ⟨[("$KN", "7")], false, true, false⟩ "bootstrap-key" Sample.parent 0 (by decide)
      (by decide) (by decide) (by decide) (by decide)).2.2.1 (by decide)).1,
    ((C27_counters_agree Sample.env
      ⟨⟨[("$KN", "7")], false, true, false⟩, "bootstrap-key", 7, []⟩
      ⟨[("$KN", "7")], false, true, false⟩ "bootstrap-key" Sample.parent 0 (by decide)
      (by decide) (by decide) (by decide) (by decide)).2.2.1 (by decide)).2,
    by decide⟩

/-- C27, counterexample to the claim as stated: the counter in memory is a `uint32_t`.
A manager that `init` has set up over a store whose counter stands at 4294967295 creates
the key `parent`, which passes the conflict check and gets the id 4294967295; after the
call the counter in memory is 0, not 4294967296. -/
theorem C27_counterexample :
    (init Sample.env ⟨⟨[], false, false, false⟩, "", 0, []⟩
        ⟨[("$KN", "4294967295")], false, false, false⟩ "bootstrap-key").2
      = ⟨⟨[("$KN", "4294967295")], false, false, false⟩, "bootstrap-key", 4294967295, []⟩
      ∧ ((create_key Sample.env
          ⟨⟨[("$KN", "4294967295")], false, false, false⟩, "bootstrap-key", 4294967295, []⟩
          Sample.parent).1.ok = true)
      ∧ (create_key Sample.env
          ⟨⟨[("$KN", "4294967295")], false, false, false⟩, "bootstrap-key", 4294967295, []⟩
          Sample.parent).2.2.id = 4294967295
      ∧ (create_key Sample.env
          ⟨⟨[("$KN", "4294967295")], false, false, false⟩, "bootstrap-key", 4294967295, []⟩
          Sample.parent).2.1.next_api_key_id = 0 := by
  refine ⟨by decide, by decide, by decide, by decide⟩

end AuthManager

/-! ## The parameters of the searches of a multi-search -/

/-- The parameters after the loop over the items of one `searches` entry, key by key:
the entry's `cache_ttl` is passed over, a key of the original parameters keeps its value
(but for `filter_by`), and a new key gets the text of the entry's value. -/
theorem merge_search_items_find (items : List (String × json))
    (hkeys : (items.map Prod.fst).Nodup)
    (hvalues : ∀ kv ∈ items, kv.1 ≠ "cache_ttl" → ∃ s, AuthManager.str_value kv.2 = some s)
    (params : Params) :
    (merge_search_items params items).1 = true
      ∧ ∀ k, StdMap.find (merge_search_items params items).2 k
        = if k = "cache_ttl" then StdMap.find params k
          else match StdMap.find items k with
            | none => StdMap.find params k
            | some v =>
              (AuthManager.str_value v).map (AuthManager.kept_value k (StdMap.find params k)) := by
  induction items generalizing params with
  | nil =>
    refine ⟨rfl, fun k => ?_⟩
    simp [merge_search_items, StdMap.find]
  | cons hd tl ih =>
    obtain ⟨k0, v0⟩ := hd
    rw [List.map_cons, List.nodup_cons] at hkeys
    have ihtl := ih hkeys.2 (fun kv hkv => hvalues kv (List.mem_cons_of_mem _ hkv))
    have hnone : StdMap.find tl k0 = none := StdMap.find_eq_none_of_not_mem tl k0 hkeys.1
    unfold merge_search_items
    by_cases hc : k0 = "cache_ttl"
    · simp only [hc, if_true]
      refine ⟨(ihtl params).1, fun k => ?_⟩
      rw [(ihtl params).2 k]
      by_cases hk : k = "cache_ttl"
      · simp [hk]
      · have hk' : ¬ "cache_ttl" = k := fun h => hk h.symm
        simp [hk, StdMap.find, hk']
    · obtain ⟨s0, hs0⟩ := hvalues (k0, v0) (List.mem_cons_self _ _) hc
      have hpol := AuthManager.add_item_to_params_policy params k0 v0 s0 false hs0
      simp only [if_neg hc, hpol.1, Bool.not_true, Bool.false_eq_true, if_false]
      refine ⟨(ihtl _).1, fun k => ?_⟩
      rw [(ihtl _).2 k, hpol.2 k]
      by_cases hk : k = "cache_ttl"
      · have h0 : ¬ k0 = k := fun h => hc (h.trans hk)
        rw [if_pos hk, if_pos hk, if_neg h0]
      · simp only [if_neg hk]
        by_cases h0 : k0 = k
        · subst h0
          cases hold : StdMap.find params k0 <;>
            simp [StdMap.find, hnone, hs0, hold, AuthManager.kept_value]
        · simp [StdMap.find, h0]

/-- The searches that `post_multi_search` has run when its loop ends are the first
entries of `searches`, each run on the parameters of its own entry. -/
theorem run_searches_outcomes (core : Core) (orig_req_params : Params)
    (searches : List json) (params : Params) (outcomes : List (Result Bool × String)) :
    ∃ n, (run_searches core orig_req_params searches params outcomes).2.2
      = outcomes ++ (searches.take n).map fun search_params =>
          core.do_search (AuthManager.entry_params orig_req_params search_params) := by
  induction searches generalizing params outcomes with
  | nil => exact ⟨0, by simp [run_searches]⟩
  | cons hd tl ih =>
    unfold run_searches
    by_cases ho : (!hd.is_object) = true
    · rw [if_pos ho]
      exact ⟨0, by simp⟩
    · rw [if_neg ho]
      simp only
      by_cases hm : (!(merge_search_items orig_req_params hd.items).1) = true
      · rw [if_pos hm]
        exact ⟨0, by simp⟩
      · rw [if_neg hm]
        obtain ⟨n, hn⟩ := ih (merge_search_items orig_req_params hd.items).2
          (outcomes ++ [core.do_search (merge_search_items orig_req_params hd.items).2])
        exact ⟨n + 1, by rw [hn]; simp [AuthManager.entry_params]⟩

/-- When every entry is an object whose items the loop takes, all searches are run. -/
theorem run_searches_all (core : Core) (orig_req_params : Params)
    (searches : List json) (params : Params) (outcomes : List (Result Bool × String))
    (hwell : ∀ search_params ∈ searches, search_params.is_object = true
      ∧ (merge_search_items orig_req_params search_params.items).1 = true) :
    (run_searches core orig_req_params searches params outcomes).1 = none
      ∧ (run_searches core orig_req_params searches params outcomes).2.2
        = outcomes ++ searches.map fun search_params =>
            core.do_search (AuthManager.entry_params orig_req_params search_params) := by
  induction searches generalizing params outcomes with
  | nil => exact ⟨rfl, by simp [run_searches]⟩
  | cons hd tl ih =>
    obtain ⟨hobj, hmerged⟩ := hwell hd (List.mem_cons_self _ _)
    unfold run_searches
    rw [if_neg (by rw [hobj]; decide)]
    simp only
    rw [if_neg (by rw [hmerged]; decide)]
    obtain ⟨h1, h2⟩ := ih (merge_search_items orig_req_params hd.items).2
      (outcomes ++ [core.do_search (merge_search_items orig_req_params hd.items).2])
      (fun e he => hwell e (List.mem_cons_of_mem _ he))
    exact ⟨h1, by rw [h2]; simp [AuthManager.entry_params]⟩

/-- C28. `post_multi_search` runs its loop as `run_searches` on the parameters of the
request. Whatever the entries are, the searches it has run are the first entries of
`searches`, the i-th one on `entry_params`, the original parameters merged with the
items of the i-th entry alone. When every entry is an object with values that
`add_item_to_params` takes, every entry is run. In the parameters of an entry, the
original `cache_ttl` stands whatever the entry says, a key of the original parameters
keeps its value (the entry's `filter_by` being joined to the original one with `&&`),
and a key that only the entry has holds the text of the entry's value. -/
theorem C28_multi_search_isolation (core : Core) (orig_req_params : Params)
    (searches : List json)
    (hobj : ∀ search_params ∈ searches, search_params.is_object = true)
    (hkeys : ∀ search_params ∈ searches, (search_params.items.map Prod.fst).Nodup)
    (hvalues : ∀ search_params ∈ searches, ∀ kv ∈ search_params.items,
      kv.1 ≠ "cache_ttl" → ∃ s, AuthManager.str_value kv.2 = some s) :
    (∀ entries : List json, ∃ n,
        (run_searches core orig_req_params entries orig_req_params []).2.2
          = (entries.take n).map (fun search_params =>
              core.do_search (AuthManager.entry_params orig_req_params search_params)))
      ∧ (run_searches core orig_req_params searches orig_req_params []).1 = none
      ∧ (run_searches core orig_req_params searches orig_req_params []).2.2
        = searches.map (fun search_params =>
            core.do_search (AuthManager.entry_params orig_req_params search_params))
      ∧ ∀ search_params ∈ searches, ∀ k,
        StdMap.find (AuthManager.entry_params orig_req_params search_params) k
          = if k = "cache_ttl" then StdMap.find orig_req_params k
            else match StdMap.find search_params.items k with
              | none => StdMap.find orig_req_params k
              | some v => (AuthManager.str_value v).map
                  (AuthManager.kept_value k (StdMap.find orig_req_params k)) := by
  have hall := run_searches_all core orig_req_params searches orig_req_params []
    fun e he => ⟨hobj e he,
      (merge_search_items_find e.items (hkeys e he) (hvalues e he) orig_req_params).1⟩
  refine ⟨fun entries => ?_, hall.1, ?_, fun e he k => ?_⟩
  · obtain ⟨n, hn⟩ := run_searches_outcomes core orig_req_params entries orig_req_params []
    exact ⟨n, by rw [hn]; rfl⟩
  · rw [hall.2]
    rfl
  · exact (merge_search_items_find e.items (hkeys e he) (hvalues e he) orig_req_params).2 k

/-- C28, witness: a request with `filter_by=a:1` and `q=boot` and the two searches
`{"filter_by":"b:2","q":"shoe"}` and `{"cache_ttl":5,"per_page":3}`. The first
search runs with its filter joined to the original one and with the original `q`; the
second one with the original filter alone and with its own `per_page`, which sees
nothing of the first. -/
theorem C28_multi_search_isolation_witness :
    AuthManager.entry_params [("filter_by", "a:1"), ("q", "boot")]
        (json.object [("filter_by", json.string "b:2"), ("q", json.string "shoe")])
        = [("filter_by", "a:1&&b:2"), ("q", "boot")]
      ∧ AuthManager.entry_params [("filter_by", "a:1"), ("q", "boot")]
        (json.object [("cache_ttl", json.number_unsigned 5),
          ("per_page", json.number_unsigned 3)])
        = [("filter_by", "a:1"), ("per_page", "3"), ("q", "boot")]
      ∧ (run_searches Sample.core [("filter_by", "a:1"), ("q", "boot")]
          [json.object [("filter_by", json.string "b:2"), ("q", json.string "shoe")],
            json.object [("cache_ttl", json.number_unsigned 5),
              ("per_page", json.number_unsigned 3)]]
          [("filter_by", "a:1"), ("q", "boot")] []).2.2
        = [Sample.core.do_search [("filter_by", "a:1&&b:2"), ("q", "boot")],
          Sample.core.do_search [("filter_by", "a:1"), ("per_page", "3"), ("q", "boot")]] :=
  ⟨by decide, by decide,
    (C28_multi_search_isolation Sample.core [("filter_by", "a:1"), ("q", "boot")]
      [json.object [("filter_by", json.string "b:2"), ("q", json.string "shoe")],
        json.object [("cache_ttl", json.number_unsigned 5),
          ("per_page", json.number_unsigned 3)]]
      (by decide) (by decide)
      (by
        intro e he kv hkv hne
        simp only [List.mem_cons, List.mem_singleton, List.not_mem_nil, or_false] at he
        rcases he with rfl | rfl
        · simp only [json.items, List.mem_cons, List.mem_singleton, List.not_mem_nil,
            or_false] at hkv
          rcases hkv with rfl | rfl
          · exact ⟨"b:2", rfl⟩
          · exact ⟨"shoe", rfl⟩
        · simp only [json.items, List.mem_cons, List.mem_singleton, List.not_mem_nil,
            or_false] at hkv
          rcases hkv with rfl | rfl
          · exact absurd rfl hne
          · exact ⟨"3", rfl⟩)).2.2.1.trans (by decide)⟩

/-! ## The collections handed to authentication -/

theorem json.get_string_of_is_string (j : json) (h : j.is_string = true) :
    ∃ s, j.get_string = some s := by
  cases j <;> simp [json.is_string] at h
  exact ⟨_, rfl⟩

theorem json.get_string_of_not_string (j : json) (h : j.is_string = false) :
    j.get_string = none := by
  cases j <;> simp [json.is_string] at h <;> rfl

/-- The loop over `searches` when every `collection` it reads is a string: the names are
appended in order. -/
theorem searches_collections_strings (elems : List json) (collections : List String)
    (hstr : ∀ el ∈ elems, el.is_object = true → el.count "collection" ≠ 0 →
      (el.get "collection").is_string = true) :
    searches_collections elems collections
      = some (collections ++ elems.filterMap fun el =>
          if el.is_object = true ∧ el.count "collection" ≠ 0 then
            (el.get "collection").get_string
          else none) := by
  induction elems generalizing collections with
  | nil => simp [searches_collections]
  | cons hd tl ih =>
    have ihtl := fun acc => ih acc (fun el he => hstr el (List.mem_cons_of_mem _ he))
    unfold searches_collections
    by_cases hc : hd.is_object = true ∧ hd.count "collection" ≠ 0
    · obtain ⟨name, hname⟩ := json.get_string_of_is_string _
        (hstr hd (List.mem_cons_self _ _) hc.1 hc.2)
      rw [if_pos hc, hname]
      simp only
      rw [ihtl, List.filterMap_cons, if_pos hc, hname]
      simp
    · rw [if_neg hc, ihtl, List.filterMap_cons, if_neg hc]

/-- The loop over `searches` when an object element has a `collection` that is not a
string: `get<std::string>()` throws. -/
theorem searches_collections_throws (elems : List json) (collections : List String)
    (hbad : ∃ el ∈ elems, el.is_object = true ∧ el.count "collection" ≠ 0
      ∧ (el.get "collection").is_string = false) :
    searches_collections elems collections = none := by
  induction elems generalizing collections with
  | nil =>
    obtain ⟨el, hmem, _⟩ := hbad
    cases hmem
  | cons hd tl ih =>
    unfold searches_collections
    by_cases hc : hd.is_object = true ∧ hd.count "collection" ≠ 0
    · rw [if_pos hc]
      cases hget : (hd.get "collection").get_string with
      | none => rfl
      | some name =>
        simp only
        apply ih
        obtain ⟨el, hmem, hobj, hcount, hnot⟩ := hbad
        rcases List.mem_cons.mp hmem with h | h
        · subst h
          rw [json.get_string_of_not_string _ hnot] at hget
          cases hget
        · exact ⟨el, h, hobj, hcount, hnot⟩
    · rw [if_neg hc]
      apply ih
      obtain ⟨el, hmem, hobj, hcount, hnot⟩ := hbad
      rcases List.mem_cons.mp hmem with h | h
      · subst h
        exact absurd ⟨hobj, hcount⟩ hc
      · exact ⟨el, h, hobj, hcount, hnot⟩

theorem collection_param_of (req_params : Params) :
    (if StdMap.count req_params "collection" ≠ 0 then
        ([] : List String) ++ [(StdMap.find req_params "collection").getD ""]
      else [])
      = (StdMap.find req_params "collection").toList := by
  unfold StdMap.count
  cases StdMap.find req_params "collection" <;> simp

theorem json.searches_present (obj el : json) (hmem : el ∈ (obj.get "searches").elems) :
    obj.count "searches" ≠ 0 ∧ (obj.get "searches").is_array = true := by
  unfold json.get json.count StdMap.count at *
  cases hfind : StdMap.find obj.items "searches" with
  | none =>
    rw [hfind] at hmem
    simp [json.elems] at hmem
  | some value =>
    rw [hfind] at hmem
    simp only [Option.getD_some] at hmem ⊢
    cases value <;> simp [json.elems] at hmem
    exact ⟨by decide, rfl⟩

/-- C29. Called with an empty vector, as `handle_authentication` does:
for a handler other than multi-search and create-collection, `get_collections_for_auth`
fills in the `collection` parameter alone, or the empty string alone when there is none;
for the two other handlers a malformed body leaves the `collection` parameter (if any)
alone, without an empty string; for create-collection the string `name` of the body
follows the parameter; for multi-search the `collection` members of the object elements
of `searches` follow it in order, as long as each of them is a string. The divergence:
when an object element of `searches` has a `collection` that is not a string, the read
`get<std::string>()` of line 70 throws and no vector is handed on; the branch of
create-collection tests `is_string()` before the same read. -/
theorem C29_collections_for_auth (core : Core) (req_params : Params) (body : String)
    (handler : route_handler) (obj : json) :
    (handler ≠ route_handler.post_multi_search →
        handler ≠ route_handler.post_create_collection →
        get_collections_for_auth core req_params body handler []
          = some (match StdMap.find req_params "collection" with
            | some name => [name]
            | none => [""]))
      ∧ (core.json_parse body = none →
        get_collections_for_auth core req_params body route_handler.post_multi_search []
            = some (StdMap.find req_params "collection").toList
          ∧ get_collections_for_auth core req_params body
              route_handler.post_create_collection []
            = some (StdMap.find req_params "collection").toList)
      ∧ (core.json_parse body = some obj →
        get_collections_for_auth core req_params body route_handler.post_create_collection []
          = some ((StdMap.find req_params "collection").toList
            ++ if obj.count "name" ≠ 0 ∧ (obj.get "name").is_string = true then
                ((obj.get "name").get_string).toList
              else []))
      ∧ (core.json_parse body = some obj →
        (∀ el ∈ (obj.get "searches").elems, el.is_object = true →
          el.count "collection" ≠ 0 → (el.get "collection").is_string = true) →
        get_collections_for_auth core req_params body route_handler.post_multi_search []
          = some ((StdMap.find req_params "collection").toList
            ++ (obj.get "searches").elems.filterMap fun el =>
              if el.is_object = true ∧ el.count "collection" ≠ 0 then
                (el.get "collection").get_string
              else none))
      ∧ (core.json_parse body = some obj →
        (∃ el ∈ (obj.get "searches").elems, el.is_object = true
          ∧ el.count "collection" ≠ 0 ∧ (el.get "collection").is_string = false) →
        get_collections_for_auth core req_params body route_handler.post_multi_search []
          = none) := by
  refine ⟨?_, ?_, ?_, ?_, ?_⟩
  · intro h1 h2
    unfold get_collections_for_auth
    simp only [collection_param_of, if_neg h1, if_neg h2]
    cases StdMap.find req_params "collection" <;> simp
  · intro hparse
    unfold get_collections_for_auth
    simp only [collection_param_of, hparse]
    exact ⟨by simp, by simp⟩
  · intro hparse
    unfold get_collections_for_auth
    simp only [collection_param_of, hparse]
    by_cases hname : obj.count "name" ≠ 0 ∧ (obj.get "name").is_string = true
    · obtain ⟨name, hget⟩ := json.get_string_of_is_string _ hname.2
      simp [hname, hget]
    · simp [hname]
  · intro hparse hstr
    unfold get_collections_for_auth
    simp only [collection_param_of, hparse, if_true]
    by_cases hs : obj.count "searches" ≠ 0 ∧ (obj.get "searches").is_array = true
    · rw [if_pos hs]
      exact searches_collections_strings _ _ hstr
    · rw [if_neg hs]
      have hempty : (obj.get "searches").elems = [] := by
        cases hel : (obj.get "searches").elems with
        | nil => rfl
        | cons el rest =>
          exact absurd (json.searches_present obj el (by rw [hel]; exact List.mem_cons_self _ _))
            hs
      rw [hempty]
      simp
  · intro hparse hbad
    obtain ⟨el, hmem, hel⟩ := hbad
    unfold get_collections_for_auth
    simp only [collection_param_of, hparse, if_true]
    rw [if_pos (json.searches_present obj el hmem)]
    exact searches_collections_throws _ _ ⟨el, hmem, hel⟩

/-- C29, at the failing input: the multi-search body `{"searches":[{"collection":5}]}`
ends the call in the exception, for a request with and without a `collection`
parameter. A body whose collections are strings gives the list of the claim, and a route
such as the listing of keys gives the empty string. -/
theorem C29_collections_for_auth_witness :
    get_collections_for_auth Sample.admin_core [("collection", "c")]
        "\x7b\"searches\":[\x7b\"collection\":5\x7d]\x7d"
        route_handler.post_multi_search [] = none
      ∧ get_collections_for_auth Sample.admin_core []
        "\x7b\"searches\":[\x7b\"collection\":5\x7d]\x7d"
        route_handler.post_multi_search [] = none
      ∧ get_collections_for_auth Sample.admin_core [("collection", "c")]
        "\x7b\"searches\":[\x7b\"collection\":\"a\"\x7d,7,\x7b\"q\":\"x\"\x7d,\x7b\"collection\":\"b\"\x7d]\x7d"
        route_handler.post_multi_search [] = some ["c", "a", "b"]
      ∧ get_collections_for_auth Sample.admin_core [] "" route_handler.other []
        = some [""] :=
  ⟨(C29_collections_for_auth Sample.admin_core [("collection", "c")]
      "\x7b\"searches\":[\x7b\"collection\":5\x7d]\x7d" route_handler.post_multi_search
      (json.object [("searches", json.array [json.object
        [("collection", json.number_unsigned 5)]])])).2.2.2.2 rfl
      ⟨json.object [("collection", json.number_unsigned 5)], List.mem_singleton.mpr rfl,
        by decide, by decide, by decide⟩,
    by decide, by decide, by decide⟩

/-! ## The lags of `post_config` -/

theorem json.get_int32_bounds (j : json) :
    -(2 : Int) ^ 31 ≤ j.get_int32 ∧ j.get_int32 < 2 ^ 31 := by
  have hto : ∀ i : Int, -(2 : Int) ^ 31 ≤ json.to_int32 i ∧ json.to_int32 i < 2 ^ 31 := by
    intro i
    unfold json.to_int32
    simp only
    split_ifs <;> omega
  cases j with
  | number_integer i => exact hto i
  | number_unsigned n => exact hto n
  | _ => simp only [json.get_int32]; norm_num

theorem to_size_t_zero_iff (value : Int) (hlow : -(2 : Int) ^ 31 ≤ value)
    (hhigh : value < 2 ^ 31) : to_size_t value ≤ 0 ↔ value = 0 := by
  unfold to_size_t
  omega

theorem to_size_t_negative (value : Int) (hlow : -(2 : Int) ^ 31 ≤ value) (hneg : value < 0) :
    to_size_t value = (2 ^ 64 + value).toNat ∧ 2 ^ 63 ≤ to_size_t value := by
  unfold to_size_t
  omega

/-- C30, the divergence. The locals `read_lag` and `write_lag` are of the unsigned type
`size_t`, so that the test `<= 0` of lines 1304 and 1320 holds for 0 only. A lag that
reads as the `int` 0 is answered with `... must be a positive integer.` and is not set;
a lag that reads as a negative `int` passes the test and is set, as the number `2^64`
plus the lag, which is at least `2^63`. -/
theorem C30_negative_lag_accepted (req_json : json) (config : Config) (found_config : Bool) :
    (req_json.count "healthy-read-lag" ≠ 0 →
        (req_json.get "healthy-read-lag").is_number_integer = true →
        ((req_json.get "healthy-read-lag").get_int32 = 0 →
            post_config_read_lag req_json config found_config
              = Except.error "Configuration `healthy-read-lag` must be a positive integer.")
          ∧ ((req_json.get "healthy-read-lag").get_int32 < 0 →
            post_config_read_lag req_json config found_config
                = Except.ok ({ config with healthy_read_lag :=
                    (2 ^ 64 + (req_json.get "healthy-read-lag").get_int32).toNat }, true)
              ∧ 2 ^ 63 ≤ (2 ^ 64 + (req_json.get "healthy-read-lag").get_int32).toNat))
      ∧ (req_json.count "healthy-write-lag" ≠ 0 →
        (req_json.get "healthy-write-lag").is_number_integer = true →
        ((req_json.get "healthy-write-lag").get_int32 = 0 →
            post_config_write_lag req_json config found_config
              = Except.error "Configuration `healthy-write-lag` must be a positive integer.")
          ∧ ((req_json.get "healthy-write-lag").get_int32 < 0 →
            post_config_write_lag req_json config found_config
                = Except.ok ({ config with healthy_write_lag :=
                    (2 ^ 64 + (req_json.get "healthy-write-lag").get_int32).toNat }, true)
              ∧ 2 ^ 63 ≤ (2 ^ 64 + (req_json.get "healthy-write-lag").get_int32).toNat)) := by
  constructor
  · intro hcount hint
    have hb := json.get_int32_bounds (req_json.get "healthy-read-lag")
    constructor
    · intro hzero
      unfold post_config_read_lag
      rw [if_pos hcount, if_neg (by rw [hint]; decide)]
      simp only
      rw [if_pos ((to_size_t_zero_iff _ hb.1 hb.2).mpr hzero)]
    · intro hneg
      have hsz := to_size_t_negative _ hb.1 hneg
      refine ⟨?_, by rw [← hsz.1]; exact hsz.2⟩
      unfold post_config_read_lag
      rw [if_pos hcount, if_neg (by rw [hint]; decide)]
      simp only
      rw [if_neg (by omega), hsz.1]
  · intro hcount hint
    have hb := json.get_int32_bounds (req_json.get "healthy-write-lag")
    constructor
    · intro hzero
      unfold post_config_write_lag
      rw [if_pos hcount, if_neg (by rw [hint]; decide)]
      simp only
      rw [if_pos ((to_size_t_zero_iff _ hb.1 hb.2).mpr hzero)]
    · intro hneg
      have hsz := to_size_t_negative _ hb.1 hneg
      refine ⟨?_, by rw [← hsz.1]; exact hsz.2⟩
      unfold post_config_write_lag
      rw [if_pos hcount, if_neg (by rw [hint]; decide)]
      simp only
      rw [if_neg (by omega), hsz.1]

/-- C30, at the failing input: the body `{"healthy-read-lag":-5}` is answered with 201
and sets the read lag to 18446744073709551611, and so does `{"healthy-write-lag":-5}`
for the write lag; the body `{"healthy-read-lag":0}` is answered with 400 and sets
nothing. -/
theorem C30_negative_lag_accepted_witness :
    post_config_read_lag (json.object [("healthy-read-lag", json.number_integer (-5))])
        Sample.config false
        = Except.ok (⟨2000, 18446744073709551611, 500⟩, true)
      ∧ post_config Sample.admin_core Sample.dump Sample.config
          ⟨0, "\x7b\"healthy-read-lag\":-5\x7d", []⟩ Sample.fresh_res
        = (true, ⟨201, "application/json; charset=utf-8", "\x7b\"success\":true\x7d", false⟩,
          ⟨2000, 18446744073709551611, 500⟩)
      ∧ post_config Sample.admin_core Sample.dump Sample.config
          ⟨0, "\x7b\"healthy-write-lag\":-5\x7d", []⟩ Sample.fresh_res
        = (true, ⟨201, "application/json; charset=utf-8", "\x7b\"success\":true\x7d", false⟩,
          ⟨2000, 1000, 18446744073709551611⟩)
      ∧ post_config Sample.admin_core Sample.dump Sample.config
          ⟨0, "\x7b\"healthy-read-lag\":0\x7d", []⟩ Sample.fresh_res
        = (false, ⟨400, "application/json; charset=utf-8",
            "message:Configuration `healthy-read-lag` must be a positive integer.", false⟩,
          Sample.config) :=
  ⟨(((C30_negative_lag_accepted
      (json.object [("healthy-read-lag", json.number_integer (-5))]) Sample.config false).1
      (by decide) (by decide)).2 (by decide)).1.trans rfl,
    by decide, by decide, by decide⟩
